import Mathlib

/-!
# matriz_led: keypad, buzzer and 5x5 LED panel firmware

A shallow embedding of src/matriz_led.c and the properties proved about it.

Modelling conventions.

* Hardware access is explicit state passing over Hw: the levels last driven
  on the output pins, and the chronological trace of every SDK call made.
* C int values are Int, C uint / uint32_t values are Nat with an explicit
  reduction modulo 2 ^ 32 where the C arithmetic wraps.
* C double values are the rationals that binary64 represents: a literal is
  rounded to the nearest double (roundDouble) and a product is the exact
  product rounded to the nearest double (fmul), ties to even, with gradual
  underflow. Infinities and NaN are not modelled; they only arise from
  magnitudes above 1.7e308, whose conversion to unsigned char is undefined
  in C.
* Undefined behaviour (division by zero, an index outside an array, signed
  overflow) makes a function return none.
-/

namespace MatrizLed

/-! ## Configuration constants -/

/-- Number of LEDs of the panel. -/
def NUM_PIXELS : Nat := 25

/-- Data pin of the LED panel. -/
def OUT_PIN : Nat := 7

/-- Keypad row pin 1. -/
def ROW1 : Nat := 10
/-- Keypad row pin 2. -/
def ROW2 : Nat := 9
/-- Keypad row pin 3. -/
def ROW3 : Nat := 8
/-- Keypad row pin 4. -/
def ROW4 : Nat := 6

/-- Keypad column pin 1. -/
def COL1 : Nat := 5
/-- Keypad column pin 2. -/
def COL2 : Nat := 4
/-- Keypad column pin 3. -/
def COL3 : Nat := 3
/-- Keypad column pin 4. -/
def COL4 : Nat := 2

/-- Buzzer pin. -/
def BUZZER_PIN : Nat := 21

/-- Largest value of the C type int (32 bits). -/
def INT_MAX : Int := 2147483647

/-- Smallest value of the C type int (32 bits). -/
def INT_MIN : Int := -2147483648

/-! ## Binary64 arithmetic -/

/-- Rounding of a rational to the nearest integer, a tie going to the even
one. -/
def roundHalfEven (x : ℚ) : Int :=
  if x - ⌊x⌋ < 1 / 2 then ⌊x⌋
  else if 1 / 2 < x - ⌊x⌋ then ⌊x⌋ + 1
  else if ⌊x⌋ % 2 = 0 then ⌊x⌋
  else ⌊x⌋ + 1

/-- The binary64 value nearest to x (round to nearest, ties to even): 53
significant bits, so a spacing of 2 ^ (e - 52) in the binade 2 ^ e <= |x| <
2 ^ (e + 1), and the fixed spacing 2 ^ (-1074) below 2 ^ (-1022). This is the
value of a double literal and of the result of a double operation. -/
def roundDouble (x : ℚ) : ℚ :=
  if x = 0 then 0
  else
    let e := max (Int.log 2 |x|) (-1022)
    let ulp : ℚ := 2 ^ (e - 52)
    roundHalfEven (x / ulp) * ulp

/-- The product x * y of two doubles. -/
def fmul (x y : ℚ) : ℚ := roundDouble (x * y)

/-- The doubles of a two-dimensional array initialiser of double literals. -/
def doubleTable (table : List (List ℚ)) : List (List ℚ) :=
  table.map (List.map roundDouble)

/-! ## Data model -/

/-- The struct Animacao: a table of 25 frames of NUM_PIXELS intensities (rows
that an initialiser leaves out are zero), the number of frames in use, the
base colour and the frame rate. The double fields hold the values of the
doubles. -/
structure Animacao where
  frames : List (List ℚ)
  num_frames : Int
  r : ℚ
  g : ℚ
  b : ℚ
  fps : Int

/-- The element frames[frame][i] of an animation table, for frame < 25 and
i < NUM_PIXELS; an entry the initialiser leaves out is 0.0. -/
def Animacao.frame_at (anim : Animacao) (frame i : Nat) : ℚ :=
  (anim.frames.getD frame []).getD i 0

/-- The element table[frame][c] of a colour table. -/
def color_at (table : List (List ℚ)) (frame c : Nat) : ℚ :=
  (table.getD frame []).getD c 0

/-- One SDK call made by the firmware, with its arguments (and, for gpio_get,
the level that was read). call_buzzer_tone marks the entry into buzzer_tone. -/
inductive Event where
  | gpio_init (pin : Nat)
  | gpio_set_dir (pin : Nat) (out : Bool)
  | gpio_pull_up (pin : Nat)
  | gpio_put (pin : Nat) (value : Bool)
  | gpio_get (pin : Nat) (value : Bool)
  | sleep_us (us : Nat)
  | sleep_ms (ms : Nat)
  | pio_sm_put_blocking (pio sm data : Nat)
  | call_buzzer_tone (frequency duration_ms : Nat)
  | printf
  | reset_usb_boot
  deriving DecidableEq

/-- The state of the hardware as the firmware sees it: the level last driven on
each pin by gpio_put, and the trace of the SDK calls made so far, oldest
first. -/
structure Hw where
  pins : Nat → Bool
  trace : List Event

/-- Append one call to the trace, leaving the pins as they are. -/
def Hw.log (s : Hw) (e : Event) : Hw :=
  { s with trace := s.trace ++ [e] }

/-! ## SDK primitives -/

/-- The call gpio_init(pin). -/
def gpio_init (pin : Nat) (s : Hw) : Hw := s.log (Event.gpio_init pin)

/-- The call gpio_set_dir(pin, out). -/
def gpio_set_dir (pin : Nat) (out : Bool) (s : Hw) : Hw := s.log (Event.gpio_set_dir pin out)

/-- The call gpio_pull_up(pin). -/
def gpio_pull_up (pin : Nat) (s : Hw) : Hw := s.log (Event.gpio_pull_up pin)

/-- The call gpio_put(pin, value): drives the pin to the level. -/
def gpio_put (pin : Nat) (value : Bool) (s : Hw) : Hw :=
  { pins := fun p => if p = pin then value else s.pins p
    trace := s.trace ++ [Event.gpio_put pin value] }

/-- The call gpio_get(pin), which returned value. -/
def gpio_get (pin : Nat) (value : Bool) (s : Hw) : Hw := s.log (Event.gpio_get pin value)

/-- The call sleep_us(us). -/
def sleep_us (us : Nat) (s : Hw) : Hw := s.log (Event.sleep_us us)

/-- The call sleep_ms(ms). -/
def sleep_ms (ms : Nat) (s : Hw) : Hw := s.log (Event.sleep_ms ms)

/-- The call pio_sm_put_blocking(pio, sm, data). -/
def pio_sm_put_blocking (pio sm data : Nat) (s : Hw) : Hw :=
  s.log (Event.pio_sm_put_blocking pio sm data)

/-- Conversion of an int to uint / uint32_t: reduction modulo 2 ^ 32. -/
def toUint (x : Int) : Nat := (x % 2 ^ 32).toNat

/-- The loop for (k = start; k < start + n; k++) body(k): n iterations counting
up from start, abandoned with none as soon as the body is undefined. -/
def forLoop (body : Nat → Hw → Option Hw) : Nat → Nat → Hw → Option Hw
  | _, 0, s => some s
  | k, n + 1, s => (body k s).bind (forLoop body (k + 1) n)

/-! ## setup_gpio -/

/-- The array rows of setup_gpio and detect_key. -/
def rows : List Nat := [ROW1, ROW2, ROW3, ROW4]

/-- The array cols of setup_gpio and detect_key. -/
def cols : List Nat := [COL1, COL2, COL3, COL4]

/-- The function setup_gpio: rows are outputs driven high, columns are inputs
with pull-up, the buzzer is an output driven low. -/
def setup_gpio (s : Hw) : Option Hw :=
  (forLoop (fun i s =>
      some (gpio_put (rows.getD i 0) true
        (gpio_set_dir (rows.getD i 0) true (gpio_init (rows.getD i 0) s)))) 0 4 s).bind fun s =>
  (forLoop (fun i s =>
      some (gpio_pull_up (cols.getD i 0)
        (gpio_set_dir (cols.getD i 0) false (gpio_init (cols.getD i 0) s)))) 0 4 s).bind fun s =>
  some (gpio_put BUZZER_PIN false (gpio_set_dir BUZZER_PIN true (gpio_init BUZZER_PIN s)))

/-! ## buzzer_tone -/

/-- The function buzzer_tone(frequency, duration_ms), on uint arguments
(below 2 ^ 32). The product frequency * duration_ms is a uint product and
wraps modulo 2 ^ 32; a frequency of 0 divides by zero. -/
def buzzer_tone (frequency duration_ms : Nat) (s : Hw) : Option Hw :=
  if frequency = 0 then none
  else
    let period_us := 1000000 / frequency
    let half_period_us := period_us / 2
    let cycles := (frequency * duration_ms) % 2 ^ 32 / 1000
    forLoop (fun _ s =>
        some (sleep_us half_period_us (gpio_put BUZZER_PIN false
          (sleep_us half_period_us (gpio_put BUZZER_PIN true s)))))
      0 cycles (s.log (Event.call_buzzer_tone frequency duration_ms))

/-! ## detect_key -/

/-- The table keys[4][4] of detect_key. -/
def keys : List (List Char) :=
  [['1', '2', '3', 'A'],
   ['4', '5', '6', 'B'],
   ['7', '8', '9', 'C'],
   ['*', '0', '#', 'D']]

/-- The NUL character, which detect_key returns when no key is pressed. -/
def NUL : Char := Char.ofNat 0

/-- The element keys[i][j]. -/
def keys_at (i j : Nat) : Char := (keys.getD i []).getD j NUL

/-- The inner loop of detect_key over the columns j, j + 1, ... of row i, n
columns remaining. reads i j is the level gpio_get returns at scan step
(i, j). The result is some key when the function returned from inside the
loop. -/
def detect_key_cols (reads : Nat → Nat → Bool) (i : Nat) : Nat → Nat → Hw → Option Char × Hw
  | _, 0, s => (none, s)
  | j, n + 1, s =>
    let s1 := gpio_get (cols.getD j 0) (reads i j) s
    if reads i j = false then
      let s2 := sleep_ms 200 s1
      let s3 := gpio_put (rows.getD i 0) true s2
      (some (keys_at i j), s3)
    else
      detect_key_cols reads i (j + 1) n s1

/-- The outer loop of detect_key over the rows i, i + 1, ..., n rows
remaining, and the final return of the NUL character. -/
def detect_key_rows (reads : Nat → Nat → Bool) : Nat → Nat → Hw → Char × Hw
  | _, 0, s => (NUL, s)
  | i, n + 1, s =>
    let s1 := gpio_put (rows.getD i 0) false s
    match detect_key_cols reads i 0 4 s1 with
    | (some key, s2) => (key, s2)
    | (none, s2) => detect_key_rows reads (i + 1) n (gpio_put (rows.getD i 0) true s2)

/-- The function detect_key: the key returned and the hardware state on
return. -/
def detect_key (reads : Nat → Nat → Bool) (s : Hw) : Char × Hw :=
  detect_key_rows reads 0 4 s

/-! ## matrix_rgb -/

/-- Conversion of a double to an integer type: the fractional part is
discarded. -/
def truncate (x : ℚ) : Int := if 0 ≤ x then ⌊x⌋ else ⌈x⌉

/-- Conversion of a double to unsigned char. The conversion is defined for
values whose integral part is in 0 .. 255; other values are reduced modulo
256 here. -/
def toUChar (x : ℚ) : Nat := (truncate x % 256).toNat

/-- The function matrix_rgb(b, r, g). The shifts and ors are taken on 32-bit
two's complement words (G << 24 exceeds INT_MAX when G is 128 or more, and the
compiler wraps it), and the result is read as the uint32_t return value. -/
def matrix_rgb (b r g : ℚ) : Nat :=
  let R := toUChar (fmul r 255)
  let G := toUChar (fmul g 255)
  let B := toUChar (fmul b 255)
  ((G <<< 24) ||| (R <<< 16) ||| (B <<< 8)) % 2 ^ 32

/-! ## Drawing and animations -/

/-- The function desenho_pio(pio, sm, b, r, g). -/
def desenho_pio (pio sm : Nat) (b r g : ℚ) (s : Hw) : Option Hw :=
  forLoop (fun _ s =>
      let valor_led := matrix_rgb b r g
      some (pio_sm_put_blocking pio sm valor_led s)) 0 NUM_PIXELS s

/-- The function executar_animacao(pio, sm, anim, buzzer_freq,
buzzer_duration). -/
def executar_animacao (pio sm : Nat) (anim : Animacao) (buzzer_freq buzzer_duration : Int)
    (s : Hw) : Option Hw :=
  if anim.fps = 0 then none
  else
    let frame_delay := Int.tdiv 1000 anim.fps
    forLoop (fun frame s =>
        if 25 ≤ frame then none
        else
          (forLoop (fun i s =>
              let intensidade := anim.frame_at frame i
              let valor_led := matrix_rgb (fmul anim.b intensidade) (fmul anim.r intensidade)
                (fmul anim.g intensidade)
              some (pio_sm_put_blocking pio sm valor_led s)) 0 NUM_PIXELS s).bind fun s =>
          (if 0 < buzzer_freq ∧ 0 < buzzer_duration then
              buzzer_tone (toUint buzzer_freq) (toUint buzzer_duration) s
            else some s).bind fun s =>
          some (sleep_ms (toUint frame_delay) s))
      0 anim.num_frames.toNat s

/-- The function executar_animacao_multicolor(pio, sm, anim, buzzer_freq,
buzzer_duration, r2, g2, b2). -/
def executar_animacao_multicolor (pio sm : Nat) (anim : Animacao)
    (buzzer_freq buzzer_duration : Int) (r2 g2 b2 : ℚ) (s : Hw) : Option Hw :=
  if anim.fps = 0 then none
  else
    let frame_delay := Int.tdiv 1000 anim.fps
    forLoop (fun frame s =>
        if 25 ≤ frame then none
        else
          (forLoop (fun i s =>
              let intensidade := anim.frame_at frame i
              let valor_led :=
                if i % 2 = 0 then
                  matrix_rgb (fmul anim.b intensidade) (fmul anim.r intensidade) (fmul anim.g intensidade)
                else
                  matrix_rgb (fmul b2 intensidade) (fmul r2 intensidade) (fmul g2 intensidade)
              some (pio_sm_put_blocking pio sm valor_led s)) 0 NUM_PIXELS s).bind fun s =>
          (if 0 < buzzer_freq ∧ 0 < buzzer_duration then
              buzzer_tone (toUint buzzer_freq) (toUint buzzer_duration) s
            else some s).bind fun s =>
          some (sleep_ms (toUint frame_delay) s))
      0 anim.num_frames.toNat s

/-- The function executar_animacao_lorenzo(pio, sm). It reads the globals
animacao_5_lorenzo and lorenzo_colors; their values at the call are the
arguments anim and colors, and n_colors is the number of rows of the colour
table. -/
def executar_animacao_lorenzo_on (anim : Animacao) (colors : List (List ℚ)) (n_colors : Nat)
    (pio sm : Nat) (s : Hw) : Option Hw :=
  forLoop (fun frame s =>
      if 25 ≤ frame ∨ n_colors ≤ frame then none
      else
        (forLoop (fun i s =>
            let intensidade := anim.frame_at frame i
            let valor_led := matrix_rgb (fmul (color_at colors frame 2) intensidade)
              (fmul (color_at colors frame 0) intensidade) (fmul (color_at colors frame 1) intensidade)
            some (pio_sm_put_blocking pio sm valor_led s)) 0 NUM_PIXELS s).bind fun s =>
        (buzzer_tone (toUint (440 + (frame : Int) * 50)) 200 s).bind fun s =>
        if anim.fps = 0 then none
        else some (sleep_ms (toUint (Int.tdiv 1000 anim.fps)) s))
    0 anim.num_frames.toNat s

/-- The function executar_animacao_musica(pio, sm). It reads the globals
animacao_6_musica and musica_colors; their values at the call are the
arguments anim and colors, and n_colors is the number of rows of the colour
table. -/
def executar_animacao_musica_on (anim : Animacao) (colors : List (List ℚ)) (n_colors : Nat)
    (pio sm : Nat) (s : Hw) : Option Hw :=
  forLoop (fun frame s =>
      if 25 ≤ frame ∨ n_colors ≤ frame then none
      else
        (forLoop (fun i s =>
            let intensidade := anim.frame_at frame i
            let valor_led := matrix_rgb (fmul (color_at colors frame 2) intensidade)
              (fmul (color_at colors frame 0) intensidade) (fmul (color_at colors frame 1) intensidade)
            some (pio_sm_put_blocking pio sm valor_led s)) 0 NUM_PIXELS s).bind fun s =>
        if frame = 0 ∨ frame = 6 ∨ frame = 8 ∨ frame = 12 ∨ frame = 18 then
          (buzzer_tone 261 250 s).bind fun s =>
          if anim.fps = 0 then none
          else some (sleep_ms (toUint (Int.tdiv 1000 anim.fps)) s)
        else if frame = 1 ∨ frame = 7 ∨ frame = 9 ∨ frame = 10 ∨ frame = 11 ∨ frame = 19 then
          (buzzer_tone 293 250 s).bind fun s =>
          if anim.fps = 0 then none
          else some (sleep_ms (toUint (Int.tdiv 1000 anim.fps)) s)
        else if frame = 2 ∨ frame = 15 ∨ frame = 16 ∨ frame = 17 ∨ frame = 20 then
          (buzzer_tone 329 250 s).bind fun s =>
          if anim.fps = 0 then none
          else some (sleep_ms (toUint (Int.tdiv 1000 anim.fps)) s)
        else if frame = 3 ∨ frame = 4 ∨ frame = 5 ∨ frame = 14 ∨ frame = 21 ∨ frame = 22
            ∨ frame = 23 then
          (buzzer_tone 349 250 s).bind fun s =>
          if anim.fps = 0 then none
          else some (sleep_ms (toUint (Int.tdiv 1000 anim.fps)) s)
        else
          (buzzer_tone 392 250 s).bind fun s =>
          if anim.fps = 0 then none
          else some (sleep_ms (toUint (Int.tdiv 1000 anim.fps)) s))
    0 anim.num_frames.toNat s

/-- The function executar_animacao_sirene(pio, sm). It reads the global
animacao_7_sirene; its value at the call is the argument anim. The literals
1.0 and 0.0 of the colour are doubles as they stand. -/
def executar_animacao_sirene_on (anim : Animacao) (pio sm : Nat) (s : Hw) : Option Hw :=
  if anim.fps = 0 then none
  else
    let frame_delay := Int.tdiv 1000 anim.fps
    if 3 * anim.fps < INT_MIN ∨ INT_MAX < 3 * anim.fps then none
    else
      let repeat_count := 3 * anim.fps
      forLoop (fun repeat_ s =>
          if anim.num_frames = 0 then none
          else
            let frame := Int.tmod (repeat_ : Int) anim.num_frames
            if frame < 0 ∨ 25 ≤ frame then none
            else
              (forLoop (fun i s =>
                  let intensidade := anim.frame_at frame.toNat i
                  let r : ℚ := if Int.tmod frame 2 = 0 then 1.0 else 0.0
                  let g : ℚ := 0.0
                  let b : ℚ := if Int.tmod frame 2 = 0 then 0.0 else 1.0
                  let valor_led := matrix_rgb (fmul b intensidade) (fmul r intensidade)
                    (fmul g intensidade)
                  some (pio_sm_put_blocking pio sm valor_led s)) 0 NUM_PIXELS s).bind fun s =>
              (buzzer_tone (toUint (1000 - Int.tmod frame 2 * 300)) (toUint frame_delay) s).bind
                fun s =>
              some (sleep_ms (toUint frame_delay) s))
        0 repeat_count.toNat s

/-! ## The animation tables -/

/-- The table animacao_0 of the source. -/
def animacao_0 : Animacao where
  frames := doubleTable [
    [0.0, 0.2, 0.4, 0.6, 0.8, 1.0, 0.8, 0.6, 0.4, 0.2, 0.0, 0.2, 0.4, 0.6, 0.8, 1.0, 0.8, 0.6, 0.4, 0.2, 0.0, 0.2, 0.4, 0.6, 0.8],
    [0.8, 0.0, 0.2, 0.4, 0.6, 0.8, 1.0, 0.8, 0.6, 0.4, 0.2, 0.0, 0.2, 0.4, 0.6, 0.8, 1.0, 0.8, 0.6, 0.4, 0.2, 0.0, 0.2, 0.4, 0.6],
    [0.6, 0.8, 0.0, 0.2, 0.4, 0.6, 0.8, 1.0, 0.8, 0.6, 0.4, 0.2, 0.0, 0.2, 0.4, 0.6, 0.8, 1.0, 0.8, 0.6, 0.4, 0.2, 0.0, 0.2, 0.4],
    [0.4, 0.6, 0.8, 0.0, 0.2, 0.4, 0.6, 0.8, 1.0, 0.8, 0.6, 0.4, 0.2, 0.0, 0.2, 0.4, 0.6, 0.8, 1.0, 0.8, 0.6, 0.4, 0.2, 0.0, 0.2],
    [0.2, 0.4, 0.6, 0.8, 1.0, 0.2, 0.4, 0.6, 0.8, 1.0, 0.2, 0.4, 0.6, 0.8, 1.0, 0.2, 0.4, 0.6, 0.8, 1.0, 0.2, 0.4, 0.6, 0.8, 1.0]
  ]
  num_frames := 5
  r := roundDouble 1.0
  g := roundDouble 0.0
  b := roundDouble 1.0
  fps := 7

/-- The table animacao_1 of the source. -/
def animacao_1 : Animacao where
  frames := doubleTable [
    [0.0, 0.2, 0.0, 0.2, 0.0, 0.2, 0.0, 0.2, 0.0, 0.2, 0.0, 0.2, 0.0, 0.2, 0.0, 0.2, 0.0, 0.2, 0.0, 0.2, 0.0, 0.2, 0.0, 0.2, 0.0],
    [0.2, 0.4, 0.2, 0.4, 0.2, 0.4, 0.2, 0.4, 0.2, 0.4, 0.2, 0.4, 0.2, 0.4, 0.2, 0.4, 0.2, 0.4, 0.2, 0.4, 0.2, 0.4, 0.2, 0.4, 0.2],
    [0.4, 0.6, 0.4, 0.6, 0.4, 0.6, 0.4, 0.6, 0.4, 0.6, 0.4, 0.6, 0.4, 0.6, 0.4, 0.6, 0.4, 0.6, 0.4, 0.6, 0.4, 0.6, 0.4, 0.6, 0.4],
    [0.6, 0.8, 0.6, 0.8, 0.6, 0.8, 0.6, 0.8, 0.6, 0.8, 0.6, 0.8, 0.6, 0.8, 0.6, 0.8, 0.6, 0.8, 0.6, 0.8, 0.6, 0.8, 0.6, 0.8, 0.6],
    [0.8, 1.0, 0.8, 1.0, 0.8, 1.0, 0.8, 1.0, 0.8, 1.0, 0.8, 1.0, 0.8, 1.0, 0.8, 1.0, 0.8, 1.0, 0.8, 1.0, 0.8, 1.0, 0.8, 1.0, 0.8]
  ]
  num_frames := 5
  r := roundDouble 1.0
  g := roundDouble 0.8
  b := roundDouble 0.0
  fps := 5

/-- The table animacao_2 of the source. -/
def animacao_2 : Animacao where
  frames := doubleTable [
    [0.2, 0.4, 0.6, 0.8, 1.0, 0.2, 0.4, 0.6, 0.8, 1.0, 0.2, 0.4, 0.6, 0.8, 1.0, 0.2, 0.4, 0.6, 0.8, 1.0, 0.2, 0.4, 0.6, 0.8, 1.0],
    [1.0, 0.8, 0.6, 0.4, 0.2, 1.0, 0.8, 0.6, 0.4, 0.2, 1.0, 0.8, 0.6, 0.4, 0.2, 1.0, 0.8, 0.6, 0.4, 0.2, 1.0, 0.8, 0.6, 0.4, 0.2],
    [0.2, 0.4, 0.6, 0.8, 1.0, 0.2, 0.4, 0.6, 0.8, 1.0, 0.2, 0.4, 0.6, 0.8, 1.0, 0.2, 0.4, 0.6, 0.8, 1.0, 0.2, 0.4, 0.6, 0.8, 1.0],
    [1.0, 0.8, 0.6, 0.4, 0.2, 1.0, 0.8, 0.6, 0.4, 0.2, 1.0, 0.8, 0.6, 0.4, 0.2, 1.0, 0.8, 0.6, 0.4, 0.2, 1.0, 0.8, 0.6, 0.4, 0.2],
    [0.2, 0.4, 0.6, 0.8, 1.0, 0.2, 0.4, 0.6, 0.8, 1.0, 0.2, 0.4, 0.6, 0.8, 1.0, 0.2, 0.4, 0.6, 0.8, 1.0, 0.2, 0.4, 0.6, 0.8, 1.0]
  ]
  num_frames := 5
  r := roundDouble 0.0
  g := roundDouble 0.0
  b := roundDouble 1.0
  fps := 5

/-- The table animacao_3 of the source. -/
def animacao_3 : Animacao where
  frames := doubleTable [
    [0.8, 0.6, 0.4, 0.2, 0.0, 1.0, 0.8, 0.6, 0.4, 0.2, 0.8, 0.6, 0.4, 0.2, 1.0, 0.8, 0.6, 0.4, 0.2, 1.0, 0.8, 0.6, 0.4, 0.2, 0.0],
    [0.2, 0.4, 0.6, 0.8, 1.0, 0.0, 0.2, 0.4, 0.6, 0.8, 1.0, 0.2, 0.4, 0.6, 0.8, 1.0, 0.2, 0.4, 0.6, 0.8, 1.0, 0.0, 0.2, 0.4, 0.6],
    [1.0, 0.8, 0.6, 0.4, 0.2, 1.0, 0.8, 0.6, 0.4, 0.2, 1.0, 0.8, 0.6, 0.4, 0.2, 1.0, 0.8, 0.6, 0.4, 0.2, 1.0, 0.8, 0.6, 0.4, 0.2],
    [0.4, 0.6, 0.8, 1.0, 0.2, 0.4, 0.6, 0.8, 1.0, 0.2, 0.4, 0.6, 0.8, 1.0, 0.4, 0.6, 0.8, 1.0, 0.2, 0.4, 0.6, 0.8, 1.0, 0.2, 0.4],
    [0.6, 0.8, 1.0, 0.2, 0.4, 0.6, 0.8, 1.0, 0.2, 0.4, 0.6, 0.8, 1.0, 0.2, 0.4, 0.6, 0.8, 1.0, 0.6, 0.8, 1.0, 0.2, 0.4, 0.6, 0.8]
  ]
  num_frames := 5
  r := roundDouble 0.5
  g := roundDouble 0.0
  b := roundDouble 0.0
  fps := 5

/-- The table animacao_4 of the source. -/
def animacao_4 : Animacao where
  frames := doubleTable [
    [0.0, 0.0, 0.0, 0.0, 1.0, 1.0, 0.0, 0.0, 0.0, 0.0, 0.0, 0.0, 0.0, 0.0, 1.0, 1.0, 0.0, 0.0, 0.0, 0.0, 0.0, 0.0, 0.0, 0.0, 1.0],
    [0.0, 0.0, 0.0, 1.0, 0.0, 0.0, 1.0, 0.0, 0.0, 0.0, 0.0, 0.0, 0.0, 1.0, 0.0, 0.0, 1.0, 0.0, 0.0, 0.0, 0.0, 0.0, 0.0, 1.0, 0.0],
    [0.0, 0.0, 1.0, 0.0, 0.0, 0.0, 0.0, 1.0, 0.0, 0.0, 0.0, 0.0, 1.0, 0.0, 0.0, 0.0, 0.0, 1.0, 0.0, 0.0, 0.0, 0.0, 1.0, 0.0, 0.0],
    [0.0, 1.0, 0.0, 0.0, 0.0, 0.0, 0.0, 0.0, 1.0, 0.0, 0.0, 1.0, 0.0, 0.0, 0.0, 0.0, 0.0, 0.0, 1.0, 0.0, 0.0, 1.0, 0.0, 0.0, 0.0],
    [1.0, 0.0, 0.0, 0.0, 0.0, 0.0, 0.0, 0.0, 0.0, 1.0, 1.0, 0.0, 0.0, 0.0, 0.0, 0.0, 0.0, 0.0, 0.0, 1.0, 1.0, 0.0, 0.0, 0.0, 0.0],
    [1.0, 0.0, 0.0, 0.0, 0.0, 0.0, 0.0, 0.0, 0.0, 1.0, 1.0, 0.0, 0.0, 0.0, 0.0, 0.0, 0.0, 0.0, 0.0, 1.0, 1.0, 0.0, 0.0, 0.0, 0.0],
    [0.0, 1.0, 0.0, 0.0, 0.0, 0.0, 0.0, 0.0, 1.0, 0.0, 0.0, 1.0, 0.0, 0.0, 0.0, 0.0, 0.0, 0.0, 1.0, 0.0, 0.0, 1.0, 0.0, 0.0, 0.0],
    [0.0, 0.0, 1.0, 0.0, 0.0, 0.0, 0.0, 1.0, 0.0, 0.0, 0.0, 0.0, 1.0, 0.0, 0.0, 0.0, 0.0, 1.0, 0.0, 0.0, 0.0, 0.0, 1.0, 0.0, 0.0],
    [0.0, 0.0, 0.0, 1.0, 0.0, 0.0, 1.0, 0.0, 0.0, 0.0, 0.0, 0.0, 0.0, 1.0, 0.0, 0.0, 1.0, 0.0, 0.0, 0.0, 0.0, 0.0, 0.0, 1.0, 0.0],
    [0.0, 0.0, 0.0, 0.0, 1.0, 1.0, 0.0, 0.0, 0.0, 0.0, 0.0, 0.0, 0.0, 0.0, 1.0, 1.0, 0.0, 0.0, 0.0, 0.0, 0.0, 0.0, 0.0, 0.0, 1.0]
  ]
  num_frames := 10
  r := roundDouble 0.0
  g := roundDouble 1.0
  b := roundDouble 1.0
  fps := 3

/-- The table animacao_5_lorenzo of the source. -/
def animacao_5_lorenzo : Animacao where
  frames := doubleTable [
    [1.0, 1.0, 1.0, 1.0, 1.0, 1.0, 0.0, 0.0, 0.0, 0.0, 0.0, 0.0, 0.0, 0.0, 1.0, 1.0, 0.0, 0.0, 0.0, 0.0, 0.0, 0.0, 0.0, 0.0, 1.0],
    [1.0, 1.0, 1.0, 1.0, 1.0, 1.0, 0.0, 0.0, 0.0, 1.0, 1.0, 0.0, 0.0, 0.0, 1.0, 1.0, 0.0, 0.0, 0.0, 1.0, 1.0, 1.0, 1.0, 1.0, 1.0],
    [1.0, 0.0, 0.0, 0.0, 1.0, 1.0, 0.0, 1.0, 0.0, 0.0, 1.0, 1.0, 1.0, 1.0, 1.0, 1.0, 0.0, 0.0, 0.0, 1.0, 1.0, 1.0, 1.0, 1.0, 1.0],
    [1.0, 1.0, 1.0, 1.0, 1.0, 1.0, 0.0, 0.0, 0.0, 0.0, 1.0, 1.0, 1.0, 1.0, 1.0, 1.0, 0.0, 0.0, 0.0, 0.0, 1.0, 1.0, 1.0, 1.0, 1.0],
    [1.0, 0.0, 0.0, 0.0, 1.0, 1.0, 0.0, 0.0, 1.0, 1.0, 1.0, 0.0, 1.0, 0.0, 1.0, 1.0, 1.0, 0.0, 0.0, 1.0, 1.0, 0.0, 0.0, 0.0, 1.0],
    [1.0, 1.0, 1.0, 1.0, 1.0, 0.0, 1.0, 0.0, 0.0, 0.0, 0.0, 0.0, 1.0, 0.0, 0.0, 0.0, 0.0, 0.0, 1.0, 0.0, 1.0, 1.0, 1.0, 1.0, 1.0],
    [1.0, 1.0, 1.0, 1.0, 1.0, 1.0, 0.0, 0.0, 0.0, 1.0, 1.0, 0.0, 0.0, 0.0, 1.0, 1.0, 0.0, 0.0, 0.0, 1.0, 1.0, 1.0, 1.0, 1.0, 1.0]
  ]
  num_frames := 7
  r := roundDouble 0.0
  g := roundDouble 0.0
  b := roundDouble 0.0
  fps := 2

/-- The table animacao_6_musica of the source. -/
def animacao_6_musica : Animacao where
  frames := doubleTable [
    [0.0, 0.0, 0.0, 0.0, 0.0, 0.0, 0.0, 0.0, 0.0, 0.0, 0.0, 0.0, 0.0, 0.0, 0.0, 0.0, 0.0, 0.0, 0.0, 0.0, 1.0, 1.0, 1.0, 1.0, 1.0],
    [0.0, 0.0, 0.0, 0.0, 0.0, 0.0, 0.0, 0.0, 0.0, 0.0, 0.0, 0.0, 0.0, 0.0, 0.0, 1.0, 1.0, 1.0, 1.0, 1.0, 0.0, 0.0, 0.0, 0.0, 0.0],
    [0.0, 0.0, 0.0, 0.0, 0.0, 0.0, 0.0, 0.0, 0.0, 0.0, 1.0, 1.0, 1.0, 1.0, 1.0, 0.0, 0.0, 0.0, 0.0, 0.0, 0.0, 0.0, 0.0, 0.0, 0.0],
    [0.0, 0.0, 0.0, 0.0, 0.0, 1.0, 1.0, 1.0, 1.0, 1.0, 0.0, 0.0, 0.0, 0.0, 0.0, 0.0, 0.0, 0.0, 0.0, 0.0, 0.0, 0.0, 0.0, 0.0, 0.0],
    [0.0, 0.0, 0.0, 0.0, 0.0, 1.0, 1.0, 1.0, 1.0, 1.0, 0.0, 0.0, 0.0, 0.0, 0.0, 0.0, 0.0, 0.0, 0.0, 0.0, 0.0, 0.0, 0.0, 0.0, 0.0],
    [0.0, 0.0, 0.0, 0.0, 0.0, 1.0, 1.0, 1.0, 1.0, 1.0, 0.0, 0.0, 0.0, 0.0, 0.0, 0.0, 0.0, 0.0, 0.0, 0.0, 0.0, 0.0, 0.0, 0.0, 0.0],
    [0.0, 0.0, 0.0, 0.0, 0.0, 0.0, 0.0, 0.0, 0.0, 0.0, 0.0, 0.0, 0.0, 0.0, 0.0, 0.0, 0.0, 0.0, 0.0, 0.0, 1.0, 1.0, 1.0, 1.0, 1.0],
    [0.0, 0.0, 0.0, 0.0, 0.0, 0.0, 0.0, 0.0, 0.0, 0.0, 0.0, 0.0, 0.0, 0.0, 0.0, 1.0, 1.0, 1.0, 1.0, 1.0, 0.0, 0.0, 0.0, 0.0, 0.0],
    [0.0, 0.0, 0.0, 0.0, 0.0, 0.0, 0.0, 0.0, 0.0, 0.0, 0.0, 0.0, 0.0, 0.0, 0.0, 0.0, 0.0, 0.0, 0.0, 0.0, 1.0, 1.0, 1.0, 1.0, 1.0],
    [0.0, 0.0, 0.0, 0.0, 0.0, 0.0, 0.0, 0.0, 0.0, 0.0, 0.0, 0.0, 0.0, 0.0, 0.0, 1.0, 1.0, 1.0, 1.0, 1.0, 0.0, 0.0, 0.0, 0.0, 0.0],
    [0.0, 0.0, 0.0, 0.0, 0.0, 0.0, 0.0, 0.0, 0.0, 0.0, 0.0, 0.0, 0.0, 0.0, 0.0, 1.0, 1.0, 1.0, 1.0, 1.0, 0.0, 0.0, 0.0, 0.0, 0.0],
    [0.0, 0.0, 0.0, 0.0, 0.0, 0.0, 0.0, 0.0, 0.0, 0.0, 0.0, 0.0, 0.0, 0.0, 0.0, 1.0, 1.0, 1.0, 1.0, 1.0, 0.0, 0.0, 0.0, 0.0, 0.0],
    [0.0, 0.0, 0.0, 0.0, 0.0, 0.0, 0.0, 0.0, 0.0, 0.0, 0.0, 0.0, 0.0, 0.0, 0.0, 0.0, 0.0, 0.0, 0.0, 0.0, 1.0, 1.0, 1.0, 1.0, 1.0],
    [1.0, 1.0, 1.0, 1.0, 1.0, 0.0, 0.0, 0.0, 0.0, 0.0, 0.0, 0.0, 0.0, 0.0, 0.0, 0.0, 0.0, 0.0, 0.0, 0.0, 0.0, 0.0, 0.0, 0.0, 0.0],
    [0.0, 0.0, 0.0, 0.0, 0.0, 1.0, 1.0, 1.0, 1.0, 1.0, 0.0, 0.0, 0.0, 0.0, 0.0, 0.0, 0.0, 0.0, 0.0, 0.0, 0.0, 0.0, 0.0, 0.0, 0.0],
    [0.0, 0.0, 0.0, 0.0, 0.0, 0.0, 0.0, 0.0, 0.0, 0.0, 1.0, 1.0, 1.0, 1.0, 1.0, 0.0, 0.0, 0.0, 0.0, 0.0, 0.0, 0.0, 0.0, 0.0, 0.0],
    [0.0, 0.0, 0.0, 0.0, 0.0, 0.0, 0.0, 0.0, 0.0, 0.0, 1.0, 1.0, 1.0, 1.0, 1.0, 0.0, 0.0, 0.0, 0.0, 0.0, 0.0, 0.0, 0.0, 0.0, 0.0],
    [0.0, 0.0, 0.0, 0.0, 0.0, 0.0, 0.0, 0.0, 0.0, 0.0, 1.0, 1.0, 1.0, 1.0, 1.0, 0.0, 0.0, 0.0, 0.0, 0.0, 0.0, 0.0, 0.0, 0.0, 0.0],
    [0.0, 0.0, 0.0, 0.0, 0.0, 0.0, 0.0, 0.0, 0.0, 0.0, 0.0, 0.0, 0.0, 0.0, 0.0, 0.0, 0.0, 0.0, 0.0, 0.0, 1.0, 1.0, 1.0, 1.0, 1.0],
    [0.0, 0.0, 0.0, 0.0, 0.0, 0.0, 0.0, 0.0, 0.0, 0.0, 0.0, 0.0, 0.0, 0.0, 0.0, 1.0, 1.0, 1.0, 1.0, 1.0, 0.0, 0.0, 0.0, 0.0, 0.0],
    [0.0, 0.0, 0.0, 0.0, 0.0, 0.0, 0.0, 0.0, 0.0, 0.0, 1.0, 1.0, 1.0, 1.0, 1.0, 0.0, 0.0, 0.0, 0.0, 0.0, 0.0, 0.0, 0.0, 0.0, 0.0],
    [0.0, 0.0, 0.0, 0.0, 0.0, 1.0, 1.0, 1.0, 1.0, 1.0, 0.0, 0.0, 0.0, 0.0, 0.0, 0.0, 0.0, 0.0, 0.0, 0.0, 0.0, 0.0, 0.0, 0.0, 0.0],
    [0.0, 0.0, 0.0, 0.0, 0.0, 1.0, 1.0, 1.0, 1.0, 1.0, 0.0, 0.0, 0.0, 0.0, 0.0, 0.0, 0.0, 0.0, 0.0, 0.0, 0.0, 0.0, 0.0, 0.0, 0.0],
    [0.0, 0.0, 0.0, 0.0, 0.0, 1.0, 1.0, 1.0, 1.0, 1.0, 0.0, 0.0, 0.0, 0.0, 0.0, 0.0, 0.0, 0.0, 0.0, 0.0, 0.0, 0.0, 0.0, 0.0, 0.0]
  ]
  num_frames := 24
  r := roundDouble 0.0
  g := roundDouble 0.0
  b := roundDouble 0.0
  fps := 4

/-- The table animacao_7_sirene of the source. -/
def animacao_7_sirene : Animacao where
  frames := doubleTable [
    [1.0, 0.0, 0.0, 1.0, 0.0, 0.0, 1.0, 0.0, 0.0, 1.0, 0.0, 0.0, 1.0, 0.0, 0.0, 1.0, 0.0, 0.0, 1.0, 0.0, 0.0, 1.0, 0.0, 0.0, 1.0],
    [0.0, 0.0, 1.0, 0.0, 0.0, 1.0, 0.0, 0.0, 1.0, 0.0, 0.0, 1.0, 0.0, 0.0, 1.0, 0.0, 0.0, 1.0, 0.0, 0.0, 1.0, 0.0, 0.0, 1.0, 0.0],
    [1.0, 0.0, 0.0, 1.0, 0.0, 0.0, 1.0, 0.0, 0.0, 1.0, 0.0, 0.0, 1.0, 0.0, 0.0, 1.0, 0.0, 0.0, 1.0, 0.0, 0.0, 1.0, 0.0, 0.0, 1.0],
    [0.0, 0.0, 1.0, 0.0, 0.0, 1.0, 0.0, 0.0, 1.0, 0.0, 0.0, 1.0, 0.0, 0.0, 1.0, 0.0, 0.0, 1.0, 0.0, 0.0, 1.0, 0.0, 0.0, 1.0, 0.0],
    [1.0, 0.0, 0.0, 1.0, 0.0, 0.0, 1.0, 0.0, 0.0, 1.0, 0.0, 0.0, 1.0, 0.0, 0.0, 1.0, 0.0, 0.0, 1.0, 0.0, 0.0, 1.0, 0.0, 0.0, 1.0],
    [0.0, 0.0, 1.0, 0.0, 0.0, 1.0, 0.0, 0.0, 1.0, 0.0, 0.0, 1.0, 0.0, 0.0, 1.0, 0.0, 0.0, 1.0, 0.0, 0.0, 1.0, 0.0, 0.0, 1.0, 0.0]
  ]
  num_frames := 6
  r := roundDouble 1.0
  g := roundDouble 0.0
  b := roundDouble 0.0
  fps := 3

/-- The table animacao_countdown of the source. -/
def animacao_countdown : Animacao where
  frames := doubleTable [
    [0.8, 0.8, 0.8, 0.8, 0.8, 0.0, 0.0, 0.0, 0.0, 0.8, 0.8, 0.8, 0.8, 0.8, 0.8, 0.8, 0.0, 0.0, 0.0, 0.0, 0.8, 0.8, 0.8, 0.8, 0.8],
    [0.8, 0.0, 0.0, 0.0, 0.0, 0.0, 0.0, 0.0, 0.0, 0.8, 0.8, 0.8, 0.8, 0.8, 0.8, 0.8, 0.0, 0.0, 0.0, 0.0, 0.8, 0.0, 0.0, 0.0, 0.8],
    [0.8, 0.8, 0.8, 0.8, 0.8, 0.0, 0.0, 0.0, 0.0, 0.8, 0.8, 0.8, 0.8, 0.8, 0.8, 0.0, 0.0, 0.0, 0.0, 0.8, 0.8, 0.8, 0.8, 0.8, 0.8],
    [0.8, 0.8, 0.8, 0.8, 0.8, 0.8, 0.0, 0.0, 0.0, 0.0, 0.8, 0.8, 0.8, 0.8, 0.8, 0.0, 0.0, 0.0, 0.0, 0.8, 0.8, 0.8, 0.8, 0.8, 0.8],
    [0.0, 0.0, 0.8, 0.0, 0.0, 0.0, 0.0, 0.8, 0.0, 0.0, 0.0, 0.0, 0.8, 0.0, 0.0, 0.0, 0.0, 0.8, 0.0, 0.0, 0.0, 0.0, 0.8, 0.0, 0.0],
    [0.8, 0.8, 0.8, 0.8, 0.8, 0.8, 0.0, 0.0, 0.0, 0.8, 0.8, 0.0, 0.0, 0.0, 0.8, 0.8, 0.0, 0.0, 0.0, 0.8, 0.8, 0.8, 0.8, 0.8, 0.8]
  ]
  num_frames := 6
  r := roundDouble 0.5
  g := roundDouble 0.0
  b := roundDouble 0.0
  fps := 1

/-- The table animacao_9_Felipe of the source. -/
def animacao_9_Felipe : Animacao where
  frames := doubleTable [
    [0.0, 0.0, 0.0, 0.0, 0.0, 0.0, 0.0, 0.0, 0.0, 0.0, 0.0, 0.0, 0.0, 0.0, 0.0, 0.0, 0.0, 0.0, 0.0, 0.0, 0.0, 0.0, 1.0, 0.0, 0.0],
    [0.0, 0.0, 0.0, 0.0, 0.0, 0.0, 0.0, 0.0, 0.0, 0.0, 0.0, 0.0, 0.0, 0.0, 0.0, 0.0, 0.0, 1.0, 0.0, 0.0, 0.0, 0.0, 0.0, 0.0, 0.0],
    [0.0, 0.0, 0.0, 0.0, 0.0, 0.0, 0.0, 0.0, 0.0, 0.0, 0.0, 0.0, 1.0, 0.0, 0.0, 0.0, 0.0, 0.0, 0.0, 0.0, 0.0, 0.0, 0.0, 0.0, 0.0],
    [0.0, 0.0, 0.0, 0.0, 0.0, 0.0, 0.0, 0.0, 0.0, 0.0, 0.0, 0.0, 1.0, 0.0, 0.0, 0.0, 0.0, 0.0, 0.0, 0.0, 0.0, 0.0, 0.0, 0.0, 0.0],
    [0.0, 0.0, 0.0, 0.0, 0.0, 0.0, 0.0, 1.0, 0.0, 0.0, 0.0, 1.0, 0.0, 1.0, 0.0, 0.0, 0.0, 1.0, 0.0, 0.0, 0.0, 0.0, 0.0, 0.0, 0.0],
    [0.0, 0.0, 0.0, 0.0, 0.0, 0.0, 1.0, 0.0, 1.0, 0.0, 0.0, 0.0, 1.0, 0.0, 0.0, 0.0, 1.0, 0.0, 1.0, 0.0, 0.0, 0.0, 0.0, 0.0, 0.0],
    [0.0, 0.0, 0.0, 0.0, 0.0, 0.0, 0.0, 1.0, 0.0, 0.0, 0.0, 1.0, 0.0, 1.0, 0.0, 0.0, 0.0, 1.0, 0.0, 0.0, 0.0, 0.0, 0.0, 0.0, 0.0],
    [0.0, 0.0, 0.0, 0.0, 0.0, 0.0, 1.0, 0.0, 1.0, 0.0, 0.0, 0.0, 1.0, 0.0, 0.0, 0.0, 1.0, 0.0, 1.0, 0.0, 0.0, 0.0, 0.0, 0.0, 0.0],
    [0.0, 0.0, 0.0, 0.0, 0.0, 0.0, 0.0, 1.0, 0.0, 0.0, 0.0, 1.0, 0.0, 1.0, 0.0, 0.0, 0.0, 1.0, 0.0, 0.0, 0.0, 0.0, 0.0, 0.0, 0.0],
    [0.0, 0.0, 0.0, 0.0, 0.0, 0.0, 1.0, 0.0, 1.0, 0.0, 0.0, 0.0, 1.0, 0.0, 0.0, 0.0, 1.0, 0.0, 1.0, 0.0, 0.0, 0.0, 0.0, 0.0, 0.0]
  ]
  num_frames := 10
  r := roundDouble 0.0
  g := roundDouble 1.0
  b := roundDouble 1.0
  fps := 5

/-- The colour table lorenzo_colors[7][3] of the source, one (r, g, b) row per frame. -/
def lorenzo_colors : List (List ℚ) := doubleTable [
  [1.0, 0.0, 0.0],
  [0.0, 1.0, 0.0],
  [0.0, 0.0, 1.0],
  [1.0, 1.0, 0.0],
  [1.0, 0.0, 1.0],
  [0.0, 1.0, 1.0],
  [1.0, 0.5, 0.0]
]

/-- The colour table musica_colors[24][3] of the source, one (r, g, b) row per frame. -/
def musica_colors : List (List ℚ) := doubleTable [
  [0.0, 0.0, 1.0],
  [0.0, 0.0, 0.8],
  [0.0, 0.0, 0.6],
  [0.0, 0.0, 0.4],
  [0.0, 0.0, 0.4],
  [0.0, 0.0, 0.4],
  [0.0, 0.0, 1.0],
  [0.0, 0.0, 0.8],
  [0.0, 0.0, 1.0],
  [0.0, 0.0, 0.8],
  [0.0, 0.0, 0.8],
  [0.0, 0.0, 0.8],
  [0.0, 0.0, 1.0],
  [0.0, 0.0, 0.2],
  [0.0, 0.0, 0.4],
  [0.0, 0.0, 0.6],
  [0.0, 0.0, 0.6],
  [0.0, 0.0, 0.6],
  [0.0, 0.0, 1.0],
  [0.0, 0.0, 0.8],
  [0.0, 0.0, 0.6],
  [0.0, 0.0, 0.4],
  [0.0, 0.0, 0.4],
  [0.0, 0.0, 0.4]
]

/-! ## The functions on the shipped tables, and the key dispatch -/

/-- The function executar_animacao_lorenzo(pio, sm) on the shipped tables. -/
def executar_animacao_lorenzo (pio sm : Nat) (s : Hw) : Option Hw :=
  executar_animacao_lorenzo_on animacao_5_lorenzo lorenzo_colors 7 pio sm s

/-- The function executar_animacao_musica(pio, sm) on the shipped tables. -/
def executar_animacao_musica (pio sm : Nat) (s : Hw) : Option Hw :=
  executar_animacao_musica_on animacao_6_musica musica_colors 24 pio sm s

/-- The function executar_animacao_sirene(pio, sm) on the shipped table. -/
def executar_animacao_sirene (pio sm : Nat) (s : Hw) : Option Hw :=
  executar_animacao_sirene_on animacao_7_sirene pio sm s

/-- The switch statement of main on a key that detect_key returned.
reset_usb_boot reboots the device; the trace ends with it. -/
def main_switch (pio sm : Nat) (key : Char) (s : Hw) : Option Hw :=
  if key = '0' then executar_animacao pio sm animacao_0 0 0 s
  else if key = '1' then executar_animacao pio sm animacao_1 0 0 s
  else if key = '2' then executar_animacao pio sm animacao_2 0 0 s
  else if key = '3' then
    executar_animacao_multicolor pio sm animacao_3 440 100
      (roundDouble 0.0) (roundDouble 0.0) (roundDouble 1.0) s
  else if key = '4' then executar_animacao pio sm animacao_4 0 0 s
  else if key = '5' then executar_animacao_lorenzo pio sm s
  else if key = '6' then executar_animacao_musica pio sm s
  else if key = '7' then executar_animacao_sirene pio sm s
  else if key = '8' then executar_animacao pio sm animacao_countdown 200 500 s
  else if key = '9' then executar_animacao pio sm animacao_9_Felipe 600 80 s
  else if key = 'A' then desenho_pio pio sm (roundDouble 0.0) (roundDouble 0.0) (roundDouble 0.0) s
  else if key = 'B' then desenho_pio pio sm (roundDouble 1.0) (roundDouble 0.0) (roundDouble 0.0) s
  else if key = 'C' then desenho_pio pio sm (roundDouble 0.0) (roundDouble 0.8) (roundDouble 0.0) s
  else if key = 'D' then desenho_pio pio sm (roundDouble 0.0) (roundDouble 0.0) (roundDouble 0.5) s
  else if key = '#' then desenho_pio pio sm (roundDouble 0.2) (roundDouble 0.2) (roundDouble 0.2) s
  else if key = '*' then some ((s.log Event.printf).log Event.reset_usb_boot)
  else some s

/-- One pass of the loop of main: scan the keypad and dispatch on the key. -/
def main_loop_body (pio sm : Nat) (reads : Nat → Nat → Bool) (s : Hw) : Option Hw :=
  let (key, s1) := detect_key reads s
  if key ≠ NUL then main_switch pio sm key s1 else some s1

/-! ## Reading a trace -/

/-- The words written to the panel, in order. -/
def pixelWords : List Event → List Nat
  | [] => []
  | Event.pio_sm_put_blocking _ _ data :: t => data :: pixelWords t
  | _ :: t => pixelWords t

/-- The calls of buzzer_tone, in order, as (frequency, duration_ms). -/
def toneCalls : List Event → List (Nat × Nat)
  | [] => []
  | Event.call_buzzer_tone f d :: t => (f, d) :: toneCalls t
  | _ :: t => toneCalls t

/-- The arguments of the sleep_ms calls, in order. -/
def sleepsMs : List Event → List Nat
  | [] => []
  | Event.sleep_ms ms :: t => ms :: sleepsMs t
  | _ :: t => sleepsMs t

/-- The four calls of one buzzer cycle of half period h: high, wait, low,
wait. -/
def buzzerCycle (h : Nat) : List Event :=
  [Event.gpio_put BUZZER_PIN true, Event.sleep_us h,
   Event.gpio_put BUZZER_PIN false, Event.sleep_us h]

/-- The effect of one traced call on the pin levels. -/
def Event.drive (e : Event) (pins : Nat → Bool) : Nat → Bool :=
  match e with
  | Event.gpio_put pin value => fun p => if p = pin then value else pins p
  | _ => pins

/-- Replay of a list of calls on a hardware state. -/
def Hw.run (s : Hw) (es : List Event) : Hw :=
  { pins := es.foldl (fun pins e => e.drive pins) s.pins
    trace := s.trace ++ es }


/-- The calls buzzer_tone(frequency, duration_ms) makes when frequency is not
0: the entry mark, then one buzzerCycle per cycle. -/
def buzzerToneTrace (frequency duration_ms : Nat) : List Event :=
  Event.call_buzzer_tone frequency duration_ms ::
    (List.replicate (frequency * duration_ms % 2 ^ 32 / 1000)
      (buzzerCycle (1000000 / frequency / 2))).flatten

/-- One pass over the panel: NUM_PIXELS writes, pixel i receiving word i. -/
def pixelPass (pio sm : Nat) (word : Nat → Nat) : List Event :=
  (List.range NUM_PIXELS).map fun i => Event.pio_sm_put_blocking pio sm (word i)

/-- The frequency of the tone that the if-chain of executar_animacao_musica
plays after a frame. -/
def musicaNote (frame : Nat) : Nat :=
  if frame = 0 ∨ frame = 6 ∨ frame = 8 ∨ frame = 12 ∨ frame = 18 then 261
  else if frame = 1 ∨ frame = 7 ∨ frame = 9 ∨ frame = 10 ∨ frame = 11 ∨ frame = 19 then 293
  else if frame = 2 ∨ frame = 15 ∨ frame = 16 ∨ frame = 17 ∨ frame = 20 then 329
  else if frame = 3 ∨ frame = 4 ∨ frame = 5 ∨ frame = 14 ∨ frame = 21 ∨ frame = 22
      ∨ frame = 23 then 349
  else 392

/-- A trace made of n rendered frames, each of them exactly one pass of
NUM_PIXELS panel writes, then the calls of the frame's tone (no panel write, no
sleep_ms among them), then the frame's sleep_ms(delay). -/
def FramedPasses (pio sm n delay : Nat) (t : List Event) : Prop :=
  ∃ (word : Nat → Nat → Nat) (tone : Nat → List Event),
    t = (List.range n).flatMap (fun k =>
      pixelPass pio sm (word k) ++ tone k ++ [Event.sleep_ms delay])
    ∧ ∀ k, pixelWords (tone k) = [] ∧ sleepsMs (tone k) = []

/-- A hardware state with every pin low and an empty trace. -/
def Hw.allLow : Hw := { pins := fun _ => false, trace := [] }

/-- A hardware state with every pin high and an empty trace. -/
def Hw.allHigh : Hw := { pins := fun _ => true, trace := [] }

/-- The arguments of the sleep_us calls, in order. -/
def sleepsUs : List Event → List Nat
  | [] => []
  | Event.sleep_us us :: t => us :: sleepsUs t
  | _ :: t => sleepsUs t

/-- The levels driven on the four keypad row lines, in the order of rows. -/
def rowLevels (pins : Nat → Bool) : List Bool := rows.map pins

/-- The column reads of a trace replayed from the given pin levels: for each
gpio_get, in order, the pin that is read and the levels of the four row lines
at that moment. -/
def readSnapshots (pins : Nat → Bool) : List Event → List (Nat × List Bool)
  | [] => []
  | Event.gpio_get pin _ :: t => (pin, rowLevels pins) :: readSnapshots pins t
  | e :: t => readSnapshots (e.drive pins) t

/-- The reads of a complete keypad scan: for each row i in order and each
column j in order, the column pin cols[j] with row i low and the other three
rows high. -/
def fullScan : List (Nat × List Bool) :=
  (List.range 4).flatMap fun i =>
    (List.range 4).map fun j => (cols.getD j 0, (List.range 4).map fun k => decide (k ≠ i))

/-- The siren table with only its first three frames in use. -/
def sirene_3_frames : Animacao := { animacao_7_sirene with num_frames := 3 }

/-- The double 0x1.010101010101p-8, the binary64 value nearest to 1/255 and
just below it: it is 0x1010101010101 / 2 ^ 56, and 255 times it is
1 - 2 ^ (-56). -/
def nearOver255 : ℚ := 0x1010101010101 / 2 ^ 56

/-- An animation of one frame in pure red whose first pixel has the intensity
nearOver255. -/
def animacao_um_pixel : Animacao where
  frames := [[nearOver255]]
  num_frames := 1
  r := 1
  g := 0
  b := 0
  fps := 1

/-- The first n passes of the loop while (true) of main, from pass number k;
reads k is what the keypad reads during pass k. -/
def main_loop (pio sm : Nat) (reads : Nat → Nat → Nat → Bool) (n : Nat) (s : Hw) : Option Hw :=
  forLoop (fun k s => main_loop_body pio sm (reads k) s) 0 n s

/-- The level of the buzzer pin at each entry into buzzer_tone, in order, when
the trace is replayed from the given pin levels. -/
def buzzerEntryLevels (pins : Nat → Bool) : List Event → List Bool
  | [] => []
  | Event.call_buzzer_tone _ _ :: t => pins BUZZER_PIN :: buzzerEntryLevels pins t
  | e :: t => buzzerEntryLevels (e.drive pins) t

/-- A trace that, replayed from pin levels with the buzzer pin low, has the
buzzer pin low at each entry into buzzer_tone and at its end. -/
def BuzzerRestsLow (t : List Event) : Prop :=
  ∀ pins : Nat → Bool, pins BUZZER_PIN = false →
    (∀ level ∈ buzzerEntryLevels pins t, level = false)
    ∧ (t.foldl (fun p e => e.drive p) pins) BUZZER_PIN = false

/-- The state setup_gpio leaves when it is entered with every pin high and an
empty trace. -/
def Hw.afterSetup : Hw := (setup_gpio Hw.allHigh).getD Hw.allHigh

/-! ## Binary64 rounding -/

theorem roundHalfEven_between (y : ℚ) (P Q : ℤ) (hP : (P : ℚ) ≤ y) (hQ : y ≤ Q) :
    P ≤ roundHalfEven y ∧ roundHalfEven y ≤ Q := by
  have hfl : P ≤ ⌊y⌋ := Int.le_floor.mpr hP
  have hfq : ⌊y⌋ ≤ Q := Int.floor_le_iff.mpr (by linarith [show (Q : ℚ) < Q + 1 by linarith])
  have hup : 0 < y - ⌊y⌋ → ⌊y⌋ + 1 ≤ Q := by
    intro hpos
    have : (⌊y⌋ : ℚ) < Q := by linarith
    have : ⌊y⌋ < Q := by exact_mod_cast this
    omega
  unfold roundHalfEven
  split
  · exact ⟨hfl, hfq⟩
  · split
    · rename_i h2
      exact ⟨by omega, hup (by linarith)⟩
    · rename_i h1 h2
      have heq : y - ⌊y⌋ = 1 / 2 := le_antisymm (not_lt.mp h2) (not_lt.mp h1)
      split
      · exact ⟨hfl, hfq⟩
      · exact ⟨by omega, hup (by linarith)⟩

/-- Rounding to binary64 never crosses an integer: below 2 ^ 53 every integer
is a double. -/
theorem roundDouble_between (x : ℚ) (A B : ℤ) (hA : (A : ℚ) ≤ x) (hB : x ≤ B)
    (hx : |x| < 2 ^ (53 : ℤ)) : (A : ℚ) ≤ roundDouble x ∧ roundDouble x ≤ B := by
  unfold roundDouble
  split
  · rename_i h0
    subst h0
    exact ⟨hA, hB⟩
  · rename_i h0
    have hpos : 0 < |x| := abs_pos.mpr h0
    have hlog : Int.log 2 |x| < 53 :=
      (Int.lt_zpow_iff_log_lt (by norm_num) hpos).mp (by exact_mod_cast hx)
    have he : max (Int.log 2 |x|) (-1022) ≤ 52 := by omega
    obtain ⟨m, hm⟩ : ∃ m : ℕ, (m : ℤ) = 52 - max (Int.log 2 |x|) (-1022) :=
      ⟨(52 - max (Int.log 2 |x|) (-1022)).toNat, by omega⟩
    have hulp : (2 : ℚ) ^ (max (Int.log 2 |x|) (-1022) - 52) = ((2 : ℚ) ^ m)⁻¹ := by
      rw [show max (Int.log 2 |x|) (-1022) - 52 = -(m : ℤ) by omega, zpow_neg, zpow_natCast]
    simp only [hulp]
    have h2m : (0 : ℚ) < 2 ^ m := by positivity
    rw [div_inv_eq_mul]
    have hb := roundHalfEven_between (x * 2 ^ m) (A * 2 ^ m) (B * 2 ^ m)
      (by push_cast; exact mul_le_mul_of_nonneg_right hA h2m.le)
      (by push_cast; exact mul_le_mul_of_nonneg_right hB h2m.le)
    have h1 : ((A * 2 ^ m : ℤ) : ℚ) ≤ (roundHalfEven (x * 2 ^ m) : ℚ) := by exact_mod_cast hb.1
    have h2 : (roundHalfEven (x * 2 ^ m) : ℚ) ≤ ((B * 2 ^ m : ℤ) : ℚ) := by exact_mod_cast hb.2
    push_cast at h1 h2
    constructor
    · rw [le_mul_inv_iff₀ h2m]; exact h1
    · rw [mul_inv_le_iff₀ h2m]; exact h2

theorem roundDouble_int (n : ℤ) (hn : |(n : ℚ)| < 2 ^ (53 : ℤ)) : roundDouble n = n :=
  le_antisymm (roundDouble_between n n n le_rfl le_rfl hn).2
    (roundDouble_between n n n le_rfl le_rfl hn).1

theorem roundDouble_zero : roundDouble 0 = 0 := by
  simp [roundDouble]

theorem roundDouble_one : roundDouble 1 = 1 := by
  simpa using roundDouble_int 1 (by norm_num)

theorem roundDouble_255 : roundDouble 255 = 255 := by
  simpa using roundDouble_int 255 (by norm_num)

/-- A value in [0, 255] rounds to a double in [0, 255] whose integer part is
the integer part of the value or the next integer. -/
theorem floor_roundDouble (x : ℚ) (h0 : 0 ≤ x) (h1 : x ≤ 255) :
    0 ≤ roundDouble x ∧ roundDouble x ≤ 255
    ∧ ⌊x⌋ ≤ ⌊roundDouble x⌋ ∧ ⌊roundDouble x⌋ ≤ ⌊x⌋ + 1 := by
  have hx : |x| < 2 ^ (53 : ℤ) := by
    rw [abs_of_nonneg h0]
    calc x ≤ 255 := h1
      _ < 2 ^ (53 : ℤ) := by norm_num
  have hb := roundDouble_between x 0 255 (by simpa using h0) (by simpa using h1) hx
  have hf := roundDouble_between x ⌊x⌋ (⌊x⌋ + 1) (Int.floor_le x)
    (by push_cast; exact (Int.lt_floor_add_one x).le) hx
  refine ⟨by simpa using hb.1, by simpa using hb.2, Int.le_floor.mpr hf.1, ?_⟩
  exact Int.floor_le_iff.mpr (by push_cast at hf ⊢; linarith [hf.2])

/-- The rounding of a value whose binade is known. -/
theorem roundDouble_of_binade (x : ℚ) (e : ℤ) (h1 : (2 : ℚ) ^ e ≤ |x|) (h2 : |x| < 2 ^ (e + 1))
    (he : -1022 ≤ e) :
    roundDouble x = roundHalfEven (x / 2 ^ (e - 52)) * 2 ^ (e - 52) := by
  have hpos : 0 < |x| := lt_of_lt_of_le (by positivity) h1
  have h0 : x ≠ 0 := abs_pos.mp hpos
  have hl1 : e ≤ Int.log 2 |x| :=
    (Int.zpow_le_iff_le_log (by norm_num) hpos).mp (by exact_mod_cast h1)
  have hl2 : Int.log 2 |x| < e + 1 :=
    (Int.lt_zpow_iff_log_lt (by norm_num) hpos).mp (by exact_mod_cast h2)
  have hlog : max (Int.log 2 |x|) (-1022) = e := by omega
  unfold roundDouble
  simp only [h0, if_false, hlog]

theorem roundHalfEven_err (y : ℚ) : |(roundHalfEven y : ℚ) - y| ≤ 1 / 2 := by
  have h1 := Int.floor_le y
  have h2 := Int.lt_floor_add_one y
  unfold roundHalfEven
  split
  · rw [abs_le]; constructor <;> linarith
  · split
    · rw [abs_le]; push_cast; constructor <;> linarith
    · rename_i h3 h4
      split
      · rw [abs_le]; constructor <;> linarith
      · rw [abs_le]; push_cast; constructor <;> linarith

/-- Rounding to binary64 moves a value below 2 ^ (e + 1) by at most half a unit
in the last place of the binade of 2 ^ e. -/
theorem roundDouble_err (x : ℚ) (e : ℤ) (hx : |x| < 2 ^ (e + 1)) (he : -1022 ≤ e) :
    |roundDouble x - x| ≤ 2 ^ (e - 53) := by
  unfold roundDouble
  split
  · rename_i h0
    subst h0
    simp
    positivity
  · rename_i h0
    have hpos : 0 < |x| := abs_pos.mpr h0
    have hlog : Int.log 2 |x| < e + 1 :=
      (Int.lt_zpow_iff_log_lt (by norm_num) hpos).mp (by exact_mod_cast hx)
    have hmax : max (Int.log 2 |x|) (-1022) ≤ e := by omega
    generalize max (Int.log 2 |x|) (-1022) = m at hmax
    have hulp : (0 : ℚ) < 2 ^ (m - 52) := by positivity
    have hr := roundHalfEven_err (x / 2 ^ (m - 52))
    have heq : (roundHalfEven (x / 2 ^ (m - 52)) : ℚ) * 2 ^ (m - 52) - x
        = ((roundHalfEven (x / 2 ^ (m - 52)) : ℚ) - x / 2 ^ (m - 52)) * 2 ^ (m - 52) := by
      field_simp
    simp only []
    rw [heq, abs_mul, abs_of_pos hulp]
    calc |(roundHalfEven (x / 2 ^ (m - 52)) : ℚ) - x / 2 ^ (m - 52)| * 2 ^ (m - 52)
        ≤ 1 / 2 * 2 ^ (m - 52) := mul_le_mul_of_nonneg_right hr hulp.le
      _ = 2 ^ (m - 53) := by
        rw [show m - 52 = (m - 53) + 1 by ring, zpow_add₀ (by norm_num : (2 : ℚ) ≠ 0)]
        simp
        ring
      _ ≤ 2 ^ (e - 53) := zpow_le_zpow_right₀ (by norm_num) (by omega)

theorem roundDouble_unit_range (x : ℚ) (h : 0 ≤ x ∧ x ≤ 1) :
    0 ≤ roundDouble x ∧ roundDouble x ≤ 1 := by
  have hx : |x| < 2 ^ (53 : ℤ) := by
    rw [abs_of_nonneg h.1]
    calc x ≤ 1 := h.2
      _ < 2 ^ (53 : ℤ) := by norm_num
  simpa using roundDouble_between x 0 1 (by simpa using h.1) (by simpa using h.2) hx

/-- The binary64 product of two doubles in [0, 1] is in [0, 1]. -/
theorem fmul_unit_range (x y : ℚ) (hx : 0 ≤ x ∧ x ≤ 1) (hy : 0 ≤ y ∧ y ≤ 1) :
    0 ≤ fmul x y ∧ fmul x y ≤ 1 :=
  roundDouble_unit_range (x * y) ⟨mul_nonneg hx.1 hy.1, mul_le_one₀ hx.2 hy.1 hy.2⟩

theorem fmul_zero_left (y : ℚ) : fmul 0 y = 0 := by
  simp [fmul, roundDouble]

theorem fmul_one_one : fmul 1 1 = 1 := by
  simp [fmul, roundDouble_one]

theorem fmul_zero_255 : fmul 0 255 = 0 := fmul_zero_left 255

theorem fmul_one_255 : fmul 1 255 = 255 := by
  simp [fmul, roundDouble_255]

/-- The double nearOver255 is a double in [0, 1]; its exact product with 255 is
1 - 2 ^ (-56), below 1, and the binary64 product is 1. -/
theorem nearOver255_facts :
    roundDouble nearOver255 = nearOver255 ∧ 0 ≤ nearOver255 ∧ nearOver255 ≤ 1
    ∧ nearOver255 * 255 = 1 - 1 / 2 ^ 56 ∧ ⌊nearOver255 * 255⌋ = 0
    ∧ fmul nearOver255 255 = 1 := by
  refine ⟨?_, by norm_num [nearOver255], by norm_num [nearOver255],
    by norm_num [nearOver255], by norm_num [nearOver255, Int.floor_eq_iff], ?_⟩
  · unfold nearOver255
    rw [roundDouble_of_binade _ (-8) (by norm_num [abs_of_nonneg])
      (by norm_num [abs_of_nonneg]) (by norm_num)]
    norm_num [roundHalfEven]
  · unfold fmul nearOver255
    rw [roundDouble_of_binade _ (-1) (by norm_num [abs_of_nonneg])
      (by norm_num [abs_of_nonneg]) (by norm_num)]
    norm_num [roundHalfEven]

/-! ## The colour codec -/

theorem truncate_of_nonneg (x : ℚ) (h : 0 ≤ x) : truncate x = ⌊x⌋ := by
  simp [truncate, h]

theorem toUChar_of_range (x : ℚ) (h0 : 0 ≤ x) (h1 : x ≤ 255) :
    (toUChar x : Int) = ⌊x⌋ ∧ toUChar x < 256 := by
  have hf0 : 0 ≤ ⌊x⌋ := Int.floor_nonneg.mpr h0
  have hf1 : ⌊x⌋ ≤ 255 := by
    have : ⌊x⌋ ≤ ⌊(255 : ℚ)⌋ := Int.floor_mono h1
    simpa using this
  unfold toUChar
  rw [truncate_of_nonneg x h0]
  omega

theorem scaled_range (c : ℚ) (h : 0 ≤ c ∧ c ≤ 1) : 0 ≤ c * 255 ∧ c * 255 ≤ 255 := by
  constructor
  · nlinarith [h.1]
  · nlinarith [h.2]

/-- The double product c * 255 of an intensity in [0, 1] is in [0, 255], and
its integer part is that of the exact product or the next integer. -/
theorem fmul_255_range (c : ℚ) (h : 0 ≤ c ∧ c ≤ 1) :
    0 ≤ fmul c 255 ∧ fmul c 255 ≤ 255
    ∧ ⌊c * 255⌋ ≤ ⌊fmul c 255⌋ ∧ ⌊fmul c 255⌋ ≤ ⌊c * 255⌋ + 1 :=
  floor_roundDouble (c * 255) (scaled_range c h).1 (scaled_range c h).2

/-- The byte of a channel c scaled by an intensity I, both in [0, 1]: the
integer part of the binary64 product of the binary64 product c * I and 255 is
within one of the integer part of the exact product c * I * 255. -/
theorem scaled_byte_near (c I : ℚ) (hc : 0 ≤ c ∧ c ≤ 1) (hI : 0 ≤ I ∧ I ≤ 1) :
    ⌊c * I * 255⌋ - 1 ≤ ⌊fmul (fmul c I) 255⌋ ∧ ⌊fmul (fmul c I) 255⌋ ≤ ⌊c * I * 255⌋ + 1 := by
  have hx : 0 ≤ c * I ∧ c * I ≤ 1 := ⟨mul_nonneg hc.1 hI.1, mul_le_one₀ hc.2 hI.1 hI.2⟩
  have hd := fmul_unit_range c I hc hI
  have hz := scaled_range (fmul c I) hd
  have e1 : |fmul c I - c * I| ≤ 2 ^ ((0 : ℤ) - 53) :=
    roundDouble_err (c * I) 0 (by rw [abs_of_nonneg hx.1]; norm_num; linarith [hx.2])
      (by norm_num)
  have e2 : |fmul (fmul c I) 255 - fmul c I * 255| ≤ 2 ^ ((7 : ℤ) - 53) :=
    roundDouble_err (fmul c I * 255) 7
      (by rw [abs_of_nonneg hz.1]; norm_num; linarith [hz.2]) (by norm_num)
  rw [abs_le] at e1 e2
  norm_num at e1 e2
  have hlo : c * I * 255 - 1 < fmul (fmul c I) 255 := by linarith [e1.1, e2.1]
  have hhi : fmul (fmul c I) 255 < c * I * 255 + 1 := by linarith [e1.2, e2.2]
  have f1 := Int.floor_le (c * I * 255)
  have f2 := Int.lt_floor_add_one (c * I * 255)
  have g1 := Int.floor_le (fmul (fmul c I) 255)
  have g2 := Int.lt_floor_add_one (fmul (fmul c I) 255)
  constructor
  · have : ((⌊c * I * 255⌋ - 1 : ℤ) : ℚ) < ⌊fmul (fmul c I) 255⌋ + 1 := by
      push_cast; linarith
    have : ⌊c * I * 255⌋ - 1 < ⌊fmul (fmul c I) 255⌋ + 1 := by exact_mod_cast this
    omega
  · have : ((⌊fmul (fmul c I) 255⌋ : ℤ) : ℚ) < ⌊c * I * 255⌋ + 1 + 1 := by linarith
    have : ⌊fmul (fmul c I) 255⌋ < ⌊c * I * 255⌋ + 1 + 1 := by exact_mod_cast this
    omega

theorem pack_bytes (G R B : Nat) (hG : G < 256) (hR : R < 256) (hB : B < 256) :
    ((G <<< 24) ||| (R <<< 16) ||| (B <<< 8)) % 2 ^ 32 = G * 2 ^ 24 + R * 2 ^ 16 + B * 2 ^ 8 := by
  have e1 : (G <<< 24) ||| (R <<< 16) = 2 ^ 16 * (G * 2 ^ 8 + R) := by
    have := Nat.mul_add_lt_is_or (i := 24) (b := R <<< 16)
      (by rw [Nat.shiftLeft_eq]; omega) G
    rw [Nat.shiftLeft_eq, Nat.shiftLeft_eq] at *
    rw [Nat.mul_comm G] 
    rw [← this]
    omega
  have e2 : 2 ^ 16 * (G * 2 ^ 8 + R) ||| (B <<< 8) = 2 ^ 8 * (2 ^ 8 * (G * 2 ^ 8 + R)) + B <<< 8 := by
    have := Nat.mul_add_lt_is_or (i := 16) (b := B <<< 8)
      (by rw [Nat.shiftLeft_eq]; omega) (G * 2 ^ 8 + R)
    rw [← this]
    omega
  rw [e1, e2, Nat.shiftLeft_eq]
  omega

/-- The word of matrix_rgb on intensities in [0, 1] and its four bytes: each
channel byte is the integer part of the double product of the intensity and
255. -/
theorem matrix_rgb_bytes (b r g : ℚ) (hb : 0 ≤ b ∧ b ≤ 1) (hr : 0 ≤ r ∧ r ≤ 1)
    (hg : 0 ≤ g ∧ g ≤ 1) :
    (matrix_rgb b r g : Int)
      = ⌊fmul g 255⌋ * 2 ^ 24 + ⌊fmul r 255⌋ * 2 ^ 16 + ⌊fmul b 255⌋ * 2 ^ 8
    ∧ matrix_rgb b r g < 2 ^ 32
    ∧ ((matrix_rgb b r g / 2 ^ 24 % 256 : Nat) : Int) = ⌊fmul g 255⌋
    ∧ ((matrix_rgb b r g / 2 ^ 16 % 256 : Nat) : Int) = ⌊fmul r 255⌋
    ∧ ((matrix_rgb b r g / 2 ^ 8 % 256 : Nat) : Int) = ⌊fmul b 255⌋
    ∧ matrix_rgb b r g % 256 = 0 := by
  obtain ⟨eB, lB⟩ := toUChar_of_range (fmul b 255) (fmul_255_range b hb).1 (fmul_255_range b hb).2.1
  obtain ⟨eR, lR⟩ := toUChar_of_range (fmul r 255) (fmul_255_range r hr).1 (fmul_255_range r hr).2.1
  obtain ⟨eG, lG⟩ := toUChar_of_range (fmul g 255) (fmul_255_range g hg).1 (fmul_255_range g hg).2.1
  have hw : matrix_rgb b r g
      = toUChar (fmul g 255) * 2 ^ 24 + toUChar (fmul r 255) * 2 ^ 16
        + toUChar (fmul b 255) * 2 ^ 8 := by
    unfold matrix_rgb
    exact pack_bytes _ _ _ lG lR lB
  rw [hw, ← eB, ← eR, ← eG]
  refine ⟨by push_cast; ring, by omega, ?_, ?_, ?_, by omega⟩
  · congr 1; omega
  · congr 1; omega
  · congr 1; omega

theorem matrix_rgb_red : matrix_rgb 0 1 0 = 16711680 := by
  simp [matrix_rgb, fmul_zero_255, fmul_one_255, toUChar, truncate]

theorem matrix_rgb_blue : matrix_rgb 1 0 0 = 65280 := by
  simp [matrix_rgb, fmul_zero_255, fmul_one_255, toUChar, truncate]

theorem matrix_rgb_nearOver255 : matrix_rgb 0 nearOver255 0 = 65536 := by
  simp [matrix_rgb, fmul_zero_255, nearOver255_facts.2.2.2.2.2, toUChar, truncate]

/-- C1 (as amended). For all channel intensities b, r, g in [0,1],
matrix_rgb(b, r, g) is the 32-bit word B(g) * 2^24 + B(r) * 2^16 + B(b) * 2^8,
where B(c) is the integer part of the binary64 product c * 255 (truncation, not
rounding, of the product the C computes): decoding bits 31-24, 23-16 and 15-8
gives back B(g), B(r) and B(b), the lowest byte is zero, and B(c) is
floor(c*255) or floor(c*255) + 1, the latter only when the exact product rounds
up to that integer. -/
theorem matrix_rgb_layout (b r g : ℚ) (hb : 0 ≤ b ∧ b ≤ 1) (hr : 0 ≤ r ∧ r ≤ 1)
    (hg : 0 ≤ g ∧ g ≤ 1) :
    ((matrix_rgb b r g : Int)
      = ⌊fmul g 255⌋ * 2 ^ 24 + ⌊fmul r 255⌋ * 2 ^ 16 + ⌊fmul b 255⌋ * 2 ^ 8
    ∧ matrix_rgb b r g < 2 ^ 32
    ∧ ((matrix_rgb b r g / 2 ^ 24 % 256 : Nat) : Int) = ⌊fmul g 255⌋
    ∧ ((matrix_rgb b r g / 2 ^ 16 % 256 : Nat) : Int) = ⌊fmul r 255⌋
    ∧ ((matrix_rgb b r g / 2 ^ 8 % 256 : Nat) : Int) = ⌊fmul b 255⌋
    ∧ matrix_rgb b r g % 256 = 0)
    ∧ (⌊g * 255⌋ ≤ ⌊fmul g 255⌋ ∧ ⌊fmul g 255⌋ ≤ ⌊g * 255⌋ + 1)
    ∧ (⌊r * 255⌋ ≤ ⌊fmul r 255⌋ ∧ ⌊fmul r 255⌋ ≤ ⌊r * 255⌋ + 1)
    ∧ (⌊b * 255⌋ ≤ ⌊fmul b 255⌋ ∧ ⌊fmul b 255⌋ ≤ ⌊b * 255⌋ + 1)
    ∧ (⌊fmul g 255⌋ = ⌊g * 255⌋ + 1 → fmul g 255 = (⌊g * 255⌋ + 1 : Int))
    ∧ (⌊fmul r 255⌋ = ⌊r * 255⌋ + 1 → fmul r 255 = (⌊r * 255⌋ + 1 : Int))
    ∧ (⌊fmul b 255⌋ = ⌊b * 255⌋ + 1 → fmul b 255 = (⌊b * 255⌋ + 1 : Int)) := by
  have up : ∀ c : ℚ, 0 ≤ c ∧ c ≤ 1 → ⌊fmul c 255⌋ = ⌊c * 255⌋ + 1 →
      fmul c 255 = (⌊c * 255⌋ + 1 : Int) := by
    intro c hc hfl
    have hx : |c * 255| < 2 ^ (53 : ℤ) := by
      rw [abs_of_nonneg (scaled_range c hc).1]
      calc c * 255 ≤ 255 := (scaled_range c hc).2
        _ < 2 ^ (53 : ℤ) := by norm_num
    have hle := (roundDouble_between (c * 255) ⌊c * 255⌋ (⌊c * 255⌋ + 1) (Int.floor_le _)
      (by push_cast; exact (Int.lt_floor_add_one _).le) hx).2
    have hge : ((⌊c * 255⌋ + 1 : Int) : ℚ) ≤ fmul c 255 := by
      rw [← hfl]; exact Int.floor_le _
    exact le_antisymm hle hge
  exact ⟨matrix_rgb_bytes b r g hb hr hg,
    (fmul_255_range g hg).2.2, (fmul_255_range r hr).2.2, (fmul_255_range b hb).2.2,
    up g hg, up r hr, up b hb⟩

/-- C1 (as amended), at b = 0, r = nearOver255, g = 1/2. -/
theorem matrix_rgb_layout_witness :
    (matrix_rgb 0 nearOver255 (1 / 2) : Int)
      = ⌊fmul (1 / 2) 255⌋ * 2 ^ 24 + ⌊fmul nearOver255 255⌋ * 2 ^ 16 + ⌊fmul 0 255⌋ * 2 ^ 8
    ∧ ((matrix_rgb 0 nearOver255 (1 / 2) / 2 ^ 16 % 256 : Nat) : Int) = ⌊fmul nearOver255 255⌋
    ∧ matrix_rgb 0 nearOver255 (1 / 2) % 256 = 0
    ∧ ⌊fmul nearOver255 255⌋ ≤ ⌊nearOver255 * 255⌋ + 1 := by
  obtain ⟨⟨h1, _, _, h4, _, h6⟩, _, ⟨_, h8⟩, _⟩ :=
    matrix_rgb_layout 0 nearOver255 (1 / 2) (by norm_num)
      ⟨nearOver255_facts.2.1, nearOver255_facts.2.2.1⟩ (by norm_num)
  exact ⟨h1, h4, h6, h8⟩

/-- C1 fails as stated at b = 0, r = 0x1.010101010101p-8, g = 0. That r is a
double in [0, 1] and r * 255 is 1 - 2^(-56) exactly, so floor(r*255) = 0 and the
word of the claim is 0; the binary64 product r * 255 is 1.0, so matrix_rgb
returns 65536, with 1 in bits 23-16. -/
theorem matrix_rgb_layout_counterexample :
    roundDouble nearOver255 = nearOver255 ∧ 0 ≤ nearOver255 ∧ nearOver255 ≤ 1
    ∧ ⌊nearOver255 * 255⌋ = 0
    ∧ matrix_rgb 0 nearOver255 0 = 65536
    ∧ ((matrix_rgb 0 nearOver255 0 / 2 ^ 16 % 256 : Nat) : Int) ≠ ⌊nearOver255 * 255⌋
    ∧ ¬ ((matrix_rgb 0 nearOver255 0 : Int)
        = ⌊(0 : ℚ) * 255⌋ * 2 ^ 24 + ⌊nearOver255 * 255⌋ * 2 ^ 16 + ⌊(0 : ℚ) * 255⌋ * 2 ^ 8) := by
  obtain ⟨h1, h2, h3, _, h5, _⟩ := nearOver255_facts
  refine ⟨h1, h2, h3, h5, matrix_rgb_nearOver255, ?_, ?_⟩
  · rw [matrix_rgb_nearOver255, h5]; decide
  · rw [matrix_rgb_nearOver255, h5]; norm_num

/-! ## Replaying traces -/

theorem Hw.run_nil (s : Hw) : s.run [] = s := by
  cases s; simp [Hw.run]

theorem Hw.run_run (s : Hw) (a b : List Event) : (s.run a).run b = s.run (a ++ b) := by
  simp [Hw.run, List.foldl_append]

theorem Hw.run_trace (s : Hw) (es : List Event) : (s.run es).trace = s.trace ++ es := rfl

theorem log_eq_run (s : Hw) (e : Event) (h : ∀ pin value, e ≠ Event.gpio_put pin value) :
    s.log e = s.run [e] := by
  cases e <;> first | rfl | exact absurd rfl (h _ _)

theorem gpio_put_eq_run (pin : Nat) (value : Bool) (s : Hw) :
    gpio_put pin value s = s.run [Event.gpio_put pin value] := rfl

theorem gpio_get_eq_run (pin : Nat) (value : Bool) (s : Hw) :
    gpio_get pin value s = s.run [Event.gpio_get pin value] := rfl

theorem sleep_us_eq_run (us : Nat) (s : Hw) : sleep_us us s = s.run [Event.sleep_us us] := rfl

theorem sleep_ms_eq_run (ms : Nat) (s : Hw) : sleep_ms ms s = s.run [Event.sleep_ms ms] := rfl

theorem pio_sm_put_blocking_eq_run (pio sm data : Nat) (s : Hw) :
    pio_sm_put_blocking pio sm data s = s.run [Event.pio_sm_put_blocking pio sm data] := rfl

/-- A loop whose body always makes the calls ev k makes the calls of its
iterations one after the other. -/
theorem forLoop_run (body : Nat → Hw → Option Hw) (ev : Nat → List Event) (n : Nat) :
    ∀ (k : Nat) (s : Hw),
      (∀ j, k ≤ j → j < k + n → ∀ s, body j s = some (s.run (ev j))) →
      forLoop body k n s = some (s.run ((List.range' k n).flatMap ev)) := by
  induction n with
  | zero => intro k s _; simp [forLoop, Hw.run_nil]
  | succ n ih =>
    intro k s h
    have h0 := h k (Nat.le_refl k) (by omega) s
    have ih' := ih (k + 1) (s.run (ev k)) (fun j hj1 hj2 => h j (by omega) (by omega))
    simp [forLoop, h0, ih', Hw.run_run, List.range'_succ]

/-! ## The tone generator -/

theorem buzzer_cycle_run (h : Nat) (s : Hw) :
    sleep_us h (gpio_put BUZZER_PIN false (sleep_us h (gpio_put BUZZER_PIN true s)))
      = s.run (buzzerCycle h) := by
  simp only [sleep_us_eq_run, gpio_put_eq_run, Hw.run_run]
  rfl

theorem flatMap_const_eq (n k : Nat) (l : List Event) :
    (List.range' k n).flatMap (fun _ => l) = (List.replicate n l).flatten := by
  induction n generalizing k with
  | zero => simp
  | succ n ih => simp [List.range'_succ, List.replicate_succ, ih]

theorem buzzer_tone_run (F D : Nat) (s : Hw) (hF : 0 < F) :
    buzzer_tone F D s = some (s.run (buzzerToneTrace F D)) := by
  have hF0 : F ≠ 0 := by omega
  unfold buzzer_tone
  simp only [hF0, if_false]
  rw [forLoop_run _ (fun _ => buzzerCycle (1000000 / F / 2)) _ 0 _
    (fun j _ _ s => by rw [buzzer_cycle_run])]
  rw [log_eq_run _ _ (by intro p v; simp), Hw.run_run, flatMap_const_eq]
  rfl

theorem buzzer_tone_zero (D : Nat) (s : Hw) : buzzer_tone 0 D s = none := by
  simp [buzzer_tone]

theorem half_period_eq (F : Nat) : 1000000 / F / 2 = 500000 / F := by
  rcases Nat.eq_zero_or_pos F with h | h
  · subst h; simp
  · rw [Nat.div_div_eq_div_mul, show (1000000 : Nat) = 500000 * 2 from rfl,
      Nat.mul_div_mul_right _ _ (by norm_num : 0 < 2)]

theorem mem_flatten_replicate (n : Nat) (l : List Event) (e : Event)
    (h : e ∈ (List.replicate n l).flatten) : e ∈ l := by
  induction n with
  | zero => simp at h
  | succ n ih =>
    rw [List.replicate_succ, List.flatten_cons, List.mem_append] at h
    rcases h with h | h
    · exact h
    · exact ih h

theorem cycles_pins (h n : Nat) (s : Hw) :
    (s.run (List.replicate n (buzzerCycle h)).flatten).pins BUZZER_PIN
      = if n = 0 then s.pins BUZZER_PIN else false := by
  induction n generalizing s with
  | zero => simp [Hw.run_nil]
  | succ n ih =>
    rw [List.replicate_succ, List.flatten_cons, ← Hw.run_run, ih]
    by_cases hn : n = 0
    · subst hn; simp [Hw.run, buzzerCycle, Event.drive]
    · simp [hn]

theorem buzzer_tone_pins (F D : Nat) (s : Hw) :
    (s.run (buzzerToneTrace F D)).pins BUZZER_PIN
      = if F * D % 2 ^ 32 / 1000 = 0 then s.pins BUZZER_PIN else false := by
  unfold buzzerToneTrace
  rw [show ∀ (e : Event) (l : List Event), e :: l = [e] ++ l from fun _ _ => rfl,
    ← Hw.run_run, cycles_pins]
  rfl

theorem length_cycles (h n : Nat) :
    ((List.replicate n (buzzerCycle h)).flatten).length = 4 * n := by
  induction n with
  | zero => simp
  | succ n ih =>
    rw [List.replicate_succ, List.flatten_cons, List.length_append, ih]
    simp [buzzerCycle]
    omega

theorem cycles_trace_ne (e : Event) (h n : Nat) (hn : 0 < n) :
    [e] ≠ [] ++ e :: (List.replicate n (buzzerCycle h)).flatten := by
  intro heq
  have hlen := congrArg List.length heq
  simp only [List.length_append, List.length_cons, length_cycles, List.length_nil] at hlen
  omega

/-- C3 (as amended). For every frequency F > 0 and every duration D,
buzzer_tone(F, D) returns after exactly floor((F*D mod 2^32) / 1000) high/low
cycles on the buzzer pin; when the uint product does not wrap (F*D < 2^32) that
is exactly floor(F*D / 1000) cycles, and it is zero cycles whenever
F*D < 1000. -/
theorem buzzer_tone_cycles (F D : Nat) (s : Hw) (hF : 0 < F) :
    ∃ s', buzzer_tone F D s = some s'
      ∧ s'.trace = s.trace ++ Event.call_buzzer_tone F D ::
          (List.replicate (F * D % 2 ^ 32 / 1000) (buzzerCycle (1000000 / F / 2))).flatten
      ∧ (F * D < 2 ^ 32 →
          s'.trace = s.trace ++ Event.call_buzzer_tone F D ::
            (List.replicate (F * D / 1000) (buzzerCycle (1000000 / F / 2))).flatten)
      ∧ (F * D < 1000 → s'.trace = s.trace ++ [Event.call_buzzer_tone F D]) := by
  refine ⟨_, buzzer_tone_run F D s hF, rfl, ?_, ?_⟩
  · intro h
    rw [Hw.run_trace, buzzerToneTrace, Nat.mod_eq_of_lt h]
  · intro h
    have h1 : F * D % 2 ^ 32 / 1000 = 0 := by omega
    rw [Hw.run_trace, buzzerToneTrace, h1]
    rfl

/-- C3 (as amended), at the tone of key 3: 440 Hz for 100 ms is 44 cycles. -/
theorem buzzer_tone_cycles_witness :
    ∃ s', buzzer_tone 440 100 Hw.allLow = some s'
      ∧ s'.trace = Hw.allLow.trace ++ Event.call_buzzer_tone 440 100 ::
          (List.replicate (440 * 100 % 2 ^ 32 / 1000) (buzzerCycle (1000000 / 440 / 2))).flatten
      ∧ (440 * 100 < 2 ^ 32 →
          s'.trace = Hw.allLow.trace ++ Event.call_buzzer_tone 440 100 ::
            (List.replicate (440 * 100 / 1000) (buzzerCycle (1000000 / 440 / 2))).flatten)
      ∧ (440 * 100 < 1000 → s'.trace = Hw.allLow.trace ++ [Event.call_buzzer_tone 440 100]) :=
  buzzer_tone_cycles 440 100 Hw.allLow (by decide)

/-- C3 fails as stated at F = 65536 Hz, D = 65536 ms: the uint product F*D
wraps to 0, so buzzer_tone makes no cycle at all, while floor(F*D / 1000) is
4294967. -/
theorem buzzer_tone_cycles_counterexample :
    (∃ s', buzzer_tone 65536 65536 Hw.allLow = some s'
      ∧ s'.trace = [Event.call_buzzer_tone 65536 65536])
    ∧ 65536 * 65536 / 1000 = 4294967
    ∧ ¬ ∃ s', buzzer_tone 65536 65536 Hw.allLow = some s'
        ∧ s'.trace = Hw.allLow.trace ++ Event.call_buzzer_tone 65536 65536 ::
            (List.replicate (65536 * 65536 / 1000) (buzzerCycle (1000000 / 65536 / 2))).flatten := by
  have hrun := buzzer_tone_run 65536 65536 Hw.allLow (by decide)
  have htr : (Hw.allLow.run (buzzerToneTrace 65536 65536)).trace
      = [Event.call_buzzer_tone 65536 65536] := by
    simp [Hw.run_trace, buzzerToneTrace, Hw.allLow]
  refine ⟨⟨_, hrun, htr⟩, by norm_num, ?_⟩
  rintro ⟨s', hs', ht⟩
  rw [hrun] at hs'
  cases hs'
  rw [htr] at ht
  exact cycles_trace_ne _ _ (65536 * 65536 / 1000) (by norm_num) ht

/-- C4. For every frequency F > 0, buzzer_tone(F, D) returns and every
sleep it makes (one per half period) lasts (1000000 / F) / 2 microseconds,
which equals floor(500000 / F). -/
theorem buzzer_tone_half_period (F D : Nat) (s : Hw) (hF : 0 < F) :
    1000000 / F / 2 = 500000 / F
    ∧ ∃ s' t, buzzer_tone F D s = some s' ∧ s'.trace = s.trace ++ t
        ∧ (∀ us, Event.sleep_us us ∈ t → us = 500000 / F)
        ∧ (∀ ms, Event.sleep_ms ms ∉ t) := by
  refine ⟨half_period_eq F, _, buzzerToneTrace F D, buzzer_tone_run F D s hF, rfl, ?_, ?_⟩
  · intro us hus
    rw [buzzerToneTrace, List.mem_cons] at hus
    rcases hus with hus | hus
    · cases hus
    · have := mem_flatten_replicate _ _ _ hus
      rw [← half_period_eq F]
      simp [buzzerCycle] at this
      exact this
  · intro ms hms
    rw [buzzerToneTrace, List.mem_cons] at hms
    rcases hms with hms | hms
    · cases hms
    · have := mem_flatten_replicate _ _ _ hms
      simp [buzzerCycle] at this

/-- C4, at F = 440 Hz, D = 100 ms: half periods of 1136 microseconds. -/
theorem buzzer_tone_half_period_witness :
    1000000 / 440 / 2 = 500000 / 440
    ∧ ∃ s' t, buzzer_tone 440 100 Hw.allLow = some s' ∧ s'.trace = Hw.allLow.trace ++ t
        ∧ (∀ us, Event.sleep_us us ∈ t → us = 500000 / 440)
        ∧ (∀ ms, Event.sleep_ms ms ∉ t) :=
  buzzer_tone_half_period 440 100 Hw.allLow (by decide)

theorem setup_gpio_buzzer_low (s : Hw) :
    ∃ s1, setup_gpio s = some s1 ∧ s1.pins BUZZER_PIN = false := by
  refine ⟨_, rfl, ?_⟩
  simp [gpio_put]

/-! ## The keypad scanner -/

theorem detect_key_cols_key (reads : Nat → Nat → Bool) (i n : Nat) :
    ∀ (j : Nat) (s : Hw), (detect_key_cols reads i j n s).1
      = ((List.range' j n).find? (fun j => !reads i j)).map (keys_at i) := by
  induction n with
  | zero => intro j s; rfl
  | succ n ih =>
    intro j s
    rw [detect_key_cols, List.range'_succ, List.find?_cons]
    cases h : reads i j
    · simp
    · simp [ih]

theorem detect_key_rows_key (reads : Nat → Nat → Bool) (n : Nat) :
    ∀ (i : Nat) (s : Hw), (detect_key_rows reads i n s).1
      = ((List.range' i n).findSome? (fun i =>
          ((List.range' 0 4).find? (fun j => !reads i j)).map (keys_at i))).getD
            NUL := by
  induction n with
  | zero => intro i s; rfl
  | succ n ih =>
    intro i s
    rw [detect_key_rows, List.range'_succ i n, List.findSome?_cons]
    have hc := detect_key_cols_key reads i 4 0 (gpio_put (rows.getD i 0) false s)
    revert hc
    cases hres : detect_key_cols reads i 0 4 (gpio_put (rows.getD i 0) false s) with
    | mk key s2 =>
      intro hc
      simp only at hc
      rw [← hc]
      cases key with
      | none => simp [ih]
      | some k => simp

/-- The key detect_key returns, as a cascade over the 16 scan steps in the
order in which the loops visit them. -/
theorem detect_key_cascade (reads : Nat → Nat → Bool) (s : Hw) :
    (detect_key reads s).1 =
      if reads 0 0 = false then '1' else if reads 0 1 = false then '2'
      else if reads 0 2 = false then '3' else if reads 0 3 = false then 'A'
      else if reads 1 0 = false then '4' else if reads 1 1 = false then '5'
      else if reads 1 2 = false then '6' else if reads 1 3 = false then 'B'
      else if reads 2 0 = false then '7' else if reads 2 1 = false then '8'
      else if reads 2 2 = false then '9' else if reads 2 3 = false then 'C'
      else if reads 3 0 = false then '*' else if reads 3 1 = false then '0'
      else if reads 3 2 = false then '#' else if reads 3 3 = false then 'D'
      else NUL := by
  rw [detect_key, detect_key_rows_key]
  simp only [List.range', List.findSome?_cons, List.find?_cons, List.findSome?_nil, List.find?_nil]
  cases reads 0 0 <;> cases reads 0 1 <;> cases reads 0 2 <;> cases reads 0 3 <;> try rfl
  all_goals cases reads 1 0 <;> cases reads 1 1 <;> cases reads 1 2 <;> cases reads 1 3 <;> try rfl
  all_goals cases reads 2 0 <;> cases reads 2 1 <;> cases reads 2 2 <;> cases reads 2 3 <;> try rfl
  all_goals cases reads 3 0 <;> cases reads 3 1 <;> cases reads 3 2 <;> cases reads 3 3 <;> rfl

theorem keys_layout :
    [[keys_at 0 0, keys_at 0 1, keys_at 0 2, keys_at 0 3],
     [keys_at 1 0, keys_at 1 1, keys_at 1 2, keys_at 1 3],
     [keys_at 2 0, keys_at 2 1, keys_at 2 2, keys_at 2 3],
     [keys_at 3 0, keys_at 3 1, keys_at 3 2, keys_at 3 3]]
    = [['1', '2', '3', 'A'], ['4', '5', '6', 'B'], ['7', '8', '9', 'C'], ['*', '0', '#', 'D']] := by
  rfl

theorem keys_at_ne_nul (i j : Nat) (hi : i < 4) (hj : j < 4) : keys_at i j ≠ NUL := by
  interval_cases i <;> interval_cases j <;> decide

theorem detect_key_of_first_low (reads : Nat → Nat → Bool) (s : Hw) (i j : Nat)
    (hi : i < 4) (hj : j < 4) (hlow : reads i j = false)
    (hfirst : ∀ i' j', i' < 4 → j' < 4 → (i' < i ∨ (i' = i ∧ j' < j)) → reads i' j' = true) :
    (detect_key reads s).1 = keys_at i j := by
  rw [detect_key_cascade]
  interval_cases i <;> interval_cases j <;> simp [hlow, hfirst] <;> rfl

theorem detect_key_nul_iff (reads : Nat → Nat → Bool) (s : Hw) :
    (detect_key reads s).1 = NUL ↔ ∀ i j, i < 4 → j < 4 → reads i j = true := by
  rw [detect_key, detect_key_rows_key]
  constructor
  · intro h i j hi hj
    cases hfs : (List.range' 0 4).findSome? (fun i =>
        ((List.range' 0 4).find? (fun j => !reads i j)).map (keys_at i)) with
    | none =>
      rw [List.findSome?_eq_none_iff] at hfs
      have h1 := hfs i (by simp; omega)
      rw [Option.map_eq_none', List.find?_eq_none] at h1
      have h2 := h1 j (by simp; omega)
      simpa using h2
    | some k =>
      rw [hfs] at h
      obtain ⟨a, ha, hk⟩ := List.exists_of_findSome?_eq_some hfs
      rw [Option.map_eq_some'] at hk
      obtain ⟨c, hc, hck⟩ := hk
      have hc' := List.mem_of_find?_eq_some hc
      simp at ha hc'
      have := keys_at_ne_nul a c (by omega) (by omega)
      simp at h
      rw [hck, h] at this
      exact absurd rfl this
  · intro h
    have hfs : (List.range' 0 4).findSome? (fun i =>
        ((List.range' 0 4).find? (fun j => !reads i j)).map (keys_at i)) = none := by
      rw [List.findSome?_eq_none_iff]
      intro i hi
      rw [Option.map_eq_none', List.find?_eq_none]
      intro j hj
      simp at hi hj
      simp [h i j (by omega) (by omega)]
    rw [hfs]
    rfl

/-- C2. For every assignment of column readings to the 16 scan steps,
detect_key returns keys[i][j] of the first step (i, j), in row-major scan
order, whose column reads low, with the layout 1 2 3 A / 4 5 6 B / 7 8 9 C /
* 0 # D; it returns NUL exactly when no step reads low; and when exactly one
step reads low, it returns the key of that step, for each of the 16 steps. -/
theorem detect_key_returns_first_low (reads : Nat → Nat → Bool) (s : Hw) :
    (∀ i j, i < 4 → j < 4 → reads i j = false →
        (∀ i' j', i' < 4 → j' < 4 → (i' < i ∨ (i' = i ∧ j' < j)) → reads i' j' = true) →
        (detect_key reads s).1 = keys_at i j)
    ∧ [[keys_at 0 0, keys_at 0 1, keys_at 0 2, keys_at 0 3],
       [keys_at 1 0, keys_at 1 1, keys_at 1 2, keys_at 1 3],
       [keys_at 2 0, keys_at 2 1, keys_at 2 2, keys_at 2 3],
       [keys_at 3 0, keys_at 3 1, keys_at 3 2, keys_at 3 3]]
      = [['1', '2', '3', 'A'], ['4', '5', '6', 'B'], ['7', '8', '9', 'C'],
         ['*', '0', '#', 'D']]
    ∧ ((detect_key reads s).1 = NUL ↔ ∀ i j, i < 4 → j < 4 → reads i j = true)
    ∧ (∀ i j, i < 4 → j < 4 →
        (∀ i' j', i' < 4 → j' < 4 → (reads i' j' = false ↔ (i' = i ∧ j' = j))) →
        (detect_key reads s).1 = keys_at i j) := by
  refine ⟨fun i j hi hj hlow hfirst => detect_key_of_first_low reads s i j hi hj hlow hfirst,
    keys_layout, detect_key_nul_iff reads s, ?_⟩
  intro i j hi hj hone
  apply detect_key_of_first_low reads s i j hi hj ((hone i j hi hj).mpr ⟨rfl, rfl⟩)
  intro i' j' hi' hj' hlt
  cases hr : reads i' j'
  · have := (hone i' j' hi' hj').mp hr
    omega
  · rfl

/-- C2, with the key 8 (row 3, column 2) held down: only scan step (2, 1)
reads low and detect_key returns the character 8. -/
theorem detect_key_returns_first_low_witness :
    (detect_key (fun i j => !(i == 2 && j == 1)) Hw.allHigh).1 = keys_at 2 1
    ∧ keys_at 2 1 = '8' :=
  ⟨(detect_key_returns_first_low (fun i j => !(i == 2 && j == 1)) Hw.allHigh).2.2.2 2 1
      (by decide) (by decide)
      (by intro i' j' hi' hj'; interval_cases i' <;> interval_cases j' <;> decide),
    by rfl⟩

/-! ## Reading traces of loops -/

theorem pixelWords_append (a b : List Event) :
    pixelWords (a ++ b) = pixelWords a ++ pixelWords b := by
  induction a with
  | nil => rfl
  | cons e t ih => cases e <;> simp [pixelWords, ih]

theorem toneCalls_append (a b : List Event) :
    toneCalls (a ++ b) = toneCalls a ++ toneCalls b := by
  induction a with
  | nil => rfl
  | cons e t ih => cases e <;> simp [toneCalls, ih]

theorem sleepsMs_append (a b : List Event) :
    sleepsMs (a ++ b) = sleepsMs a ++ sleepsMs b := by
  induction a with
  | nil => rfl
  | cons e t ih => cases e <;> simp [sleepsMs, ih]

theorem pixelWords_flatMap (l : List Nat) (ev : Nat → List Event) :
    pixelWords (l.flatMap ev) = l.flatMap (fun k => pixelWords (ev k)) := by
  induction l with
  | nil => rfl
  | cons a t ih => simp [List.flatMap_cons, pixelWords_append, ih]

theorem toneCalls_flatMap (l : List Nat) (ev : Nat → List Event) :
    toneCalls (l.flatMap ev) = l.flatMap (fun k => toneCalls (ev k)) := by
  induction l with
  | nil => rfl
  | cons a t ih => simp [List.flatMap_cons, toneCalls_append, ih]

theorem sleepsMs_flatMap (l : List Nat) (ev : Nat → List Event) :
    sleepsMs (l.flatMap ev) = l.flatMap (fun k => sleepsMs (ev k)) := by
  induction l with
  | nil => rfl
  | cons a t ih => simp [List.flatMap_cons, sleepsMs_append, ih]

theorem pixelWords_pass (pio sm : Nat) (w : Nat → Nat) (l : List Nat) :
    pixelWords (l.map fun i => Event.pio_sm_put_blocking pio sm (w i)) = l.map w := by
  induction l with
  | nil => rfl
  | cons a t ih => simp [pixelWords, ih]

theorem toneCalls_pass (pio sm : Nat) (w : Nat → Nat) (l : List Nat) :
    toneCalls (l.map fun i => Event.pio_sm_put_blocking pio sm (w i)) = [] := by
  induction l with
  | nil => rfl
  | cons a t ih => simp [toneCalls, ih]

theorem sleepsMs_pass (pio sm : Nat) (w : Nat → Nat) (l : List Nat) :
    sleepsMs (l.map fun i => Event.pio_sm_put_blocking pio sm (w i)) = [] := by
  induction l with
  | nil => rfl
  | cons a t ih => simp [sleepsMs, ih]

theorem pixelWords_cycles (h n : Nat) :
    pixelWords (List.replicate n (buzzerCycle h)).flatten = [] := by
  induction n with
  | zero => rfl
  | succ n ih => rw [List.replicate_succ, List.flatten_cons, pixelWords_append, ih]; rfl

theorem toneCalls_cycles (h n : Nat) :
    toneCalls (List.replicate n (buzzerCycle h)).flatten = [] := by
  induction n with
  | zero => rfl
  | succ n ih => rw [List.replicate_succ, List.flatten_cons, toneCalls_append, ih]; rfl

theorem sleepsMs_cycles (h n : Nat) :
    sleepsMs (List.replicate n (buzzerCycle h)).flatten = [] := by
  induction n with
  | zero => rfl
  | succ n ih => rw [List.replicate_succ, List.flatten_cons, sleepsMs_append, ih]; rfl

theorem pixelWords_tone (F D : Nat) : pixelWords (buzzerToneTrace F D) = [] := by
  simp [buzzerToneTrace, pixelWords, pixelWords_cycles]

theorem toneCalls_tone (F D : Nat) : toneCalls (buzzerToneTrace F D) = [(F, D)] := by
  simp [buzzerToneTrace, toneCalls, toneCalls_cycles]

theorem sleepsMs_tone (F D : Nat) : sleepsMs (buzzerToneTrace F D) = [] := by
  simp [buzzerToneTrace, sleepsMs, sleepsMs_cycles]

/-- The pixel loop of every drawing function: NUM_PIXELS panel writes in
raster order. -/
theorem pixel_loop_run (pio sm : Nat) (w : Nat → Nat) (s : Hw) :
    forLoop (fun i s => some (pio_sm_put_blocking pio sm (w i) s)) 0 NUM_PIXELS s
      = some (s.run ((List.range NUM_PIXELS).map
          fun i => Event.pio_sm_put_blocking pio sm (w i))) := by
  rw [forLoop_run _ (fun i => [Event.pio_sm_put_blocking pio sm (w i)]) NUM_PIXELS 0 s
    (fun j _ _ s => by rw [pio_sm_put_blocking_eq_run])]
  rfl

/-- Words of a trace made of one pass of m writes per frame. -/
theorem flatMap_map_length (n m : Nat) (g : Nat → Nat → Nat) :
    ((List.range n).flatMap fun f => (List.range m).map (g f)).length = n * m := by
  induction n with
  | zero => simp
  | succ n ih =>
    rw [List.range_succ, List.flatMap_append, List.length_append, ih]
    simp
    ring

theorem flatMap_map_getElem? (n m : Nat) (g : Nat → Nat → Nat) (f i : Nat)
    (hf : f < n) (hi : i < m) :
    ((List.range n).flatMap fun f => (List.range m).map (g f))[f * m + i]? = some (g f i) := by
  induction n with
  | zero => omega
  | succ n ih =>
    rw [List.range_succ, List.flatMap_append]
    by_cases hfn : f < n
    · have hlt : f * m + i < ((List.range n).flatMap fun f => (List.range m).map (g f)).length := by
        rw [flatMap_map_length]
        calc f * m + i < f * m + m := by omega
          _ = (f + 1) * m := by ring
          _ ≤ n * m := Nat.mul_le_mul_right m hfn
      rw [List.getElem?_append_left hlt]
      exact ih hfn
    · have hfe : f = n := by omega
      subst hfe
      have hge : ((List.range f).flatMap fun f => (List.range m).map (g f)).length ≤ f * m + i := by
        rw [flatMap_map_length]; omega
      rw [List.getElem?_append_right hge, flatMap_map_length]
      simp [hi]

/-! ## The animation engine -/

theorem pixel_pass_run (pio sm : Nat) (w : Nat → Nat) (s : Hw) :
    forLoop (fun i s => some (pio_sm_put_blocking pio sm (w i) s)) 0 NUM_PIXELS s
      = some (s.run (pixelPass pio sm w)) :=
  pixel_loop_run pio sm w s

theorem toUint_of_int (x : Int) (h0 : 0 ≤ x) (h1 : x ≤ INT_MAX) : toUint x = x.toNat := by
  unfold toUint
  unfold INT_MAX at h1
  congr 1
  omega

theorem frame_delay_eq (fps : Int) (h : 0 < fps) :
    toUint (Int.tdiv 1000 fps) = (1000 / fps).toNat := by
  rw [Int.tdiv_eq_ediv (by norm_num) (le_of_lt h)]
  have h1 : 0 ≤ 1000 / fps := Int.ediv_nonneg (by norm_num) (le_of_lt h)
  have h2 : 1000 / fps ≤ 1000 := Int.ediv_le_self _ (by norm_num)
  exact toUint_of_int _ h1 (by unfold INT_MAX; omega)

/-- The calls of the optional tone of a frame of executar_animacao. -/
theorem tone_if_run (freq dur : Int) (s : Hw) (hfreq : freq ≤ INT_MAX) :
    (if 0 < freq ∧ 0 < dur then buzzer_tone (toUint freq) (toUint dur) s else some s)
      = some (s.run (if 0 < freq ∧ 0 < dur then
          buzzerToneTrace (toUint freq) (toUint dur) else [])) := by
  split
  · rename_i h
    apply buzzer_tone_run
    rw [toUint_of_int freq (le_of_lt h.1) hfreq]
    omega
  · rw [Hw.run_nil]

theorem executar_animacao_run_defined (pio sm : Nat) (anim : Animacao) (freq dur : Int)
    (s : Hw) (hfps : anim.fps ≠ 0) (hn : anim.num_frames ≤ 25) (hfreq : freq ≤ INT_MAX) :
    executar_animacao pio sm anim freq dur s
      = some (s.run ((List.range anim.num_frames.toNat).flatMap fun f =>
          pixelPass pio sm (fun i => matrix_rgb (fmul anim.b (anim.frame_at f i))
            (fmul anim.r (anim.frame_at f i)) (fmul anim.g (anim.frame_at f i)))
          ++ (if 0 < freq ∧ 0 < dur then buzzerToneTrace (toUint freq) (toUint dur) else [])
          ++ [Event.sleep_ms (toUint (Int.tdiv 1000 anim.fps))])) := by
  unfold executar_animacao
  simp only [hfps, if_false]
  rw [List.range_eq_range']
  apply forLoop_run
  intro j _ hj s
  have hj25 : ¬ 25 ≤ j := by omega
  simp only [hj25, if_false]
  rw [pixel_pass_run, Option.some_bind, tone_if_run freq dur _ hfreq, Option.some_bind,
    sleep_ms_eq_run, Hw.run_run, Hw.run_run, List.append_assoc]

theorem executar_animacao_multicolor_run_defined (pio sm : Nat) (anim : Animacao)
    (freq dur : Int) (r2 g2 b2 : ℚ) (s : Hw)
    (hfps : anim.fps ≠ 0) (hn : anim.num_frames ≤ 25) (hfreq : freq ≤ INT_MAX) :
    executar_animacao_multicolor pio sm anim freq dur r2 g2 b2 s
      = some (s.run ((List.range anim.num_frames.toNat).flatMap fun f =>
          pixelPass pio sm (fun i =>
            if i % 2 = 0 then
              matrix_rgb (fmul anim.b (anim.frame_at f i)) (fmul anim.r (anim.frame_at f i))
                (fmul anim.g (anim.frame_at f i))
            else
              matrix_rgb (fmul b2 (anim.frame_at f i)) (fmul r2 (anim.frame_at f i))
                (fmul g2 (anim.frame_at f i)))
          ++ (if 0 < freq ∧ 0 < dur then buzzerToneTrace (toUint freq) (toUint dur) else [])
          ++ [Event.sleep_ms (toUint (Int.tdiv 1000 anim.fps))])) := by
  unfold executar_animacao_multicolor
  simp only [hfps, if_false]
  rw [List.range_eq_range']
  apply forLoop_run
  intro j _ hj s
  have hj25 : ¬ 25 ≤ j := by omega
  simp only [hj25, if_false]
  rw [pixel_pass_run, Option.some_bind, tone_if_run freq dur _ hfreq, Option.some_bind,
    sleep_ms_eq_run, Hw.run_run, Hw.run_run, List.append_assoc]

theorem executar_animacao_run (pio sm : Nat) (anim : Animacao) (freq dur : Int) (s : Hw)
    (hfps : 0 < anim.fps) (hn : anim.num_frames ≤ 25) (hfreq : freq ≤ INT_MAX) :
    executar_animacao pio sm anim freq dur s
      = some (s.run ((List.range anim.num_frames.toNat).flatMap fun f =>
          pixelPass pio sm (fun i => matrix_rgb (fmul anim.b (anim.frame_at f i))
            (fmul anim.r (anim.frame_at f i)) (fmul anim.g (anim.frame_at f i)))
          ++ (if 0 < freq ∧ 0 < dur then buzzerToneTrace (toUint freq) (toUint dur) else [])
          ++ [Event.sleep_ms (1000 / anim.fps).toNat])) := by
  have hfps0 : anim.fps ≠ 0 := by omega
  unfold executar_animacao
  simp only [hfps0, if_false]
  rw [List.range_eq_range']
  apply forLoop_run
  intro j _ hj s
  have hj25 : ¬ 25 ≤ j := by omega
  simp only [hj25, if_false]
  rw [pixel_pass_run, Option.some_bind, tone_if_run freq dur _ hfreq, Option.some_bind,
    sleep_ms_eq_run, Hw.run_run, Hw.run_run, frame_delay_eq _ hfps, List.append_assoc]

theorem executar_animacao_multicolor_run (pio sm : Nat) (anim : Animacao) (freq dur : Int)
    (r2 g2 b2 : ℚ) (s : Hw)
    (hfps : 0 < anim.fps) (hn : anim.num_frames ≤ 25) (hfreq : freq ≤ INT_MAX) :
    executar_animacao_multicolor pio sm anim freq dur r2 g2 b2 s
      = some (s.run ((List.range anim.num_frames.toNat).flatMap fun f =>
          pixelPass pio sm (fun i =>
            if i % 2 = 0 then
              matrix_rgb (fmul anim.b (anim.frame_at f i)) (fmul anim.r (anim.frame_at f i))
                (fmul anim.g (anim.frame_at f i))
            else
              matrix_rgb (fmul b2 (anim.frame_at f i)) (fmul r2 (anim.frame_at f i))
                (fmul g2 (anim.frame_at f i)))
          ++ (if 0 < freq ∧ 0 < dur then buzzerToneTrace (toUint freq) (toUint dur) else [])
          ++ [Event.sleep_ms (1000 / anim.fps).toNat])) := by
  have hfps0 : anim.fps ≠ 0 := by omega
  unfold executar_animacao_multicolor
  simp only [hfps0, if_false]
  rw [List.range_eq_range']
  apply forLoop_run
  intro j _ hj s
  have hj25 : ¬ 25 ≤ j := by omega
  simp only [hj25, if_false]
  rw [pixel_pass_run, Option.some_bind, tone_if_run freq dur _ hfreq, Option.some_bind,
    sleep_ms_eq_run, Hw.run_run, Hw.run_run, frame_delay_eq _ hfps, List.append_assoc]

theorem executar_animacao_lorenzo_on_run (anim : Animacao) (colors : List (List ℚ))
    (n_colors pio sm : Nat) (s : Hw)
    (hfps : 0 < anim.fps) (hn : anim.num_frames ≤ 25) (hc : anim.num_frames ≤ n_colors) :
    executar_animacao_lorenzo_on anim colors n_colors pio sm s
      = some (s.run ((List.range anim.num_frames.toNat).flatMap fun f =>
          pixelPass pio sm (fun i => matrix_rgb (fmul (color_at colors f 2) (anim.frame_at f i))
            (fmul (color_at colors f 0) (anim.frame_at f i)) (fmul (color_at colors f 1) (anim.frame_at f i)))
          ++ buzzerToneTrace (440 + f * 50) 200
          ++ [Event.sleep_ms (1000 / anim.fps).toNat])) := by
  have hfps0 : anim.fps ≠ 0 := by omega
  unfold executar_animacao_lorenzo_on
  rw [List.range_eq_range']
  apply forLoop_run
  intro j _ hj s
  have hj25 : ¬ (25 ≤ j ∨ n_colors ≤ j) := by omega
  have hfreq : toUint (440 + (j : Int) * 50) = 440 + j * 50 := by
    rw [toUint_of_int _ (by omega) (by unfold INT_MAX; omega)]
    omega
  simp only [hj25, hfps0, if_false]
  rw [pixel_pass_run, Option.some_bind, hfreq, buzzer_tone_run _ _ _ (by omega),
    Option.some_bind, sleep_ms_eq_run, Hw.run_run, Hw.run_run, frame_delay_eq _ hfps,
    List.append_assoc]

theorem musica_tone_run (frame : Nat) (fps : Int) (s : Hw) (hfps : 0 < fps) :
    (if frame = 0 ∨ frame = 6 ∨ frame = 8 ∨ frame = 12 ∨ frame = 18 then
        (buzzer_tone 261 250 s).bind fun s =>
        if fps = 0 then none
        else some (sleep_ms (toUint (Int.tdiv 1000 fps)) s)
      else if frame = 1 ∨ frame = 7 ∨ frame = 9 ∨ frame = 10 ∨ frame = 11 ∨ frame = 19 then
        (buzzer_tone 293 250 s).bind fun s =>
        if fps = 0 then none
        else some (sleep_ms (toUint (Int.tdiv 1000 fps)) s)
      else if frame = 2 ∨ frame = 15 ∨ frame = 16 ∨ frame = 17 ∨ frame = 20 then
        (buzzer_tone 329 250 s).bind fun s =>
        if fps = 0 then none
        else some (sleep_ms (toUint (Int.tdiv 1000 fps)) s)
      else if frame = 3 ∨ frame = 4 ∨ frame = 5 ∨ frame = 14 ∨ frame = 21 ∨ frame = 22
          ∨ frame = 23 then
        (buzzer_tone 349 250 s).bind fun s =>
        if fps = 0 then none
        else some (sleep_ms (toUint (Int.tdiv 1000 fps)) s)
      else
        (buzzer_tone 392 250 s).bind fun s =>
        if fps = 0 then none
        else some (sleep_ms (toUint (Int.tdiv 1000 fps)) s))
      = some (s.run (buzzerToneTrace (musicaNote frame) 250
          ++ [Event.sleep_ms (1000 / fps).toNat])) := by
  have hfps0 : fps ≠ 0 := by omega
  have key : ∀ F : Nat, 0 < F →
      ((buzzer_tone F 250 s).bind fun s =>
        if fps = 0 then none else some (sleep_ms (toUint (Int.tdiv 1000 fps)) s))
      = some (s.run (buzzerToneTrace F 250 ++ [Event.sleep_ms (1000 / fps).toNat])) := by
    intro F hF
    rw [buzzer_tone_run F 250 s hF, Option.some_bind]
    simp only [hfps0, if_false]
    rw [sleep_ms_eq_run, Hw.run_run, frame_delay_eq _ hfps]
  unfold musicaNote
  split
  · simpa only [hfps0, if_false] using key 261 (by decide)
  · split
    · simpa only [hfps0, if_false] using key 293 (by decide)
    · split
      · simpa only [hfps0, if_false] using key 329 (by decide)
      · split
        · simpa only [hfps0, if_false] using key 349 (by decide)
        · simpa only [hfps0, if_false] using key 392 (by decide)

theorem executar_animacao_musica_on_run (anim : Animacao) (colors : List (List ℚ))
    (n_colors pio sm : Nat) (s : Hw)
    (hfps : 0 < anim.fps) (hn : anim.num_frames ≤ 25) (hc : anim.num_frames ≤ n_colors) :
    executar_animacao_musica_on anim colors n_colors pio sm s
      = some (s.run ((List.range anim.num_frames.toNat).flatMap fun f =>
          pixelPass pio sm (fun i => matrix_rgb (fmul (color_at colors f 2) (anim.frame_at f i))
            (fmul (color_at colors f 0) (anim.frame_at f i)) (fmul (color_at colors f 1) (anim.frame_at f i)))
          ++ buzzerToneTrace (musicaNote f) 250
          ++ [Event.sleep_ms (1000 / anim.fps).toNat])) := by
  unfold executar_animacao_musica_on
  rw [List.range_eq_range']
  apply forLoop_run
  intro j _ hj s
  have hj25 : ¬ (25 ≤ j ∨ n_colors ≤ j) := by omega
  simp only [hj25, if_false]
  rw [pixel_pass_run, Option.some_bind, musica_tone_run j anim.fps _ hfps, Hw.run_run,
    List.append_assoc]

theorem tmod_two_natCast (x : Nat) : Int.tmod (x : Int) 2 = ((x % 2 : Nat) : Int) := by
  rw [Int.tmod_eq_emod (by omega) (by norm_num)]
  omega

theorem sirene_frame_eq (k : Nat) (n : Int) (hn : 0 < n) :
    Int.tmod (k : Int) n = ((k % n.toNat : Nat) : Int) := by
  rw [Int.tmod_eq_emod (by omega) (le_of_lt hn)]
  obtain ⟨m, rfl⟩ := Int.eq_ofNat_of_zero_le (le_of_lt hn)
  simp

theorem sirene_tone_eq (x : Nat) :
    toUint (1000 - ((x % 2 : Nat) : Int) * 300) = if x % 2 = 0 then 1000 else 700 := by
  rw [toUint_of_int _ (by omega) (by unfold INT_MAX; omega)]
  split <;> omega

theorem sirene_colour_eq (x : Nat) (c : ℚ) :
    matrix_rgb (fmul (if ((x % 2 : Nat) : Int) = 0 then 0.0 else 1.0) c)
        (fmul (if ((x % 2 : Nat) : Int) = 0 then 1.0 else 0.0) c) (fmul 0.0 c)
      = matrix_rgb (fmul (if x % 2 = 0 then 0 else 1) c) (fmul (if x % 2 = 0 then 1 else 0) c)
          (fmul 0 c) := by
  have h0 : (0.0 : ℚ) = 0 := by norm_num
  have h1 : (1.0 : ℚ) = 1 := by norm_num
  rw [h0, h1]
  by_cases hp : x % 2 = 0
  · have hc : ((x % 2 : Nat) : Int) = 0 := by omega
    rw [if_pos hc, if_pos hc, if_pos hp, if_pos hp]
  · have hc : ¬ ((x % 2 : Nat) : Int) = 0 := by omega
    rw [if_neg hc, if_neg hc, if_neg hp, if_neg hp]

theorem executar_animacao_sirene_on_run (anim : Animacao) (pio sm : Nat) (s : Hw)
    (hfps : 0 < anim.fps) (hmax : 3 * anim.fps ≤ INT_MAX)
    (hn1 : 1 ≤ anim.num_frames) (hn : anim.num_frames ≤ 25) :
    executar_animacao_sirene_on anim pio sm s
      = some (s.run ((List.range (3 * anim.fps).toNat).flatMap fun k =>
          pixelPass pio sm (fun i => matrix_rgb
            (fmul (if k % anim.num_frames.toNat % 2 = 0 then 0 else 1) (anim.frame_at (k % anim.num_frames.toNat) i))
            (fmul (if k % anim.num_frames.toNat % 2 = 0 then 1 else 0) (anim.frame_at (k % anim.num_frames.toNat) i))
            (fmul 0 (anim.frame_at (k % anim.num_frames.toNat) i)))
          ++ buzzerToneTrace (if k % anim.num_frames.toNat % 2 = 0 then 1000 else 700)
              (1000 / anim.fps).toNat
          ++ [Event.sleep_ms (1000 / anim.fps).toNat])) := by
  have hfps0 : anim.fps ≠ 0 := by omega
  have hov : ¬ (3 * anim.fps < INT_MIN ∨ INT_MAX < 3 * anim.fps) := by
    unfold INT_MIN; omega
  have hnf0 : anim.num_frames ≠ 0 := by omega
  unfold executar_animacao_sirene_on
  simp only [hfps0, hov, if_false]
  rw [List.range_eq_range']
  apply forLoop_run
  intro k _ _ s
  have hx : k % anim.num_frames.toNat < 25 := by
    have : k % anim.num_frames.toNat < anim.num_frames.toNat := Nat.mod_lt _ (by omega)
    omega
  have hguard : ¬ (((k % anim.num_frames.toNat : Nat) : Int) < 0
      ∨ 25 ≤ ((k % anim.num_frames.toNat : Nat) : Int)) := by omega
  simp only [hnf0, if_false, sirene_frame_eq k _ (by omega : 0 < anim.num_frames), hguard,
    Int.toNat_ofNat, tmod_two_natCast, sirene_tone_eq, frame_delay_eq _ hfps,
    sirene_colour_eq]
  rw [pixel_pass_run, Option.some_bind,
    buzzer_tone_run _ _ _ (by split <;> decide), Option.some_bind, sleep_ms_eq_run,
    Hw.run_run, Hw.run_run, List.append_assoc]

/-! ## Panel writes of the animations -/

theorem pixelWords_frames (pio sm n d : Nat) (word : Nat → Nat → Nat) (tone : Nat → List Event)
    (htone : ∀ k, pixelWords (tone k) = []) :
    pixelWords ((List.range n).flatMap fun k =>
        pixelPass pio sm (word k) ++ tone k ++ [Event.sleep_ms d])
      = (List.range n).flatMap fun k => (List.range NUM_PIXELS).map (word k) := by
  rw [pixelWords_flatMap]
  congr 1
  funext k
  rw [pixelWords_append, pixelWords_append, htone k, pixelPass, pixelWords_pass]
  simp [pixelWords]

theorem framed_length (pio sm n d : Nat) (t : List Event) (h : FramedPasses pio sm n d t) :
    (pixelWords t).length = n * NUM_PIXELS := by
  obtain ⟨word, tone, rfl, htone⟩ := h
  rw [pixelWords_frames _ _ _ _ _ _ (fun k => (htone k).1), flatMap_map_length]

theorem pixelWords_tone_if (c : Prop) [Decidable c] (F D : Nat) :
    pixelWords (if c then buzzerToneTrace F D else []) = [] := by
  split
  · exact pixelWords_tone F D
  · rfl

theorem sleepsMs_tone_if (c : Prop) [Decidable c] (F D : Nat) :
    sleepsMs (if c then buzzerToneTrace F D else []) = [] := by
  split
  · exact sleepsMs_tone F D
  · rfl

theorem executar_animacao_framed (pio sm : Nat) (anim : Animacao) (freq dur : Int) (s : Hw)
    (hfps : 0 < anim.fps) (hn : anim.num_frames ≤ 25) (hfreq : freq ≤ INT_MAX) :
    ∃ s' t, executar_animacao pio sm anim freq dur s = some s' ∧ s'.trace = s.trace ++ t
      ∧ FramedPasses pio sm anim.num_frames.toNat (1000 / anim.fps).toNat t :=
  ⟨_, _, executar_animacao_run pio sm anim freq dur s hfps hn hfreq, rfl, _, _, rfl,
    fun _ => ⟨pixelWords_tone_if _ _ _, sleepsMs_tone_if _ _ _⟩⟩

theorem executar_animacao_multicolor_framed (pio sm : Nat) (anim : Animacao) (freq dur : Int)
    (r2 g2 b2 : ℚ) (s : Hw)
    (hfps : 0 < anim.fps) (hn : anim.num_frames ≤ 25) (hfreq : freq ≤ INT_MAX) :
    ∃ s' t, executar_animacao_multicolor pio sm anim freq dur r2 g2 b2 s = some s'
      ∧ s'.trace = s.trace ++ t
      ∧ FramedPasses pio sm anim.num_frames.toNat (1000 / anim.fps).toNat t :=
  ⟨_, _, executar_animacao_multicolor_run pio sm anim freq dur r2 g2 b2 s hfps hn hfreq, rfl,
    _, _, rfl, fun _ => ⟨pixelWords_tone_if _ _ _, sleepsMs_tone_if _ _ _⟩⟩

theorem executar_animacao_lorenzo_on_framed (anim : Animacao) (colors : List (List ℚ))
    (n_colors pio sm : Nat) (s : Hw)
    (hfps : 0 < anim.fps) (hn : anim.num_frames ≤ 25) (hc : anim.num_frames ≤ n_colors) :
    ∃ s' t, executar_animacao_lorenzo_on anim colors n_colors pio sm s = some s'
      ∧ s'.trace = s.trace ++ t
      ∧ FramedPasses pio sm anim.num_frames.toNat (1000 / anim.fps).toNat t :=
  ⟨_, _, executar_animacao_lorenzo_on_run anim colors n_colors pio sm s hfps hn hc, rfl,
    _, _, rfl, fun _ => ⟨pixelWords_tone _ _, sleepsMs_tone _ _⟩⟩

theorem executar_animacao_musica_on_framed (anim : Animacao) (colors : List (List ℚ))
    (n_colors pio sm : Nat) (s : Hw)
    (hfps : 0 < anim.fps) (hn : anim.num_frames ≤ 25) (hc : anim.num_frames ≤ n_colors) :
    ∃ s' t, executar_animacao_musica_on anim colors n_colors pio sm s = some s'
      ∧ s'.trace = s.trace ++ t
      ∧ FramedPasses pio sm anim.num_frames.toNat (1000 / anim.fps).toNat t :=
  ⟨_, _, executar_animacao_musica_on_run anim colors n_colors pio sm s hfps hn hc, rfl,
    _, _, rfl, fun _ => ⟨pixelWords_tone _ _, sleepsMs_tone _ _⟩⟩

theorem executar_animacao_sirene_on_framed (anim : Animacao) (pio sm : Nat) (s : Hw)
    (hfps : 0 < anim.fps) (hmax : 3 * anim.fps ≤ INT_MAX)
    (hn1 : 1 ≤ anim.num_frames) (hn : anim.num_frames ≤ 25) :
    ∃ s' t, executar_animacao_sirene_on anim pio sm s = some s'
      ∧ s'.trace = s.trace ++ t
      ∧ FramedPasses pio sm (3 * anim.fps).toNat (1000 / anim.fps).toNat t :=
  ⟨_, _, executar_animacao_sirene_on_run anim pio sm s hfps hmax hn1 hn, rfl,
    _, _, rfl, fun _ => ⟨pixelWords_tone _ _, sleepsMs_tone _ _⟩⟩

theorem framed_count_int (pio sm d : Nat) (x : Int) (t : List Event) (hx : 0 ≤ x)
    (h : FramedPasses pio sm x.toNat d t) : ((pixelWords t).length : Int) = x * 25 := by
  rw [framed_length pio sm _ d t h, NUM_PIXELS]
  push_cast
  rw [Int.toNat_of_nonneg hx]

/-- C5. For every Animation with fps > 0 and num_frames within its table
(0 to 25 frames, and for the variants with a colour table no more frames than
that table has rows), every variant returns after a trace made of one pass of
25 (NUM_PIXELS) pixel writes per rendered frame, each pass followed by the
frame's tone calls and its sleep: executar_animacao,
executar_animacao_multicolor, executar_animacao_lorenzo and
executar_animacao_musica perform exactly num_frames * 25 pixel writes, and
executar_animacao_sirene (for at least one frame in the table and 3 * fps
within the range of int) performs exactly (3 * fps) * 25 pixel writes. On the
shipped tables that is 7 * 25, 24 * 25 and 9 * 25 writes for the three
functions that read a global table. -/
theorem pixel_writes_per_frame (pio sm : Nat) (anim : Animacao) (s : Hw)
    (hfps : 0 < anim.fps) (hn0 : 0 ≤ anim.num_frames) (hn : anim.num_frames ≤ 25) :
    (∀ freq dur : Int, freq ≤ INT_MAX →
      ∃ s' t, executar_animacao pio sm anim freq dur s = some s' ∧ s'.trace = s.trace ++ t
        ∧ FramedPasses pio sm anim.num_frames.toNat (1000 / anim.fps).toNat t
        ∧ ((pixelWords t).length : Int) = anim.num_frames * 25)
    ∧ (∀ (freq dur : Int) (r2 g2 b2 : ℚ), freq ≤ INT_MAX →
      ∃ s' t, executar_animacao_multicolor pio sm anim freq dur r2 g2 b2 s = some s'
        ∧ s'.trace = s.trace ++ t
        ∧ FramedPasses pio sm anim.num_frames.toNat (1000 / anim.fps).toNat t
        ∧ ((pixelWords t).length : Int) = anim.num_frames * 25)
    ∧ (∀ (colors : List (List ℚ)) (n_colors : Nat), anim.num_frames ≤ n_colors →
      ∃ s' t, executar_animacao_lorenzo_on anim colors n_colors pio sm s = some s'
        ∧ s'.trace = s.trace ++ t
        ∧ FramedPasses pio sm anim.num_frames.toNat (1000 / anim.fps).toNat t
        ∧ ((pixelWords t).length : Int) = anim.num_frames * 25)
    ∧ (∀ (colors : List (List ℚ)) (n_colors : Nat), anim.num_frames ≤ n_colors →
      ∃ s' t, executar_animacao_musica_on anim colors n_colors pio sm s = some s'
        ∧ s'.trace = s.trace ++ t
        ∧ FramedPasses pio sm anim.num_frames.toNat (1000 / anim.fps).toNat t
        ∧ ((pixelWords t).length : Int) = anim.num_frames * 25)
    ∧ (1 ≤ anim.num_frames → 3 * anim.fps ≤ INT_MAX →
      ∃ s' t, executar_animacao_sirene_on anim pio sm s = some s'
        ∧ s'.trace = s.trace ++ t
        ∧ FramedPasses pio sm (3 * anim.fps).toNat (1000 / anim.fps).toNat t
        ∧ ((pixelWords t).length : Int) = (3 * anim.fps) * 25)
    ∧ (∃ s' t, executar_animacao_lorenzo pio sm s = some s' ∧ s'.trace = s.trace ++ t
        ∧ FramedPasses pio sm 7 500 t ∧ (pixelWords t).length = 7 * 25)
    ∧ (∃ s' t, executar_animacao_musica pio sm s = some s' ∧ s'.trace = s.trace ++ t
        ∧ FramedPasses pio sm 24 250 t ∧ (pixelWords t).length = 24 * 25)
    ∧ (∃ s' t, executar_animacao_sirene pio sm s = some s' ∧ s'.trace = s.trace ++ t
        ∧ FramedPasses pio sm 9 333 t ∧ (pixelWords t).length = 9 * 25) := by
  refine ⟨?_, ?_, ?_, ?_, ?_, ?_, ?_, ?_⟩
  · intro freq dur hfreq
    obtain ⟨s', t, h1, h2, h3⟩ := executar_animacao_framed pio sm anim freq dur s hfps hn hfreq
    exact ⟨s', t, h1, h2, h3, framed_count_int _ _ _ _ _ hn0 h3⟩
  · intro freq dur r2 g2 b2 hfreq
    obtain ⟨s', t, h1, h2, h3⟩ :=
      executar_animacao_multicolor_framed pio sm anim freq dur r2 g2 b2 s hfps hn hfreq
    exact ⟨s', t, h1, h2, h3, framed_count_int _ _ _ _ _ hn0 h3⟩
  · intro colors n_colors hc
    obtain ⟨s', t, h1, h2, h3⟩ :=
      executar_animacao_lorenzo_on_framed anim colors n_colors pio sm s hfps hn hc
    exact ⟨s', t, h1, h2, h3, framed_count_int _ _ _ _ _ hn0 h3⟩
  · intro colors n_colors hc
    obtain ⟨s', t, h1, h2, h3⟩ :=
      executar_animacao_musica_on_framed anim colors n_colors pio sm s hfps hn hc
    exact ⟨s', t, h1, h2, h3, framed_count_int _ _ _ _ _ hn0 h3⟩
  · intro hn1 hmax
    obtain ⟨s', t, h1, h2, h3⟩ :=
      executar_animacao_sirene_on_framed anim pio sm s hfps hmax hn1 hn
    exact ⟨s', t, h1, h2, h3, framed_count_int _ _ _ _ _ (by omega) h3⟩
  · obtain ⟨s', t, h1, h2, h3⟩ :=
      executar_animacao_lorenzo_on_framed animacao_5_lorenzo lorenzo_colors 7 pio sm s
        (by decide) (by decide) (by decide)
    exact ⟨s', t, h1, h2, h3, framed_length _ _ _ _ _ h3⟩
  · obtain ⟨s', t, h1, h2, h3⟩ :=
      executar_animacao_musica_on_framed animacao_6_musica musica_colors 24 pio sm s
        (by decide) (by decide) (by decide)
    exact ⟨s', t, h1, h2, h3, framed_length _ _ _ _ _ h3⟩
  · obtain ⟨s', t, h1, h2, h3⟩ :=
      executar_animacao_sirene_on_framed animacao_7_sirene pio sm s
        (by decide) (by decide) (by decide) (by decide)
    exact ⟨s', t, h1, h2, h3, framed_length _ _ _ _ _ h3⟩

/-- C5, on animacao_1 with the arguments of key 1: 5 frames of 25 writes. -/
theorem pixel_writes_per_frame_witness :
    ∃ s' t, executar_animacao 0 0 animacao_1 0 0 Hw.allLow = some s'
      ∧ s'.trace = Hw.allLow.trace ++ t
      ∧ FramedPasses 0 0 animacao_1.num_frames.toNat (1000 / animacao_1.fps).toNat t
      ∧ ((pixelWords t).length : Int) = animacao_1.num_frames * 25 :=
  (pixel_writes_per_frame 0 0 animacao_1 Hw.allLow (by decide) (by decide) (by decide)).1
    0 0 (by decide)

/-! ## The words of the plain and multicolor animations -/

theorem pixelWords_tone_if_frames (pio sm n d : Nat) (word : Nat → Nat → Nat) (c : Prop)
    [Decidable c] (F D : Nat) :
    pixelWords ((List.range n).flatMap fun k =>
        pixelPass pio sm (word k) ++ (if c then buzzerToneTrace F D else [])
          ++ [Event.sleep_ms d])
      = (List.range n).flatMap fun k => (List.range NUM_PIXELS).map (word k) :=
  pixelWords_frames pio sm n d word (fun _ => if c then buzzerToneTrace F D else [])
    (fun _ => pixelWords_tone_if c F D)

theorem executar_animacao_word_at (pio sm : Nat) (anim : Animacao) (freq dur : Int) (s : Hw)
    (hfps : anim.fps ≠ 0) (hn : anim.num_frames ≤ 25) (hfreq : freq ≤ INT_MAX) :
    ∃ s' t, executar_animacao pio sm anim freq dur s = some s' ∧ s'.trace = s.trace ++ t
      ∧ ∀ f i : Nat, (f : Int) < anim.num_frames → i < 25 →
          (pixelWords t)[f * 25 + i]? =
            some (matrix_rgb (fmul anim.b (anim.frame_at f i)) (fmul anim.r (anim.frame_at f i))
              (fmul anim.g (anim.frame_at f i))) := by
  refine ⟨_, _, executar_animacao_run_defined pio sm anim freq dur s hfps hn hfreq, rfl, ?_⟩
  intro f i hf hi
  rw [pixelWords_tone_if_frames]
  exact flatMap_map_getElem? _ 25 _ f i (by omega) hi

/-- C6 (as amended). For every Animation on which the C function is defined
(fps not 0, at most 25 frames in use, an int tone frequency), every frame
f < num_frames and every pixel i < 25, executar_animacao returns and the
(f*25 + i)-th word it writes to the panel is
matrix_rgb(b * intensity, r * intensity, g * intensity) with
intensity = frames[f][i], (r, g, b) the base colour of the Animation and each
product the binary64 product, so frames and pixels are emitted in table order
and raster order; when the three binary64 products are in [0, 1], each
rendered channel byte is the integer part of the binary64 product of
base_channel * intensity and 255, and the low byte is 0; for a base channel
and an intensity in [0, 1] that byte is within one of
floor(base_channel * intensity * 255). -/
theorem executar_animacao_words (pio sm : Nat) (anim : Animacao) (freq dur : Int) (s : Hw)
    (hfps : anim.fps ≠ 0) (hn : anim.num_frames ≤ 25) (hfreq : freq ≤ INT_MAX) :
    ∃ s' t, executar_animacao pio sm anim freq dur s = some s' ∧ s'.trace = s.trace ++ t
      ∧ (∀ f i : Nat, (f : Int) < anim.num_frames → i < 25 →
          (pixelWords t)[f * 25 + i]? =
            some (matrix_rgb (fmul anim.b (anim.frame_at f i)) (fmul anim.r (anim.frame_at f i))
              (fmul anim.g (anim.frame_at f i))))
      ∧ (∀ f i : Nat, (f : Int) < anim.num_frames → i < 25 →
          (0 ≤ fmul anim.b (anim.frame_at f i) ∧ fmul anim.b (anim.frame_at f i) ≤ 1) →
          (0 ≤ fmul anim.r (anim.frame_at f i) ∧ fmul anim.r (anim.frame_at f i) ≤ 1) →
          (0 ≤ fmul anim.g (anim.frame_at f i) ∧ fmul anim.g (anim.frame_at f i) ≤ 1) →
          ∃ w, (pixelWords t)[f * 25 + i]? = some w
            ∧ ((w / 2 ^ 24 % 256 : Nat) : Int) = ⌊fmul (fmul anim.g (anim.frame_at f i)) 255⌋
            ∧ ((w / 2 ^ 16 % 256 : Nat) : Int) = ⌊fmul (fmul anim.r (anim.frame_at f i)) 255⌋
            ∧ ((w / 2 ^ 8 % 256 : Nat) : Int) = ⌊fmul (fmul anim.b (anim.frame_at f i)) 255⌋
            ∧ w % 256 = 0)
      ∧ (∀ f i : Nat, (f : Int) < anim.num_frames → i < 25 →
          (0 ≤ anim.frame_at f i ∧ anim.frame_at f i ≤ 1) →
          ∀ c ∈ [anim.g, anim.r, anim.b], 0 ≤ c ∧ c ≤ 1 →
            ⌊c * anim.frame_at f i * 255⌋ - 1 ≤ ⌊fmul (fmul c (anim.frame_at f i)) 255⌋
            ∧ ⌊fmul (fmul c (anim.frame_at f i)) 255⌋ ≤ ⌊c * anim.frame_at f i * 255⌋ + 1) := by
  obtain ⟨s', t, hrun, htrace, hword⟩ :=
    executar_animacao_word_at pio sm anim freq dur s hfps hn hfreq
  refine ⟨s', t, hrun, htrace, hword, ?_, ?_⟩
  · intro f i hf hi hb hr hg
    obtain ⟨_, _, h24, h16, h8, h0⟩ := matrix_rgb_bytes _ _ _ hb hr hg
    exact ⟨_, hword f i hf hi, h24, h16, h8, h0⟩
  · intro f i _ _ hI c _ hc
    exact scaled_byte_near c _ hc hI

theorem animacao_1_colour :
    animacao_1.b = 0 ∧ animacao_1.r = 1 ∧ animacao_1.g = roundDouble 0.8
    ∧ animacao_1.frame_at 2 1 = roundDouble 0.6 := by
  refine ⟨?_, ?_, rfl, ?_⟩
  · show roundDouble 0.0 = 0
    rw [show (0.0 : ℚ) = 0 by norm_num, roundDouble_zero]
  · show roundDouble 1.0 = 1
    rw [show (1.0 : ℚ) = 1 by norm_num, roundDouble_one]
  · simp [animacao_1, Animacao.frame_at, doubleTable]

/-- C6 (as amended), on animacao_1 with the arguments of key 1, at frame 2 and
pixel 1 (intensity 0.6, base colour 1.0, 0.8, 0.0): word number 51 is
matrix_rgb(0.0 * 0.6, 1.0 * 0.6, 0.8 * 0.6), and its bytes are the integer
parts of the binary64 products with 255. -/
theorem executar_animacao_words_witness :
    ∃ s' t, executar_animacao 0 0 animacao_1 0 0 Hw.allLow = some s'
      ∧ s'.trace = Hw.allLow.trace ++ t
      ∧ (pixelWords t)[2 * 25 + 1]? =
          some (matrix_rgb (fmul animacao_1.b (animacao_1.frame_at 2 1))
            (fmul animacao_1.r (animacao_1.frame_at 2 1))
            (fmul animacao_1.g (animacao_1.frame_at 2 1)))
      ∧ (∃ w, (pixelWords t)[2 * 25 + 1]? = some w
          ∧ ((w / 2 ^ 16 % 256 : Nat) : Int)
              = ⌊fmul (fmul animacao_1.r (animacao_1.frame_at 2 1)) 255⌋
          ∧ w % 256 = 0)
      ∧ animacao_1.frame_at 2 1 = roundDouble 0.6 := by
  obtain ⟨s', t, h1, h2, h3, h4, _⟩ :=
    executar_animacao_words 0 0 animacao_1 0 0 Hw.allLow (by decide) (by decide) (by decide)
  obtain ⟨hb, hr, hg, hI⟩ := animacao_1_colour
  have hI01 := roundDouble_unit_range 0.6 (by norm_num)
  have hg01 := roundDouble_unit_range 0.8 (by norm_num)
  obtain ⟨w, hw, _, h16, _, h0⟩ := h4 2 1 (by decide) (by decide)
    (by rw [hb, hI]; exact fmul_unit_range _ _ (by norm_num) hI01)
    (by rw [hr, hI]; exact fmul_unit_range _ _ (by norm_num) hI01)
    (by rw [hg, hI]; exact fmul_unit_range _ _ hg01 hI01)
  exact ⟨s', t, h1, h2, h3 2 1 (by decide) (by decide), ⟨w, hw, h16, h0⟩, hI⟩

/-- C6 fails as stated on the animation of one frame with base colour
(r, g, b) = (1.0, 0.0, 0.0) and frames[0][0] = 0x1.010101010101p-8, at f = 0,
i = 0. The product r * intensity is that intensity, in [0, 1], and times 255 it
is 1 - 2^(-56), so truncated to 8 bits the red channel is 0; the binary64
product with 255 is 1.0, the word that executar_animacao writes is 65536 and
its red byte is 1. -/
theorem executar_animacao_words_counterexample :
    animacao_um_pixel.r = 1 ∧ animacao_um_pixel.g = 0 ∧ animacao_um_pixel.b = 0
    ∧ animacao_um_pixel.frame_at 0 0 = nearOver255
    ∧ roundDouble nearOver255 = nearOver255
    ∧ (0 ≤ animacao_um_pixel.r * animacao_um_pixel.frame_at 0 0
        ∧ animacao_um_pixel.r * animacao_um_pixel.frame_at 0 0 ≤ 1)
    ∧ ⌊animacao_um_pixel.r * animacao_um_pixel.frame_at 0 0 * 255⌋ = 0
    ∧ ∃ s' t, executar_animacao 0 0 animacao_um_pixel 0 0 Hw.allLow = some s'
        ∧ s'.trace = Hw.allLow.trace ++ t
        ∧ (pixelWords t)[0 * 25 + 0]? = some 65536
        ∧ ((65536 / 2 ^ 16 % 256 : Nat) : Int)
            ≠ ⌊animacao_um_pixel.r * animacao_um_pixel.frame_at 0 0 * 255⌋ := by
  obtain ⟨h1, h2, h3, _, h5, _⟩ := nearOver255_facts
  have hI : animacao_um_pixel.frame_at 0 0 = nearOver255 := rfl
  have hr : animacao_um_pixel.r = 1 := rfl
  have hfl : ⌊animacao_um_pixel.r * animacao_um_pixel.frame_at 0 0 * 255⌋ = 0 := by
    rw [hr, hI, one_mul, h5]
  obtain ⟨s', t, hrun, htrace, hword⟩ :=
    executar_animacao_word_at 0 0 animacao_um_pixel 0 0 Hw.allLow (by decide) (by decide)
      (by decide)
  have hw := hword 0 0 (by decide) (by decide)
  have hval : matrix_rgb (fmul animacao_um_pixel.b (animacao_um_pixel.frame_at 0 0))
      (fmul animacao_um_pixel.r (animacao_um_pixel.frame_at 0 0))
      (fmul animacao_um_pixel.g (animacao_um_pixel.frame_at 0 0)) = 65536 := by
    rw [hI, hr, show animacao_um_pixel.b = 0 from rfl, show animacao_um_pixel.g = 0 from rfl,
      fmul_zero_left, show fmul 1 nearOver255 = nearOver255 by rw [fmul, one_mul, h1]]
    exact matrix_rgb_nearOver255
  rw [hval] at hw
  refine ⟨hr, rfl, rfl, hI, h1, ?_, hfl, s', t, hrun, htrace, hw, ?_⟩
  · rw [hr, hI, one_mul]; exact ⟨h2, h3⟩
  · rw [hfl]; decide

/-- C7. For every Animation on which the C function is defined (fps not 0, at
most 25 frames in use, an int tone frequency), secondary colour (r2, g2, b2),
frame f < num_frames and pixel i < 25,
executar_animacao_multicolor returns and the word it writes for pixel i of
frame f (word number f*25 + i) is the codec word of the base colour of the
Animation scaled by frames[f][i] when i is even, and the codec word of
(r2, g2, b2) scaled by frames[f][i] when i is odd. -/
theorem executar_animacao_multicolor_words (pio sm : Nat) (anim : Animacao) (freq dur : Int)
    (r2 g2 b2 : ℚ) (s : Hw)
    (hfps : anim.fps ≠ 0) (hn : anim.num_frames ≤ 25) (hfreq : freq ≤ INT_MAX) :
    ∃ s' t, executar_animacao_multicolor pio sm anim freq dur r2 g2 b2 s = some s'
      ∧ s'.trace = s.trace ++ t
      ∧ (∀ f i : Nat, (f : Int) < anim.num_frames → i < 25 → i % 2 = 0 →
          (pixelWords t)[f * 25 + i]? =
            some (matrix_rgb (fmul anim.b (anim.frame_at f i)) (fmul anim.r (anim.frame_at f i))
              (fmul anim.g (anim.frame_at f i))))
      ∧ (∀ f i : Nat, (f : Int) < anim.num_frames → i < 25 → i % 2 = 1 →
          (pixelWords t)[f * 25 + i]? =
            some (matrix_rgb (fmul b2 (anim.frame_at f i)) (fmul r2 (anim.frame_at f i))
              (fmul g2 (anim.frame_at f i)))) := by
  have hword : ∀ f i : Nat, (f : Int) < anim.num_frames → i < 25 →
      (pixelWords ((List.range anim.num_frames.toNat).flatMap fun f =>
          pixelPass pio sm (fun i =>
            if i % 2 = 0 then
              matrix_rgb (fmul anim.b (anim.frame_at f i)) (fmul anim.r (anim.frame_at f i))
                (fmul anim.g (anim.frame_at f i))
            else
              matrix_rgb (fmul b2 (anim.frame_at f i)) (fmul r2 (anim.frame_at f i))
                (fmul g2 (anim.frame_at f i)))
          ++ (if 0 < freq ∧ 0 < dur then buzzerToneTrace (toUint freq) (toUint dur) else [])
          ++ [Event.sleep_ms (toUint (Int.tdiv 1000 anim.fps))]))[f * 25 + i]? =
        some (if i % 2 = 0 then
              matrix_rgb (fmul anim.b (anim.frame_at f i)) (fmul anim.r (anim.frame_at f i))
                (fmul anim.g (anim.frame_at f i))
            else
              matrix_rgb (fmul b2 (anim.frame_at f i)) (fmul r2 (anim.frame_at f i))
                (fmul g2 (anim.frame_at f i))) := by
    intro f i hf hi
    rw [pixelWords_tone_if_frames]
    exact flatMap_map_getElem? _ 25 _ f i (by omega) hi
  refine ⟨_, _, executar_animacao_multicolor_run_defined pio sm anim freq dur r2 g2 b2 s hfps hn hfreq,
    rfl, ?_, ?_⟩
  · intro f i hf hi hpar
    rw [hword f i hf hi, if_pos hpar]
  · intro f i hf hi hpar
    rw [hword f i hf hi, if_neg (by omega)]

/-- C7, on animacao_3 with the arguments of key 3 (tone 440 Hz for 100 ms,
secondary colour blue): pixel 0 of frame 0 takes the base colour, pixel 1 the
secondary colour. -/
theorem executar_animacao_multicolor_words_witness :
    ∃ s' t, executar_animacao_multicolor 0 0 animacao_3 440 100 0.0 0.0 1.0 Hw.allLow = some s'
      ∧ s'.trace = Hw.allLow.trace ++ t
      ∧ (pixelWords t)[0 * 25 + 0]? =
          some (matrix_rgb (fmul animacao_3.b (animacao_3.frame_at 0 0))
            (fmul animacao_3.r (animacao_3.frame_at 0 0)) (fmul animacao_3.g (animacao_3.frame_at 0 0)))
      ∧ (pixelWords t)[0 * 25 + 1]? =
          some (matrix_rgb (fmul 1.0 (animacao_3.frame_at 0 1)) (fmul 0.0 (animacao_3.frame_at 0 1))
            (fmul 0.0 (animacao_3.frame_at 0 1))) := by
  obtain ⟨s', t, h1, h2, h3, h4⟩ :=
    executar_animacao_multicolor_words 0 0 animacao_3 440 100 0.0 0.0 1.0 Hw.allLow
      (by decide) (by decide) (by decide)
  exact ⟨s', t, h1, h2, h3 0 0 (by decide) (by decide) (by decide),
    h4 0 1 (by decide) (by decide) (by decide)⟩

/-! ## The event trace of executar_animacao -/

theorem flatMap_range_singleton {α : Type} (n : Nat) (a : α) :
    (List.range n).flatMap (fun _ => [a]) = List.replicate n a := by
  induction n with
  | zero => rfl
  | succ n ih =>
    rw [List.range_succ, List.flatMap_append, ih, List.replicate_succ']
    simp

theorem flatMap_range_nil {α : Type} (n : Nat) :
    (List.range n).flatMap (fun _ => ([] : List α)) = [] := by
  induction n with
  | zero => rfl
  | succ n ih => rw [List.range_succ, List.flatMap_append, ih]; simp

theorem sleepsMs_frames (pio sm n d : Nat) (word : Nat → Nat → Nat) (tone : Nat → List Event)
    (htone : ∀ k, sleepsMs (tone k) = []) :
    sleepsMs ((List.range n).flatMap fun k =>
        pixelPass pio sm (word k) ++ tone k ++ [Event.sleep_ms d])
      = List.replicate n d := by
  rw [sleepsMs_flatMap, ← flatMap_range_singleton]
  congr 1
  funext k
  rw [sleepsMs_append, sleepsMs_append, htone k, pixelPass, sleepsMs_pass]
  simp [sleepsMs]

theorem toneCalls_frames (pio sm n d : Nat) (word : Nat → Nat → Nat) (tone : Nat → List Event) :
    toneCalls ((List.range n).flatMap fun k =>
        pixelPass pio sm (word k) ++ tone k ++ [Event.sleep_ms d])
      = (List.range n).flatMap fun k => toneCalls (tone k) := by
  rw [toneCalls_flatMap]
  congr 1
  funext k
  rw [toneCalls_append, toneCalls_append, pixelPass, toneCalls_pass]
  simp [toneCalls]

theorem sum_replicate_nat (n d : Nat) : (List.replicate n d).sum = n * d := by
  induction n with
  | zero => simp
  | succ n ih => rw [List.replicate_succ, List.sum_cons, ih]; ring

theorem executar_animacao_events (pio sm : Nat) (anim : Animacao) (freq dur : Int) (s : Hw)
    (hfps : 0 < anim.fps) (hn : anim.num_frames ≤ 25)
    (hfreq : freq ≤ INT_MAX) (hdur : dur ≤ INT_MAX) :
    ∃ s' t, executar_animacao pio sm anim freq dur s = some s' ∧ s'.trace = s.trace ++ t
      ∧ t = (List.range anim.num_frames.toNat).flatMap (fun f =>
          pixelPass pio sm (fun i => matrix_rgb (fmul anim.b (anim.frame_at f i))
            (fmul anim.r (anim.frame_at f i)) (fmul anim.g (anim.frame_at f i)))
          ++ (if 0 < freq ∧ 0 < dur then buzzerToneTrace freq.toNat dur.toNat else [])
          ++ [Event.sleep_ms (1000 / anim.fps).toNat])
      ∧ toneCalls t = (if 0 < freq ∧ 0 < dur then
          List.replicate anim.num_frames.toNat (freq.toNat, dur.toNat) else [])
      ∧ sleepsMs t = List.replicate anim.num_frames.toNat (1000 / anim.fps).toNat := by
  have hrun := executar_animacao_run pio sm anim freq dur s hfps hn hfreq
  have htone : (if 0 < freq ∧ 0 < dur then buzzerToneTrace (toUint freq) (toUint dur) else [])
      = (if 0 < freq ∧ 0 < dur then buzzerToneTrace freq.toNat dur.toNat else []) := by
    split
    · rename_i h
      rw [toUint_of_int freq (le_of_lt h.1) hfreq, toUint_of_int dur (le_of_lt h.2) hdur]
    · rfl
  rw [htone] at hrun
  refine ⟨_, _, hrun, rfl, rfl, ?_, ?_⟩
  · rw [toneCalls_frames]
    split
    · simp only [toneCalls_tone]
      exact flatMap_range_singleton _ _
    · exact flatMap_range_nil _
  · exact sleepsMs_frames _ _ _ _ _ _ (fun _ => sleepsMs_tone_if _ _ _)

theorem main_switch_key_1 (pio sm : Nat) (s : Hw) :
    main_switch pio sm '1' s = executar_animacao pio sm animacao_1 0 0 s := by
  simp [main_switch]

/-- C8. For every Animation with fps > 0 (at most 25 frames in use) and every
pair of int tone arguments (freq, dur), executar_animacao returns and its
event trace is, for each frame 0 .. num_frames-1 in order: the 25 pixel writes
of the frame, then the calls of exactly one buzzer_tone(freq, dur) if freq > 0
and dur > 0 and nothing otherwise, then exactly one sleep_ms of
floor(1000 / fps); a tone makes one entry mark, no pixel write and no
sleep_ms (buzzerToneTrace is the list of calls buzzer_tone makes), so the
frames follow each other with nothing of the next frame before that sleep. Key 1 runs animacao_1 (5 frames, 5 fps, tone arguments
0, 0): no tone call and 5 sleeps of 200 ms, 1000 ms in total. -/
theorem executar_animacao_frame_order (pio sm : Nat) (anim : Animacao) (freq dur : Int)
    (s : Hw) (hfps : 0 < anim.fps) (hn : anim.num_frames ≤ 25)
    (hfreq : freq ≤ INT_MAX) (hdur : dur ≤ INT_MAX) :
    (∃ s' t, executar_animacao pio sm anim freq dur s = some s' ∧ s'.trace = s.trace ++ t
      ∧ t = (List.range anim.num_frames.toNat).flatMap (fun f =>
          pixelPass pio sm (fun i => matrix_rgb (fmul anim.b (anim.frame_at f i))
            (fmul anim.r (anim.frame_at f i)) (fmul anim.g (anim.frame_at f i)))
          ++ (if 0 < freq ∧ 0 < dur then buzzerToneTrace freq.toNat dur.toNat else [])
          ++ [Event.sleep_ms (1000 / anim.fps).toNat])
      ∧ toneCalls t = (if 0 < freq ∧ 0 < dur then
          List.replicate anim.num_frames.toNat (freq.toNat, dur.toNat) else [])
      ∧ sleepsMs t = List.replicate anim.num_frames.toNat (1000 / anim.fps).toNat)
    ∧ (toneCalls (buzzerToneTrace freq.toNat dur.toNat) = [(freq.toNat, dur.toNat)]
      ∧ pixelWords (buzzerToneTrace freq.toNat dur.toNat) = []
      ∧ sleepsMs (buzzerToneTrace freq.toNat dur.toNat) = []
      ∧ (0 < freq → ∀ s0, ∃ s1, buzzer_tone freq.toNat dur.toNat s0 = some s1
          ∧ s1.trace = s0.trace ++ buzzerToneTrace freq.toNat dur.toNat))
    ∧ (main_switch pio sm '1' s = executar_animacao pio sm animacao_1 0 0 s
      ∧ animacao_1.num_frames = 5 ∧ animacao_1.fps = 5
      ∧ ∃ s1 t1, main_switch pio sm '1' s = some s1 ∧ s1.trace = s.trace ++ t1
          ∧ toneCalls t1 = [] ∧ sleepsMs t1 = [200, 200, 200, 200, 200]
          ∧ (sleepsMs t1).sum = 1000) := by
  refine ⟨executar_animacao_events pio sm anim freq dur s hfps hn hfreq hdur,
    ⟨toneCalls_tone _ _, pixelWords_tone _ _, sleepsMs_tone _ _,
      fun h s0 => ⟨_, buzzer_tone_run _ _ s0 (by omega), rfl⟩⟩,
    main_switch_key_1 pio sm s, rfl, rfl, ?_⟩
  obtain ⟨s1, t1, h1, h2, _, h4, h5⟩ :=
    executar_animacao_events pio sm animacao_1 0 0 s (by decide) (by decide) (by decide)
      (by decide)
  have h5' : sleepsMs t1 = [200, 200, 200, 200, 200] := by rw [h5]; rfl
  refine ⟨s1, t1, by rw [main_switch_key_1, h1], h2, ?_, h5', ?_⟩
  · rw [h4]; rfl
  · rw [h5']; rfl

/-- C8, on animacao_countdown with the arguments of key 8 (200 Hz for
500 ms): 6 frames, each with one tone call and a sleep of 1000 ms. -/
theorem executar_animacao_frame_order_witness :
    ∃ s' t, executar_animacao 0 0 animacao_countdown 200 500 Hw.allLow = some s'
      ∧ s'.trace = Hw.allLow.trace ++ t
      ∧ toneCalls t = List.replicate 6 (200, 500)
      ∧ sleepsMs t = List.replicate 6 1000 := by
  obtain ⟨s', t, h1, h2, _, h4, h5⟩ :=
    (executar_animacao_frame_order 0 0 animacao_countdown 200 500 Hw.allLow
      (by decide) (by decide) (by decide) (by decide)).1
  exact ⟨s', t, h1, h2, by rw [h4]; rfl, by rw [h5]; rfl⟩

/-! ## The siren on the shipped table -/

theorem executar_animacao_sirene_run (pio sm : Nat) (s : Hw) :
    executar_animacao_sirene pio sm s
      = some (s.run ((List.range 9).flatMap fun k =>
          pixelPass pio sm (fun i => matrix_rgb
            (fmul (if k % 2 = 0 then 0 else 1) (animacao_7_sirene.frame_at (k % 6) i))
            (fmul (if k % 2 = 0 then 1 else 0) (animacao_7_sirene.frame_at (k % 6) i))
            (fmul 0 (animacao_7_sirene.frame_at (k % 6) i)))
          ++ buzzerToneTrace (if k % 2 = 0 then 1000 else 700) 333
          ++ [Event.sleep_ms 333])) := by
  have h := executar_animacao_sirene_on_run animacao_7_sirene pio sm s
    (by decide) (by decide) (by decide) (by decide)
  have e1 : animacao_7_sirene.num_frames.toNat = 6 := rfl
  have e2 : (3 * animacao_7_sirene.fps).toNat = 9 := rfl
  have e3 : (1000 / animacao_7_sirene.fps).toNat = 333 := rfl
  have e4 : ∀ k : Nat, k % 6 % 2 = k % 2 := fun k => Nat.mod_mod_of_dvd k (by decide)
  simp only [e1, e2, e3] at h
  simp only [e4] at h
  exact h

/-- C9. Running executar_animacao_sirene on the shipped siren animation
(animacao_7_sirene, 6 frames, fps 3) returns after exactly 3 * fps = 9 render
iterations; iteration k (k = 0 .. 8) renders frame k mod 6 of the table in red
(r, g, b) = (1, 0, 0) when k is even and in blue (0, 0, 1) when k is odd, each
channel scaled by the pixel intensity, and is followed by exactly one
buzzer_tone call, of 1000 Hz when k is even and 700 Hz when k is odd, and then
by the sleep of the iteration (buzzerToneTrace is the list of calls
buzzer_tone makes). -/
theorem executar_animacao_sirene_shipped (pio sm : Nat) (s : Hw) :
    animacao_7_sirene.num_frames = 6 ∧ animacao_7_sirene.fps = 3
    ∧ ∃ s' t, executar_animacao_sirene pio sm s = some s' ∧ s'.trace = s.trace ++ t
      ∧ t = (List.range 9).flatMap (fun k =>
          pixelPass pio sm (fun i => matrix_rgb
            (fmul (if k % 2 = 0 then 0 else 1) (animacao_7_sirene.frame_at (k % 6) i))
            (fmul (if k % 2 = 0 then 1 else 0) (animacao_7_sirene.frame_at (k % 6) i))
            (fmul 0 (animacao_7_sirene.frame_at (k % 6) i)))
          ++ buzzerToneTrace (if k % 2 = 0 then 1000 else 700) 333
          ++ [Event.sleep_ms 333])
      ∧ (∀ F D, toneCalls (buzzerToneTrace F D) = [(F, D)]
          ∧ pixelWords (buzzerToneTrace F D) = [] ∧ sleepsMs (buzzerToneTrace F D) = []
          ∧ (0 < F → ∀ s0, ∃ s1, buzzer_tone F D s0 = some s1
              ∧ s1.trace = s0.trace ++ buzzerToneTrace F D))
      ∧ toneCalls t = [(1000, 333), (700, 333), (1000, 333), (700, 333), (1000, 333),
          (700, 333), (1000, 333), (700, 333), (1000, 333)]
      ∧ sleepsMs t = List.replicate 9 333
      ∧ (pixelWords t).length = 9 * 25 := by
  refine ⟨rfl, rfl, _, _, executar_animacao_sirene_run pio sm s, rfl, rfl,
    fun F D => ⟨toneCalls_tone F D, pixelWords_tone F D, sleepsMs_tone F D,
      fun h s0 => ⟨_, buzzer_tone_run F D s0 h, rfl⟩⟩, ?_, ?_, ?_⟩
  · rw [toneCalls_frames]
    simp only [toneCalls_tone]
    rfl
  · exact sleepsMs_frames _ _ _ _ _ _ (fun _ => sleepsMs_tone _ _)
  · rw [pixelWords_frames _ _ _ _ _ _ (fun _ => pixelWords_tone _ _), flatMap_map_length]
    rfl

/-! ## The time a tone sleeps -/

theorem sleepsUs_append (a b : List Event) :
    sleepsUs (a ++ b) = sleepsUs a ++ sleepsUs b := by
  induction a with
  | nil => rfl
  | cons e t ih => cases e <;> simp [sleepsUs, ih]

theorem sleepsUs_cycles_sum (h n : Nat) :
    (sleepsUs (List.replicate n (buzzerCycle h)).flatten).sum = n * 2 * h := by
  induction n with
  | zero => simp [sleepsUs]
  | succ n ih =>
    rw [List.replicate_succ, List.flatten_cons, sleepsUs_append, List.sum_append, ih]
    simp [buzzerCycle, sleepsUs]
    ring

theorem sleepsUs_tone_sum (F D : Nat) :
    (sleepsUs (buzzerToneTrace F D)).sum
      = (F * D % 2 ^ 32 / 1000) * 2 * (1000000 / F / 2) := by
  rw [buzzerToneTrace]
  simp only [sleepsUs]
  exact sleepsUs_cycles_sum _ _

/-- The sleeping time of the cycles never exceeds the requested duration. -/
theorem tone_time_le (F D : Nat) (hF : 0 < F) :
    (F * D / 1000) * 2 * (1000000 / F / 2) ≤ 1000 * D := by
  have h1 : F * D / 1000 * 1000 ≤ F * D := Nat.div_mul_le_self _ _
  have h2 : 1000000 / F * F ≤ 1000000 := Nat.div_mul_le_self _ _
  have h3 : 2 * (1000000 / F / 2) ≤ 1000000 / F := Nat.mul_div_le _ _
  have h4 : (F * D / 1000) * (1000000 / F) * (1000 * F) ≤ 1000 * D * (1000 * F) := by
    calc (F * D / 1000) * (1000000 / F) * (1000 * F)
        = (F * D / 1000 * 1000) * (1000000 / F * F) := by ring
      _ ≤ (F * D) * 1000000 := Nat.mul_le_mul h1 h2
      _ = 1000 * D * (1000 * F) := by ring
  have h5 : (F * D / 1000) * (1000000 / F) ≤ 1000 * D :=
    Nat.le_of_mul_le_mul_right h4 (by omega)
  calc (F * D / 1000) * 2 * (1000000 / F / 2)
      = (F * D / 1000) * (2 * (1000000 / F / 2)) := by ring
    _ ≤ (F * D / 1000) * (1000000 / F) := Nat.mul_le_mul_left _ h3
    _ ≤ 1000 * D := h5

/-- C13. For every frequency F > 0 and duration D in milliseconds with
F*D < 2^32, buzzer_tone(F, D) returns, the total time it spends in sleep_us is
cycles * 2 * half_period_us microseconds with cycles = (F*D) / 1000 and
half_period_us = (1000000 / F) / 2, it makes no other sleep, and that total
never exceeds the requested duration of 1000 * D microseconds. -/
theorem buzzer_tone_sleep_time (F D : Nat) (s : Hw) (hF : 0 < F) (hFD : F * D < 2 ^ 32) :
    ∃ s' t, buzzer_tone F D s = some s' ∧ s'.trace = s.trace ++ t
      ∧ (sleepsUs t).sum = (F * D / 1000) * 2 * (1000000 / F / 2)
      ∧ sleepsMs t = []
      ∧ (sleepsUs t).sum ≤ 1000 * D := by
  have hsum : (sleepsUs (buzzerToneTrace F D)).sum = (F * D / 1000) * 2 * (1000000 / F / 2) := by
    rw [sleepsUs_tone_sum, Nat.mod_eq_of_lt hFD]
  refine ⟨_, _, buzzer_tone_run F D s hF, rfl, hsum, sleepsMs_tone F D, ?_⟩
  rw [hsum]
  exact tone_time_le F D hF

/-- C13, at the tone of key 3: 440 Hz for 100 ms sleeps 44 * 2 * 1136 =
99968 microseconds, within the 100000 requested. -/
theorem buzzer_tone_sleep_time_witness :
    ∃ s' t, buzzer_tone 440 100 Hw.allLow = some s' ∧ s'.trace = Hw.allLow.trace ++ t
      ∧ (sleepsUs t).sum = (440 * 100 / 1000) * 2 * (1000000 / 440 / 2)
      ∧ sleepsMs t = []
      ∧ (sleepsUs t).sum ≤ 1000 * 100 :=
  buzzer_tone_sleep_time 440 100 Hw.allLow (by decide) (by decide)

/-! ## Colour and tone of the siren iterations -/

theorem flatMap_range_single_eq_map {α : Type} (n : Nat) (g : Nat → α) :
    (List.range n).flatMap (fun k => [g k]) = (List.range n).map g := by
  induction n with
  | zero => rfl
  | succ n ih => rw [List.range_succ, List.flatMap_append, List.map_append, ih]; simp

theorem sirene_on_tones (pio sm n d : Nat) (word : Nat → Nat → Nat) (F : Nat → Nat) (D k : Nat)
    (hk : k < n) :
    (toneCalls ((List.range n).flatMap fun k =>
        pixelPass pio sm (word k) ++ buzzerToneTrace (F k) D ++ [Event.sleep_ms d]))[k]?
      = some (F k, D) := by
  rw [toneCalls_frames]
  simp only [toneCalls_tone]
  rw [flatMap_range_single_eq_map, List.getElem?_map, List.getElem?_range hk]
  rfl

theorem sirene_on_words (pio sm n d : Nat) (word : Nat → Nat → Nat) (F : Nat → Nat) (D k i : Nat)
    (hk : k < n) (hi : i < 25) :
    (pixelWords ((List.range n).flatMap fun k =>
        pixelPass pio sm (word k) ++ buzzerToneTrace (F k) D ++ [Event.sleep_ms d]))[k * 25 + i]?
      = some (word k i) := by
  rw [pixelWords_frames _ _ _ _ _ _ (fun _ => pixelWords_tone _ _)]
  exact flatMap_map_getElem? _ 25 _ k i hk hi

theorem parity_of_frame (k nf : Nat) (h : nf % 2 = 0 ∨ k < nf) : k % nf % 2 = k % 2 := by
  rcases h with h | h
  · exact Nat.mod_mod_of_dvd k (Nat.dvd_of_mod_eq_zero h)
  · rw [Nat.mod_eq_of_lt h]

/-- C11 (as amended). In the loop of executar_animacao_sirene, for every table
length num_frames from 1 to 25 and every iteration index k below the repeat
count 3 * fps, the rendered colour and the tone frequency of iteration k are
determined by the parity of the frame index k mod num_frames (red and 1000 Hz
when it is even, blue and 700 Hz when it is odd). That is the parity of k
itself whenever num_frames is even or k < num_frames, so the pattern
alternates with k for every even table length. -/
theorem sirene_colour_by_frame_parity (anim : Animacao) (pio sm : Nat) (s : Hw)
    (hfps : 0 < anim.fps) (hmax : 3 * anim.fps ≤ INT_MAX)
    (hn1 : 1 ≤ anim.num_frames) (hn : anim.num_frames ≤ 25) :
    ∃ s' t, executar_animacao_sirene_on anim pio sm s = some s' ∧ s'.trace = s.trace ++ t
      ∧ ∀ k : Nat, (k : Int) < 3 * anim.fps →
        (toneCalls t)[k]? =
            some (if k % anim.num_frames.toNat % 2 = 0 then 1000 else 700,
              (1000 / anim.fps).toNat)
        ∧ (∀ i : Nat, i < 25 →
            (pixelWords t)[k * 25 + i]? =
              some (matrix_rgb
                (fmul (if k % anim.num_frames.toNat % 2 = 0 then 0 else 1) (anim.frame_at (k % anim.num_frames.toNat) i))
                (fmul (if k % anim.num_frames.toNat % 2 = 0 then 1 else 0) (anim.frame_at (k % anim.num_frames.toNat) i))
                (fmul 0 (anim.frame_at (k % anim.num_frames.toNat) i))))
        ∧ (anim.num_frames.toNat % 2 = 0 ∨ k < anim.num_frames.toNat →
            k % anim.num_frames.toNat % 2 = k % 2) := by
  refine ⟨_, _, executar_animacao_sirene_on_run anim pio sm s hfps hmax hn1 hn, rfl, ?_⟩
  intro k hk
  have hk' : k < (3 * anim.fps).toNat := by omega
  exact ⟨sirene_on_tones _ _ _ _ _ _ _ k hk',
    fun i hi => sirene_on_words _ _ _ _ _ _ _ k i hk' hi,
    parity_of_frame k _⟩

theorem sirene_3_frames_intensity : sirene_3_frames.frame_at 0 0 = 1 := by
  have h : sirene_3_frames.frame_at 0 0 = roundDouble 1.0 := by
    simp [sirene_3_frames, animacao_7_sirene, Animacao.frame_at, doubleTable]
  rw [h, show (1.0 : ℚ) = 1 by norm_num, roundDouble_one]

/-- C11 fails as stated for the table length num_frames = 3 (fps 3, so 9
iterations) at iteration k = 3: k is odd, but the frame index is 3 mod 3 = 0,
so the iteration is rendered in red and followed by a tone of 1000 Hz, where
the parity of k would give blue and 700 Hz. -/
theorem sirene_colour_by_frame_parity_counterexample :
    sirene_3_frames.num_frames = 3 ∧ sirene_3_frames.fps = 3
    ∧ ∃ s' t, executar_animacao_sirene_on sirene_3_frames 0 0 Hw.allLow = some s'
      ∧ s'.trace = Hw.allLow.trace ++ t
      ∧ (toneCalls t)[3]? = some (1000, 333)
      ∧ (toneCalls t)[3]? ≠ some (700, 333)
      ∧ (pixelWords t)[3 * 25 + 0]? = some (matrix_rgb 0 1 0)
      ∧ (pixelWords t)[3 * 25 + 0]? ≠ some (matrix_rgb 1 0 0)
      ∧ matrix_rgb 0 1 0 = 16711680 ∧ matrix_rgb 1 0 0 = 65280 := by
  have hrun := executar_animacao_sirene_on_run sirene_3_frames 0 0 Hw.allLow
    (by decide) (by decide) (by decide) (by decide)
  have htone := sirene_on_tones 0 0 (3 * sirene_3_frames.fps).toNat
    (1000 / sirene_3_frames.fps).toNat
    (fun k i => matrix_rgb
      (fmul (if k % sirene_3_frames.num_frames.toNat % 2 = 0 then 0 else 1) (sirene_3_frames.frame_at (k % sirene_3_frames.num_frames.toNat) i))
      (fmul (if k % sirene_3_frames.num_frames.toNat % 2 = 0 then 1 else 0) (sirene_3_frames.frame_at (k % sirene_3_frames.num_frames.toNat) i))
      (fmul 0 (sirene_3_frames.frame_at (k % sirene_3_frames.num_frames.toNat) i)))
    (fun k => if k % sirene_3_frames.num_frames.toNat % 2 = 0 then 1000 else 700)
    (1000 / sirene_3_frames.fps).toNat 3 (by decide)
  have hword := sirene_on_words 0 0 (3 * sirene_3_frames.fps).toNat
    (1000 / sirene_3_frames.fps).toNat
    (fun k i => matrix_rgb
      (fmul (if k % sirene_3_frames.num_frames.toNat % 2 = 0 then 0 else 1) (sirene_3_frames.frame_at (k % sirene_3_frames.num_frames.toNat) i))
      (fmul (if k % sirene_3_frames.num_frames.toNat % 2 = 0 then 1 else 0) (sirene_3_frames.frame_at (k % sirene_3_frames.num_frames.toNat) i))
      (fmul 0 (sirene_3_frames.frame_at (k % sirene_3_frames.num_frames.toNat) i)))
    (fun k => if k % sirene_3_frames.num_frames.toNat % 2 = 0 then 1000 else 700)
    (1000 / sirene_3_frames.fps).toNat 3 0 (by decide) (by decide)
  have hw : (fun k i => matrix_rgb
      (fmul (if k % sirene_3_frames.num_frames.toNat % 2 = 0 then 0 else 1) (sirene_3_frames.frame_at (k % sirene_3_frames.num_frames.toNat) i))
      (fmul (if k % sirene_3_frames.num_frames.toNat % 2 = 0 then 1 else 0) (sirene_3_frames.frame_at (k % sirene_3_frames.num_frames.toNat) i))
      (fmul 0 (sirene_3_frames.frame_at (k % sirene_3_frames.num_frames.toNat) i))) 3 0
      = matrix_rgb 0 1 0 := by
    have e : 3 % sirene_3_frames.num_frames.toNat = 0 := rfl
    simp only [e, sirene_3_frames_intensity]
    simp [fmul_zero_left, fmul_one_one]
  rw [hw] at hword
  have ht : (fun k => if k % sirene_3_frames.num_frames.toNat % 2 = 0 then 1000 else 700) 3
      = 1000 := rfl
  have hd : (1000 / sirene_3_frames.fps).toNat = 333 := rfl
  rw [ht] at htone
  refine ⟨rfl, rfl, _, _, hrun, rfl, ?_, ?_, hword, ?_, matrix_rgb_red, matrix_rgb_blue⟩
  · rw [htone, hd]
  · rw [htone, hd]; decide
  · rw [hword, matrix_rgb_red, matrix_rgb_blue]; decide

/-- C11 (as amended), on the shipped siren table (6 frames, fps 3) at
iteration k = 7: the frame index is 1, the tone is 700 Hz, and the parity of
the frame index is the parity of k because 6 is even. -/
theorem sirene_colour_by_frame_parity_witness :
    ∃ s' t, executar_animacao_sirene_on animacao_7_sirene 0 0 Hw.allLow = some s'
      ∧ s'.trace = Hw.allLow.trace ++ t
      ∧ (toneCalls t)[7]? =
          some (if 7 % animacao_7_sirene.num_frames.toNat % 2 = 0 then 1000 else 700,
            (1000 / animacao_7_sirene.fps).toNat)
      ∧ 7 % animacao_7_sirene.num_frames.toNat % 2 = 7 % 2 := by
  obtain ⟨s', t, h1, h2, h3⟩ :=
    sirene_colour_by_frame_parity animacao_7_sirene 0 0 Hw.allLow
      (by decide) (by decide) (by decide) (by decide)
  obtain ⟨h4, _, h6⟩ := h3 7 (by decide)
  exact ⟨s', t, h1, h2, h4, h6 (Or.inl rfl)⟩

/-! ## The row lines during a keypad scan -/

theorem readSnapshots_append (a b : List Event) (pins : Nat → Bool) :
    readSnapshots pins (a ++ b)
      = readSnapshots pins a ++ readSnapshots (a.foldl (fun p e => e.drive p) pins) b := by
  induction a generalizing pins with
  | nil => rfl
  | cons e t ih => cases e <;> simp [readSnapshots, ih, Event.drive]

theorem readSnapshots_gets (l : List Nat) (p : Nat → Nat) (v : Nat → Bool) (pins : Nat → Bool) :
    readSnapshots pins (l.map fun c => Event.gpio_get (p c) (v c))
      = l.map fun c => (p c, rowLevels pins) := by
  induction l with
  | nil => rfl
  | cons a t ih => simp [readSnapshots, ih]

theorem drive_gets (l : List Nat) (p : Nat → Nat) (v : Nat → Bool) (pins : Nat → Bool) :
    (l.map fun c => Event.gpio_get (p c) (v c)).foldl (fun q e => e.drive q) pins = pins := by
  induction l with
  | nil => rfl
  | cons a t ih => simpa [Event.drive] using ih

/-- The calls of the column loop of detect_key on row i: either it returns at
the first low column, after the settle delay and with the row driven high
again, or it reads every remaining column high. -/
theorem detect_key_cols_run (reads : Nat → Nat → Bool) (i n : Nat) :
    ∀ (j : Nat) (s : Hw),
      (∃ b, b < n ∧ detect_key_cols reads i j n s
        = (some (keys_at i (j + b)),
            s.run ((List.range' j (b + 1)).map
                (fun c => Event.gpio_get (cols.getD c 0) (reads i c))
              ++ [Event.sleep_ms 200, Event.gpio_put (rows.getD i 0) true])))
      ∨ detect_key_cols reads i j n s
        = (none, s.run ((List.range' j n).map
            fun c => Event.gpio_get (cols.getD c 0) (reads i c))) := by
  induction n with
  | zero => intro j s; right; simp [detect_key_cols, Hw.run_nil]
  | succ n ih =>
    intro j s
    rw [detect_key_cols]
    cases h : reads i j
    · left
      refine ⟨0, by omega, ?_⟩
      simp only [if_true, gpio_get_eq_run, sleep_ms_eq_run, gpio_put_eq_run, Hw.run_run,
        List.range'_succ, List.range'_zero, List.map_cons, List.map_nil, h, Nat.add_zero,
        List.append_assoc, List.singleton_append, List.cons_append, List.nil_append]
    · rcases ih (j + 1) (gpio_get (cols.getD j 0) true s) with ⟨b, hb, hres⟩ | hres
      · left
        refine ⟨b + 1, by omega, ?_⟩
        simp only [Bool.true_eq_false, if_false]
        rw [hres, gpio_get_eq_run, Hw.run_run, List.range'_succ j (b + 1), List.map_cons, h,
          show j + 1 + b = j + (b + 1) by omega]
        rfl
      · right
        simp only [Bool.true_eq_false, if_false]
        rw [hres, gpio_get_eq_run, Hw.run_run, List.range'_succ j n, List.map_cons, h]
        rfl

theorem rowLevels_put_low (i : Nat) (hi : i < 4) (pins : Nat → Bool)
    (h : rowLevels pins = [true, true, true, true]) :
    rowLevels ((Event.gpio_put (rows.getD i 0) false).drive pins)
      = (List.range 4).map fun k => decide (k ≠ i) := by
  simp only [rowLevels, rows, ROW1, ROW2, ROW3, ROW4, List.map_cons, List.map_nil,
    List.cons.injEq, and_true] at h
  obtain ⟨h1, h2, h3, h4⟩ := h
  interval_cases i <;>
    simp [rowLevels, rows, ROW1, ROW2, ROW3, ROW4, Event.drive, h1, h2, h3, h4, List.range,
      List.range.loop]

theorem rowLevels_put_high (i : Nat) (hi : i < 4) (pins : Nat → Bool)
    (h : rowLevels pins = (List.range 4).map fun k => decide (k ≠ i)) :
    rowLevels ((Event.gpio_put (rows.getD i 0) true).drive pins) = [true, true, true, true] := by
  interval_cases i <;>
    (simp only [rowLevels, rows, ROW1, ROW2, ROW3, ROW4, List.map_cons, List.map_nil,
      List.range, List.range.loop, List.cons.injEq, and_true] at h
     obtain ⟨h1, h2, h3, h4⟩ := h
     simp at h1 h2 h3 h4
     simp [rowLevels, rows, ROW1, ROW2, ROW3, ROW4, Event.drive, h1, h2, h3, h4])

/-- One row pulse that ends at the low column b: the reads see only row i low,
and the row is high again afterwards. -/
theorem row_pulse_found (i b : Nat) (hi : i < 4) (hb : b < 4) (pins : Nat → Bool)
    (v : Nat → Bool) (hs : rowLevels pins = [true, true, true, true]) :
    readSnapshots pins ([Event.gpio_put (rows.getD i 0) false]
        ++ ((List.range' 0 (b + 1)).map (fun c => Event.gpio_get (cols.getD c 0) (v c))
          ++ [Event.sleep_ms 200, Event.gpio_put (rows.getD i 0) true]))
      = ((List.range 4).map fun j =>
          (cols.getD j 0, (List.range 4).map fun k => decide (k ≠ i))).take (b + 1)
    ∧ rowLevels (([Event.gpio_put (rows.getD i 0) false]
        ++ ((List.range' 0 (b + 1)).map (fun c => Event.gpio_get (cols.getD c 0) (v c))
          ++ [Event.sleep_ms 200, Event.gpio_put (rows.getD i 0) true])).foldl
            (fun p e => e.drive p) pins)
      = [true, true, true, true] := by
  have hlow := rowLevels_put_low i hi pins hs
  constructor
  · rw [readSnapshots_append, readSnapshots_append, readSnapshots_gets]
    simp only [readSnapshots, List.foldl_cons, List.foldl_nil, List.nil_append,
      List.append_nil, hlow]
    interval_cases b <;> rfl
  · rw [List.foldl_append, List.foldl_append, drive_gets]
    simp only [List.foldl_cons, List.foldl_nil]
    exact rowLevels_put_high i hi _ hlow

/-- One row pulse in which every column reads high: the four reads see only
row i low, and the row is high again afterwards. -/
theorem row_pulse_none (i : Nat) (hi : i < 4) (pins : Nat → Bool)
    (v : Nat → Bool) (hs : rowLevels pins = [true, true, true, true]) :
    readSnapshots pins ([Event.gpio_put (rows.getD i 0) false]
        ++ ((List.range' 0 4).map (fun c => Event.gpio_get (cols.getD c 0) (v c))
          ++ [Event.gpio_put (rows.getD i 0) true]))
      = ((List.range 4).map fun j =>
          (cols.getD j 0, (List.range 4).map fun k => decide (k ≠ i)))
    ∧ rowLevels (([Event.gpio_put (rows.getD i 0) false]
        ++ ((List.range' 0 4).map (fun c => Event.gpio_get (cols.getD c 0) (v c))
          ++ [Event.gpio_put (rows.getD i 0) true])).foldl (fun p e => e.drive p) pins)
      = [true, true, true, true] := by
  have hlow := rowLevels_put_low i hi pins hs
  constructor
  · rw [readSnapshots_append, readSnapshots_append, readSnapshots_gets]
    simp only [readSnapshots, List.foldl_cons, List.foldl_nil, List.nil_append,
      List.append_nil, hlow]
    rfl
  · rw [List.foldl_append, List.foldl_append, drive_gets]
    simp only [List.foldl_cons, List.foldl_nil]
    exact rowLevels_put_high i hi _ hlow

theorem take_length_append {α : Type} (l₁ l₂ : List α) (k m : Nat) (h : l₁.length = k) :
    (l₁ ++ l₂).take (k + m) = l₁ ++ l₂.take m := by
  subst h
  exact List.take_append m

/-- The scan of the rows i, i + 1, ..., 3 from a state with the four rows
high: the reads are an initial part of the scan of those rows, each read sees
only its own row low, and the four rows are high on return. -/
theorem detect_key_rows_scan (reads : Nat → Nat → Bool) (n : Nat) :
    ∀ (i : Nat) (s : Hw), i + n = 4 → rowLevels s.pins = [true, true, true, true] →
      ∃ t m, (detect_key_rows reads i n s).2 = s.run t
        ∧ readSnapshots s.pins t
            = ((List.range' i n).flatMap fun r => (List.range 4).map fun j =>
                (cols.getD j 0, (List.range 4).map fun k => decide (k ≠ r))).take m
        ∧ m ≤ 4 * n ∧ (1 ≤ n → 1 ≤ m)
        ∧ rowLevels (s.run t).pins = [true, true, true, true]
        ∧ ((detect_key_rows reads i n s).1 = NUL → m = 4 * n) := by
  induction n with
  | zero =>
    intro i s _ hs
    exact ⟨[], 0, by simp [detect_key_rows, Hw.run_nil], by simp [readSnapshots],
      by omega, by omega, by rw [Hw.run_nil]; exact hs, fun _ => rfl⟩
  | succ n ih =>
    intro i s hin hs
    have hi : i < 4 := by omega
    rw [detect_key_rows]
    rcases detect_key_cols_run reads i 4 0 (gpio_put (rows.getD i 0) false s)
      with ⟨b, hb, hres⟩ | hres
    · obtain ⟨hsnap, hpins⟩ := row_pulse_found i b hi hb s.pins (reads i) hs
      simp only [hres]
      refine ⟨[Event.gpio_put (rows.getD i 0) false]
          ++ ((List.range' 0 (b + 1)).map (fun c => Event.gpio_get (cols.getD c 0) (reads i c))
            ++ [Event.sleep_ms 200, Event.gpio_put (rows.getD i 0) true]),
        b + 1, ?_, ?_, by omega, fun _ => by omega, hpins, ?_⟩
      · rw [gpio_put_eq_run, Hw.run_run]
      · rw [hsnap, List.range'_succ i n, List.flatMap_cons,
          List.take_append_of_le_length (by simp; omega)]
      · intro hk
        exact absurd hk (keys_at_ne_nul i (0 + b) hi (by omega))
    · obtain ⟨hsnap, hpins⟩ := row_pulse_none i hi s.pins (reads i) hs
      simp only [hres]
      have hstate : gpio_put (rows.getD i 0) true
          ((gpio_put (rows.getD i 0) false s).run
            ((List.range' 0 4).map fun c => Event.gpio_get (cols.getD c 0) (reads i c)))
          = s.run ([Event.gpio_put (rows.getD i 0) false]
            ++ ((List.range' 0 4).map (fun c => Event.gpio_get (cols.getD c 0) (reads i c))
              ++ [Event.gpio_put (rows.getD i 0) true])) := by
        rw [gpio_put_eq_run, gpio_put_eq_run, Hw.run_run, Hw.run_run]
      rw [hstate]
      obtain ⟨t', m', h1, h2, h3, h4, h5, h6⟩ := ih (i + 1)
        (s.run ([Event.gpio_put (rows.getD i 0) false]
          ++ ((List.range' 0 4).map (fun c => Event.gpio_get (cols.getD c 0) (reads i c))
            ++ [Event.gpio_put (rows.getD i 0) true]))) (by omega) hpins
      refine ⟨([Event.gpio_put (rows.getD i 0) false]
          ++ ((List.range' 0 4).map (fun c => Event.gpio_get (cols.getD c 0) (reads i c))
            ++ [Event.gpio_put (rows.getD i 0) true])) ++ t',
        4 + m', ?_, ?_, by omega, fun _ => by omega, ?_, ?_⟩
      · rw [h1, Hw.run_run]
      · rw [readSnapshots_append, hsnap, List.range'_succ i n, List.flatMap_cons]
        rw [take_length_append _ _ 4 m' (by simp)]
        congr 1
      · rw [← Hw.run_run]; exact h5
      · intro hk
        rw [h6 hk]
        omega

theorem fullScan_eq :
    fullScan =
      [(5, [false, true, true, true]), (4, [false, true, true, true]),
       (3, [false, true, true, true]), (2, [false, true, true, true]),
       (5, [true, false, true, true]), (4, [true, false, true, true]),
       (3, [true, false, true, true]), (2, [true, false, true, true]),
       (5, [true, true, false, true]), (4, [true, true, false, true]),
       (3, [true, true, false, true]), (2, [true, true, false, true]),
       (5, [true, true, true, false]), (4, [true, true, true, false]),
       (3, [true, true, true, false]), (2, [true, true, true, false])] := by
  decide

/-- C12. If all four keypad row lines are high when detect_key is called, then
the column reads it makes are the first m steps of the scan order (1 to 16 of
them, all 16 when no key is returned), at every one of them exactly one row
line is low, the row being scanned, and the other three are high, and all four
row lines are high again when detect_key returns, whether it returns a key or
NUL. -/
theorem detect_key_row_lines (reads : Nat → Nat → Bool) (s : Hw)
    (h : rowLevels s.pins = [true, true, true, true]) :
    ∃ t m, (detect_key reads s).2 = s.run t
      ∧ (detect_key reads s).2.trace = s.trace ++ t
      ∧ readSnapshots s.pins t = fullScan.take m
      ∧ 1 ≤ m ∧ m ≤ 16
      ∧ ((detect_key reads s).1 = NUL → m = 16)
      ∧ rowLevels (detect_key reads s).2.pins = [true, true, true, true]
      ∧ fullScan =
          [(5, [false, true, true, true]), (4, [false, true, true, true]),
           (3, [false, true, true, true]), (2, [false, true, true, true]),
           (5, [true, false, true, true]), (4, [true, false, true, true]),
           (3, [true, false, true, true]), (2, [true, false, true, true]),
           (5, [true, true, false, true]), (4, [true, true, false, true]),
           (3, [true, true, false, true]), (2, [true, true, false, true]),
           (5, [true, true, true, false]), (4, [true, true, true, false]),
           (3, [true, true, true, false]), (2, [true, true, true, false])] := by
  obtain ⟨t, m, h1, h2, h3, h4, h5, h6⟩ := detect_key_rows_scan reads 4 0 s rfl h
  refine ⟨t, m, h1, ?_, h2, h4 (by omega), h3, h6, ?_, fullScan_eq⟩
  · rw [show detect_key reads s = detect_key_rows reads 0 4 s from rfl, h1]; rfl
  · rw [show detect_key reads s = detect_key_rows reads 0 4 s from rfl, h1]; exact h5

/-- C12, on rows that are high at the call, with the key 8 held down (the
path that returns a key: 10 reads) and with no key down (the path that returns
NUL: 16 reads). -/
theorem detect_key_row_lines_witness :
    (∃ t m, (detect_key (fun i j => !(i == 2 && j == 1)) Hw.allHigh).2 = Hw.allHigh.run t
      ∧ readSnapshots Hw.allHigh.pins t = fullScan.take m
      ∧ rowLevels (detect_key (fun i j => !(i == 2 && j == 1)) Hw.allHigh).2.pins
          = [true, true, true, true]
      ∧ (detect_key (fun i j => !(i == 2 && j == 1)) Hw.allHigh).1 = '8')
    ∧ (∃ t m, (detect_key (fun _ _ => true) Hw.allHigh).2 = Hw.allHigh.run t
      ∧ readSnapshots Hw.allHigh.pins t = fullScan.take m
      ∧ rowLevels (detect_key (fun _ _ => true) Hw.allHigh).2.pins = [true, true, true, true]
      ∧ (detect_key (fun _ _ => true) Hw.allHigh).1 = NUL) := by
  constructor
  · obtain ⟨t, m, h1, _, h3, _, _, _, h7, _⟩ :=
      detect_key_row_lines (fun i j => !(i == 2 && j == 1)) Hw.allHigh rfl
    exact ⟨t, m, h1, h3, h7, by rw [detect_key_cascade]; rfl⟩
  · obtain ⟨t, m, h1, _, h3, _, _, _, h7, _⟩ :=
      detect_key_row_lines (fun _ _ => true) Hw.allHigh rfl
    exact ⟨t, m, h1, h3, h7, by rw [detect_key_cascade]; rfl⟩

/-! ## The buzzer pin between tones -/

theorem buzzerEntryLevels_append (a b : List Event) (pins : Nat → Bool) :
    buzzerEntryLevels pins (a ++ b)
      = buzzerEntryLevels pins a
        ++ buzzerEntryLevels (a.foldl (fun p e => e.drive p) pins) b := by
  induction a generalizing pins with
  | nil => rfl
  | cons e t ih => cases e <;> simp [buzzerEntryLevels, ih, Event.drive]

theorem restsLow_nil : BuzzerRestsLow [] := by
  intro pins h
  exact ⟨by simp [buzzerEntryLevels], h⟩

theorem restsLow_append (a b : List Event) (ha : BuzzerRestsLow a) (hb : BuzzerRestsLow b) :
    BuzzerRestsLow (a ++ b) := by
  intro pins h
  obtain ⟨ha1, ha2⟩ := ha pins h
  obtain ⟨hb1, hb2⟩ := hb _ ha2
  refine ⟨?_, by rw [List.foldl_append]; exact hb2⟩
  intro l hl
  rw [buzzerEntryLevels_append, List.mem_append] at hl
  rcases hl with hl | hl
  · exact ha1 l hl
  · exact hb1 l hl

theorem restsLow_flatMap (l : List Nat) (ev : Nat → List Event)
    (h : ∀ k, BuzzerRestsLow (ev k)) : BuzzerRestsLow (l.flatMap ev) := by
  induction l with
  | nil => exact restsLow_nil
  | cons a t ih =>
    rw [List.flatMap_cons]
    exact restsLow_append _ _ (h a) ih

/-- A trace without a gpio_put on the buzzer pin leaves a low buzzer pin
low. -/
theorem restsLow_of_no_put (t : List Event)
    (h : ∀ e ∈ t, ∀ value, e ≠ Event.gpio_put BUZZER_PIN value) : BuzzerRestsLow t := by
  induction t with
  | nil => exact restsLow_nil
  | cons e t ih =>
    have hone : BuzzerRestsLow [e] := by
      intro pins hp
      have he := h e (List.mem_cons_self e t)
      cases e with
      | gpio_put pin value =>
        have hne : BUZZER_PIN ≠ pin := by
          intro hpin
          exact he value (by rw [hpin])
        simp [buzzerEntryLevels, Event.drive, hne, hp]
      | call_buzzer_tone F D => simp [buzzerEntryLevels, Event.drive, hp]
      | _ => simp [buzzerEntryLevels, Event.drive, hp]
    exact restsLow_append [e] t hone (ih fun e he => h e (List.mem_cons_of_mem _ he))

theorem buzzerEntryLevels_cycles (h n : Nat) (pins : Nat → Bool) :
    buzzerEntryLevels pins (List.replicate n (buzzerCycle h)).flatten = [] := by
  induction n generalizing pins with
  | zero => rfl
  | succ n ih =>
    rw [List.replicate_succ, List.flatten_cons, buzzerEntryLevels_append, ih]
    simp [buzzerCycle, buzzerEntryLevels]

/-- A tone entered with the buzzer pin low leaves it low. -/
theorem restsLow_tone (F D : Nat) : BuzzerRestsLow (buzzerToneTrace F D) := by
  intro pins hp
  constructor
  · intro l hl
    rw [buzzerToneTrace, buzzerEntryLevels, buzzerEntryLevels_cycles] at hl
    simpa [hp] using hl
  · have key := buzzer_tone_pins F D { pins := pins, trace := [] }
    have hrun : ((buzzerToneTrace F D).foldl (fun p e => e.drive p) pins) BUZZER_PIN
        = ((Hw.mk pins []).run (buzzerToneTrace F D)).pins BUZZER_PIN := rfl
    rw [hrun, key]
    split
    · exact hp
    · rfl

theorem restsLow_tone_if (c : Prop) [Decidable c] (F D : Nat) :
    BuzzerRestsLow (if c then buzzerToneTrace F D else []) := by
  split
  · exact restsLow_tone F D
  · exact restsLow_nil

theorem restsLow_pass (pio sm : Nat) (w : Nat → Nat) : BuzzerRestsLow (pixelPass pio sm w) := by
  apply restsLow_of_no_put
  intro e he value
  simp only [pixelPass, List.mem_map] at he
  obtain ⟨i, _, rfl⟩ := he
  simp

/-- A trace of rendered frames, each one pass followed by calls that leave the
buzzer pin low and by a sleep, leaves the buzzer pin low. -/
theorem restsLow_frames (pio sm n d : Nat) (word : Nat → Nat → Nat) (tone : Nat → List Event)
    (h : ∀ k, BuzzerRestsLow (tone k)) :
    BuzzerRestsLow ((List.range n).flatMap fun k =>
      pixelPass pio sm (word k) ++ tone k ++ [Event.sleep_ms d]) := by
  apply restsLow_flatMap
  intro k
  exact restsLow_append _ _ (restsLow_append _ _ (restsLow_pass _ _ _) (h k))
    (restsLow_of_no_put _ (by simp))

theorem rows_ne_buzzer (i : Nat) : rows.getD i 0 ≠ BUZZER_PIN := by
  rcases i with _ | _ | _ | _ | _ | i <;> simp [rows, ROW1, ROW2, ROW3, ROW4, BUZZER_PIN]

theorem detect_key_cols_restsLow (reads : Nat → Nat → Bool) (i n : Nat) :
    ∀ (j : Nat) (s : Hw), ∃ t, (detect_key_cols reads i j n s).2 = s.run t
      ∧ ∀ e ∈ t, ∀ value, e ≠ Event.gpio_put BUZZER_PIN value := by
  induction n with
  | zero =>
    intro j s
    exact ⟨[], by simp [detect_key_cols, Hw.run_nil], by simp⟩
  | succ n ih =>
    intro j s
    obtain ⟨t, ht, hq⟩ := ih (j + 1) (gpio_get (cols.getD j 0) (reads i j) s)
    rw [detect_key_cols]
    by_cases hr : reads i j = false
    · refine ⟨[Event.gpio_get (cols.getD j 0) (reads i j), Event.sleep_ms 200,
        Event.gpio_put (rows.getD i 0) true], ?_, ?_⟩
      · rw [if_pos hr]
        simp only [gpio_get_eq_run, sleep_ms_eq_run, gpio_put_eq_run, Hw.run_run]
        rfl
      · intro e he value
        simp only [List.mem_cons, List.mem_singleton, List.not_mem_nil, or_false] at he
        rcases he with rfl | rfl | rfl
        · simp
        · simp
        · intro heq
          injection heq with h1 _
          exact rows_ne_buzzer i h1
    · refine ⟨Event.gpio_get (cols.getD j 0) (reads i j) :: t, ?_, ?_⟩
      · rw [if_neg hr]
        show (detect_key_cols reads i (j + 1) n (gpio_get (cols.getD j 0) (reads i j) s)).2 = _
        rw [ht, gpio_get_eq_run, Hw.run_run]
        rfl
      · intro e he value
        rw [List.mem_cons] at he
        rcases he with rfl | he
        · simp
        · exact hq e he value

theorem detect_key_rows_restsLow (reads : Nat → Nat → Bool) (n : Nat) :
    ∀ (i : Nat) (s : Hw), ∃ t, (detect_key_rows reads i n s).2 = s.run t
      ∧ ∀ e ∈ t, ∀ value, e ≠ Event.gpio_put BUZZER_PIN value := by
  induction n with
  | zero =>
    intro i s
    exact ⟨[], by simp [detect_key_rows, Hw.run_nil], by simp⟩
  | succ n ih =>
    intro i s
    have hput : ∀ level value,
        Event.gpio_put (rows.getD i 0) level ≠ Event.gpio_put BUZZER_PIN value := by
      intro level value heq
      injection heq with h1 _
      exact rows_ne_buzzer i h1
    obtain ⟨t1, ht1, hq1⟩ := detect_key_cols_restsLow reads i 4 0 (gpio_put (rows.getD i 0) false s)
    rw [detect_key_rows]
    rcases hres : detect_key_cols reads i 0 4 (gpio_put (rows.getD i 0) false s) with ⟨k, s2⟩
    rw [hres] at ht1
    simp only at ht1
    subst ht1
    cases k with
    | some key =>
      refine ⟨Event.gpio_put (rows.getD i 0) false :: t1, ?_, ?_⟩
      · simp only
        rw [gpio_put_eq_run, Hw.run_run]
        rfl
      · intro e he value
        rw [List.mem_cons] at he
        rcases he with rfl | he
        · exact hput _ _
        · exact hq1 e he value
    | none =>
      obtain ⟨t2, ht2, hq2⟩ := ih (i + 1) (gpio_put (rows.getD i 0) true
        ((gpio_put (rows.getD i 0) false s).run t1))
      refine ⟨Event.gpio_put (rows.getD i 0) false :: t1
          ++ Event.gpio_put (rows.getD i 0) true :: t2, ?_, ?_⟩
      · simp only
        rw [ht2, gpio_put_eq_run, gpio_put_eq_run, Hw.run_run, Hw.run_run, Hw.run_run]
        rfl
      · intro e he value
        rw [List.mem_append, List.mem_cons, List.mem_cons] at he
        rcases he with (rfl | he) | rfl | he
        · exact hput _ _
        · exact hq1 e he value
        · exact hput _ _
        · exact hq2 e he value

/-- The keypad scan makes no gpio_put on the buzzer pin. -/
theorem detect_key_restsLow (reads : Nat → Nat → Bool) (s : Hw) :
    ∃ t, (detect_key reads s).2 = s.run t ∧ BuzzerRestsLow t := by
  obtain ⟨t, ht, hq⟩ := detect_key_rows_restsLow reads 4 0 s
  exact ⟨t, ht, restsLow_of_no_put t hq⟩

theorem desenho_pio_restsLow (pio sm : Nat) (b r g : ℚ) (s : Hw) :
    ∃ t, desenho_pio pio sm b r g s = some (s.run t) ∧ BuzzerRestsLow t :=
  ⟨_, pixel_pass_run pio sm (fun _ => matrix_rgb b r g) s, restsLow_pass _ _ _⟩

theorem executar_animacao_restsLow (pio sm : Nat) (anim : Animacao) (freq dur : Int) (s : Hw)
    (hfps : 0 < anim.fps) (hn : anim.num_frames ≤ 25) (hfreq : freq ≤ INT_MAX) :
    ∃ t, executar_animacao pio sm anim freq dur s = some (s.run t) ∧ BuzzerRestsLow t :=
  ⟨_, executar_animacao_run pio sm anim freq dur s hfps hn hfreq,
    restsLow_frames _ _ _ _ _ _ fun _ => restsLow_tone_if _ _ _⟩

theorem executar_animacao_multicolor_restsLow (pio sm : Nat) (anim : Animacao) (freq dur : Int)
    (r2 g2 b2 : ℚ) (s : Hw)
    (hfps : 0 < anim.fps) (hn : anim.num_frames ≤ 25) (hfreq : freq ≤ INT_MAX) :
    ∃ t, executar_animacao_multicolor pio sm anim freq dur r2 g2 b2 s = some (s.run t)
      ∧ BuzzerRestsLow t :=
  ⟨_, executar_animacao_multicolor_run pio sm anim freq dur r2 g2 b2 s hfps hn hfreq,
    restsLow_frames _ _ _ _ _ _ fun _ => restsLow_tone_if _ _ _⟩

theorem executar_animacao_lorenzo_restsLow (pio sm : Nat) (s : Hw) :
    ∃ t, executar_animacao_lorenzo pio sm s = some (s.run t) ∧ BuzzerRestsLow t :=
  ⟨_, executar_animacao_lorenzo_on_run animacao_5_lorenzo lorenzo_colors 7 pio sm s
      (by decide) (by decide) (by decide),
    restsLow_frames _ _ _ _ _ _ fun _ => restsLow_tone _ _⟩

theorem executar_animacao_musica_restsLow (pio sm : Nat) (s : Hw) :
    ∃ t, executar_animacao_musica pio sm s = some (s.run t) ∧ BuzzerRestsLow t :=
  ⟨_, executar_animacao_musica_on_run animacao_6_musica musica_colors 24 pio sm s
      (by decide) (by decide) (by decide),
    restsLow_frames _ _ _ _ _ _ fun _ => restsLow_tone _ _⟩

theorem executar_animacao_sirene_restsLow (pio sm : Nat) (s : Hw) :
    ∃ t, executar_animacao_sirene pio sm s = some (s.run t) ∧ BuzzerRestsLow t :=
  ⟨_, executar_animacao_sirene_on_run animacao_7_sirene pio sm s
      (by decide) (by decide) (by decide) (by decide),
    restsLow_frames _ _ _ _ _ _ fun _ => restsLow_tone _ _⟩

/-- Every case of the switch of main returns and leaves a low buzzer pin
low. -/
theorem main_switch_restsLow (pio sm : Nat) (key : Char) (s : Hw) :
    ∃ t, main_switch pio sm key s = some (s.run t) ∧ BuzzerRestsLow t := by
  unfold main_switch
  by_cases h0 : key = '0'
  · rw [if_pos h0]
    exact executar_animacao_restsLow _ _ _ _ _ _ (by decide) (by decide) (by decide)
  rw [if_neg h0]
  by_cases h1 : key = '1'
  · rw [if_pos h1]
    exact executar_animacao_restsLow _ _ _ _ _ _ (by decide) (by decide) (by decide)
  rw [if_neg h1]
  by_cases h2 : key = '2'
  · rw [if_pos h2]
    exact executar_animacao_restsLow _ _ _ _ _ _ (by decide) (by decide) (by decide)
  rw [if_neg h2]
  by_cases h3 : key = '3'
  · rw [if_pos h3]
    exact executar_animacao_multicolor_restsLow _ _ _ _ _ _ _ _ _ (by decide) (by decide)
      (by decide)
  rw [if_neg h3]
  by_cases h4 : key = '4'
  · rw [if_pos h4]
    exact executar_animacao_restsLow _ _ _ _ _ _ (by decide) (by decide) (by decide)
  rw [if_neg h4]
  by_cases h5 : key = '5'
  · rw [if_pos h5]
    exact executar_animacao_lorenzo_restsLow _ _ _
  rw [if_neg h5]
  by_cases h6 : key = '6'
  · rw [if_pos h6]
    exact executar_animacao_musica_restsLow _ _ _
  rw [if_neg h6]
  by_cases h7 : key = '7'
  · rw [if_pos h7]
    exact executar_animacao_sirene_restsLow _ _ _
  rw [if_neg h7]
  by_cases h8 : key = '8'
  · rw [if_pos h8]
    exact executar_animacao_restsLow _ _ _ _ _ _ (by decide) (by decide) (by decide)
  rw [if_neg h8]
  by_cases h9 : key = '9'
  · rw [if_pos h9]
    exact executar_animacao_restsLow _ _ _ _ _ _ (by decide) (by decide) (by decide)
  rw [if_neg h9]
  by_cases h10 : key = 'A'
  · rw [if_pos h10]
    exact desenho_pio_restsLow _ _ _ _ _ _
  rw [if_neg h10]
  by_cases h11 : key = 'B'
  · rw [if_pos h11]
    exact desenho_pio_restsLow _ _ _ _ _ _
  rw [if_neg h11]
  by_cases h12 : key = 'C'
  · rw [if_pos h12]
    exact desenho_pio_restsLow _ _ _ _ _ _
  rw [if_neg h12]
  by_cases h13 : key = 'D'
  · rw [if_pos h13]
    exact desenho_pio_restsLow _ _ _ _ _ _
  rw [if_neg h13]
  by_cases h14 : key = '#'
  · rw [if_pos h14]
    exact desenho_pio_restsLow _ _ _ _ _ _
  rw [if_neg h14]
  by_cases hstar : key = '*'
  · rw [if_pos hstar]
    refine ⟨[Event.printf, Event.reset_usb_boot], ?_, restsLow_of_no_put _ (by simp)⟩
    rw [log_eq_run _ _ (by intro p v; simp), log_eq_run _ _ (by intro p v; simp), Hw.run_run]
    rfl
  rw [if_neg hstar]
  exact ⟨[], by rw [Hw.run_nil], restsLow_nil⟩

/-- One pass of the loop of main returns and leaves a low buzzer pin low. -/
theorem main_loop_body_restsLow (pio sm : Nat) (reads : Nat → Nat → Bool) (s : Hw) :
    ∃ t, main_loop_body pio sm reads s = some (s.run t) ∧ BuzzerRestsLow t := by
  obtain ⟨t1, ht1, hq1⟩ := detect_key_restsLow reads s
  unfold main_loop_body
  rcases hres : detect_key reads s with ⟨key, s1⟩
  rw [hres] at ht1
  simp only at ht1
  subst ht1
  simp only
  split
  · obtain ⟨t2, ht2, hq2⟩ := main_switch_restsLow pio sm key (s.run t1)
    exact ⟨t1 ++ t2, by rw [ht2, Hw.run_run], restsLow_append _ _ hq1 hq2⟩
  · exact ⟨t1, rfl, hq1⟩

/-- Any number of passes of the loop of main returns and leaves a low buzzer
pin low. -/
theorem main_loop_restsLow (pio sm : Nat) (reads : Nat → Nat → Nat → Bool) (n : Nat) :
    ∀ (k : Nat) (s : Hw),
      ∃ t, forLoop (fun k s => main_loop_body pio sm (reads k) s) k n s = some (s.run t)
        ∧ BuzzerRestsLow t := by
  induction n with
  | zero =>
    intro k s
    exact ⟨[], by simp [forLoop, Hw.run_nil], restsLow_nil⟩
  | succ n ih =>
    intro k s
    obtain ⟨t1, ht1, hq1⟩ := main_loop_body_restsLow pio sm (reads k) s
    obtain ⟨t2, ht2, hq2⟩ := ih (k + 1) (s.run t1)
    refine ⟨t1 ++ t2, ?_, restsLow_append _ _ hq1 hq2⟩
    rw [forLoop, ht1, Option.some_bind, ht2, Hw.run_run]

/-- C10. For every frequency F > 0 and every duration D, buzzer_tone(F, D)
entered with the buzzer pin low returns, and when it returns the buzzer pin is
low. The pin is low at every entry the firmware makes: setup_gpio returns with
the pin low, and any number of passes of the loop of main, started with the
pin low and whatever the keypad reads, return after a trace in which the pin is
low at each entry into buzzer_tone and at the end. -/
theorem buzzer_tone_leaves_pin_low (F D : Nat) (s : Hw) (hF : 0 < F)
    (hs : s.pins BUZZER_PIN = false) :
    (∃ s', buzzer_tone F D s = some s' ∧ s'.pins BUZZER_PIN = false)
    ∧ (∀ s0, ∃ s1, setup_gpio s0 = some s1 ∧ s1.pins BUZZER_PIN = false)
    ∧ (∀ (pio sm : Nat) (reads : Nat → Nat → Nat → Bool) (n : Nat),
        ∃ s' t, main_loop pio sm reads n s = some s' ∧ s'.trace = s.trace ++ t
          ∧ (∀ level ∈ buzzerEntryLevels s.pins t, level = false)
          ∧ s'.pins BUZZER_PIN = false) := by
  refine ⟨⟨_, buzzer_tone_run F D s hF, ?_⟩, setup_gpio_buzzer_low, ?_⟩
  · rw [buzzer_tone_pins]
    split
    · exact hs
    · rfl
  · intro pio sm reads n
    obtain ⟨t, ht, hq⟩ := main_loop_restsLow pio sm reads n 0 s
    exact ⟨_, t, ht, rfl, (hq s.pins hs).1, (hq s.pins hs).2⟩

/-- C10, at 440 Hz for 2 ms (a tone of no cycle) and at 440 Hz for 100 ms, in
the state setup_gpio leaves. -/
theorem buzzer_tone_leaves_pin_low_witness :
    setup_gpio Hw.allHigh = some Hw.afterSetup
    ∧ (∃ s', buzzer_tone 440 2 Hw.afterSetup = some s' ∧ s'.pins BUZZER_PIN = false)
    ∧ (∃ s', buzzer_tone 440 100 Hw.afterSetup = some s' ∧ s'.pins BUZZER_PIN = false) :=
  ⟨rfl,
    (buzzer_tone_leaves_pin_low 440 2 Hw.afterSetup (by decide) rfl).1,
    (buzzer_tone_leaves_pin_low 440 100 Hw.afterSetup (by decide) rfl).1⟩

end MatrizLed
